import Mathlib

/-!
# Hardware inventory (hms-smd `pkg/sm/hwinv.go`) and component locks (`pkg/sm/complocks.go`)

A shallow embedding of `NewSystemHWInventory` and of the records it works on,
of the location and FRU codec, and of `CompLock`.

* Records are reached through pointers (`[]*HWInvByLoc`), and the roll-up appends
  children to parent records in place.  The embedding keeps this: a `Heap` maps
  every pointer to the record it refers to, the input list and all slots hold
  pointers, and the composition returns the final heap next to the aggregate.
  Pointers are non-nil references.
* A slot `*[]*HWInvByLoc` is an `Option (List Ptr)`: `none` is the nil pointer,
  `some l` a pointer to the slice `l` (owned by the record holding it).
* The naming library `hms-base` (`ToHMSType`, `GetHMSType`, `GetHMSCompParent`)
  and the Redfish payload structs are not part of the sources; they enter as
  parameters (`Taxonomy`, `RFTypes`).
* The codec methods and the lock methods write through their receiver; they are
  functions from the record before the call to the record after it and the
  values returned.  `encoding/json` enters as a parameter (`JSONLib`), as do
  `NormalizeHMSCompID` and `IsHMSCompIDValid` of hms-base (`CompIDLib`).
* The walk `for base.GetHMSType(parentID) != base.Node` has no bound in the
  source; `nodeAncestor` runs it with fuel and answers `none` when the fuel is
  used up before a Node-kind identifier is reached.
-/

namespace HmsSmd

/-! ## Kinds and errors -/

/-- Modelled from the spec: the enumeration `base.HMSType` of hms-base is
missing from the sources.  It has the fourteen kinds with a codec, the
reserved kinds `hmsTypeArrays` names a slot for, and `HMSTypeInvalid`. -/
inductive HMSType where
  | Cabinet | Chassis | ComputeModule | RouterModule | NodeEnclosure | HSNBoard
  | Node | Processor | Memory | Drive | CabinetPDU | CabinetPDUOutlet
  | CMMRectifier | NodeEnclosurePowerSupply
  | CEC | CDU | CabinetCDU | CMMFpga | NodeAccel | NodeFpga | RouterFpga
  | RouterTORFpga | HSNAsic | CabinetBMC | CabinetPDUController | ChassisBMC
  | NodeBMC | RouterBMC | CabinetPDUNic | NodePowerConnector | NodeBMCNic
  | NodeNic | NodeHsnNic | RouterBMCNic | SMSBox | HSNLink | HSNConnector
  | HSNConnectorPort | MgmtSwitch | MgmtSwitchConnector | StorageGroup
  | HMSTypeInvalid
  deriving DecidableEq, Repr

/-- The error values the package returns (`base.NewHMSError` values and the two
hms-base kind errors). -/
inductive HMSError where
  | ErrHWLocInvalid
  | ErrHWFRUIDInvalid
  | ErrHWInvFmtInvalid
  | ErrHWInvFmtNI
  | ErrHMSTypeInvalid
  | ErrHMSTypeUnsupported
  | ErrCompLockBadLifetime
  deriving DecidableEq, Repr

/-- The three functions of hms-base that the composition calls, as parameters. -/
structure Taxonomy where
  /-- `base.ToHMSType`: the kind named by a Type string. -/
  ToHMSType : String → HMSType
  /-- `base.GetHMSType`: the kind of the lowest component of an identifier. -/
  GetHMSType : String → HMSType
  /-- `base.GetHMSCompParent`: the identifier of the immediate parent. -/
  GetHMSCompParent : String → String

/-- The Redfish payload struct types of package `rf`, as parameters. -/
structure RFTypes where
  ChassisLocationInfoRF : Type
  SystemLocationInfoRF : Type
  ProcessorLocationInfoRF : Type
  MemoryLocationInfoRF : Type
  DriveLocationInfoRF : Type
  PowerDistributionLocationInfo : Type
  OutletLocationInfo : Type
  PowerSupplyLocationInfoRF : Type
  ChassisFRUInfoRF : Type
  SystemFRUInfoRF : Type
  ProcessorFRUInfoRF : Type
  MemoryFRUInfoRF : Type
  DriveFRUInfoRF : Type
  PowerDistributionFRUInfo : Type
  OutletFRUInfo : Type
  PowerSupplyFRUInfoRF : Type

/-! ## Records -/

/-- A pointer `*HWInvByLoc`. -/
abbrev Ptr := Nat

/-- The struct `hmsTypeArrays`: one optional array per kind. -/
structure hmsTypeArrays where
  Nodes : Option (List Ptr) := none
  Cabinets : Option (List Ptr) := none
  Chassis : Option (List Ptr) := none
  ComputeModules : Option (List Ptr) := none
  RouterModules : Option (List Ptr) := none
  NodeEnclosures : Option (List Ptr) := none
  HSNBoards : Option (List Ptr) := none
  Processors : Option (List Ptr) := none
  Memory : Option (List Ptr) := none
  Drives : Option (List Ptr) := none
  CabinetPDUs : Option (List Ptr) := none
  CabinetPDUOutlets : Option (List Ptr) := none
  CECs : Option (List Ptr) := none
  CDUs : Option (List Ptr) := none
  CabinetCDUs : Option (List Ptr) := none
  CMMRectifiers : Option (List Ptr) := none
  CMMFpgas : Option (List Ptr) := none
  NodeAccels : Option (List Ptr) := none
  NodeFpgas : Option (List Ptr) := none
  RouterFpgas : Option (List Ptr) := none
  RouterTORFpgas : Option (List Ptr) := none
  HSNAsics : Option (List Ptr) := none
  CabinetBMCs : Option (List Ptr) := none
  CabinetPDUControllers : Option (List Ptr) := none
  ChassisBMCs : Option (List Ptr) := none
  NodeBMCs : Option (List Ptr) := none
  RouterBMCs : Option (List Ptr) := none
  CabinetPDUNics : Option (List Ptr) := none
  NodeEnclosurePowerSupplies : Option (List Ptr) := none
  NodePowerConnectors : Option (List Ptr) := none
  NodeBMCNics : Option (List Ptr) := none
  NodeNICs : Option (List Ptr) := none
  NodeHsnNICs : Option (List Ptr) := none
  RouterBMCNics : Option (List Ptr) := none
  SMSBoxes : Option (List Ptr) := none
  HSNLinks : Option (List Ptr) := none
  HSNConnectors : Option (List Ptr) := none
  HSNConnectorPorts : Option (List Ptr) := none
  MgmtSwitches : Option (List Ptr) := none
  MgmtSwitchConnectors : Option (List Ptr) := none

/-- The struct `SystemHWInventory`. -/
structure SystemHWInventory extends hmsTypeArrays where
  XName : String := ""
  Format : String := ""

def HWInvFormatFullyFlat : String := "FullyFlat"
def HWInvFormatHierarchical : String := "Hierarchical"
def HWInvFormatNestNodesOnly : String := "NestNodesOnly"

/-- The struct `HWInvByFRU`. -/
structure HWInvByFRU (R : RFTypes) where
  FRUID : String := ""
  Type_ : String := ""
  Subtype : String := ""
  HWInventoryByFRUType : String := ""
  HMSCabinetFRUInfo : Option R.ChassisFRUInfoRF := none
  HMSChassisFRUInfo : Option R.ChassisFRUInfoRF := none
  HMSComputeModuleFRUInfo : Option R.ChassisFRUInfoRF := none
  HMSRouterModuleFRUInfo : Option R.ChassisFRUInfoRF := none
  HMSNodeEnclosureFRUInfo : Option R.ChassisFRUInfoRF := none
  HMSHSNBoardFRUInfo : Option R.ChassisFRUInfoRF := none
  HMSNodeFRUInfo : Option R.SystemFRUInfoRF := none
  HMSProcessorFRUInfo : Option R.ProcessorFRUInfoRF := none
  HMSMemoryFRUInfo : Option R.MemoryFRUInfoRF := none
  HMSDriveFRUInfo : Option R.DriveFRUInfoRF := none
  HMSPDUFRUInfo : Option R.PowerDistributionFRUInfo := none
  HMSOutletFRUInfo : Option R.OutletFRUInfo := none
  HMSCMMRectifierFRUInfo : Option R.PowerSupplyFRUInfoRF := none
  HMSNodeEnclosurePowerSupplyFRUInfo : Option R.PowerSupplyFRUInfoRF := none

/-- The struct `HWInvByLoc`; the embedded `hmsTypeArrays` holds the nested
children. -/
structure HWInvByLoc (R : RFTypes) extends hmsTypeArrays where
  ID : String := ""
  Type_ : String := ""
  Ordinal : Int := 0
  Status : String := ""
  HWInventoryByLocationType : String := ""
  HMSCabinetLocationInfo : Option R.ChassisLocationInfoRF := none
  HMSChassisLocationInfo : Option R.ChassisLocationInfoRF := none
  HMSComputeModuleLocationInfo : Option R.ChassisLocationInfoRF := none
  HMSRouterModuleLocationInfo : Option R.ChassisLocationInfoRF := none
  HMSNodeEnclosureLocationInfo : Option R.ChassisLocationInfoRF := none
  HMSHSNBoardLocationInfo : Option R.ChassisLocationInfoRF := none
  HMSNodeLocationInfo : Option R.SystemLocationInfoRF := none
  HMSProcessorLocationInfo : Option R.ProcessorLocationInfoRF := none
  HMSMemoryLocationInfo : Option R.MemoryLocationInfoRF := none
  HMSDriveLocationInfo : Option R.DriveLocationInfoRF := none
  HMSPDULocationInfo : Option R.PowerDistributionLocationInfo := none
  HMSOutletLocationInfo : Option R.OutletLocationInfo := none
  HMSCMMRectifierLocationInfo : Option R.PowerSupplyLocationInfoRF := none
  HMSNodeEnclosurePowerSupplyLocationInfo : Option R.PowerSupplyLocationInfoRF := none
  PopulatedFRU : Option (HWInvByFRU R) := none

/-- The memory the pointers of a call refer to. -/
abbrev Heap (R : RFTypes) := Ptr → HWInvByLoc R

/-- What a call of `NewSystemHWInventory` leaves behind: the two return values
(`hwinv = none` is the nil aggregate, `err = none` the nil error) and the
records as the call left them. -/
structure Composed (R : RFTypes) where
  hwinv : Option SystemHWInventory
  err : Option HMSError
  heap : Heap R

/-! ## NewSystemHWInventory -/

/-- The idiom `if s == nil { arr := make(..., 0, 1); s = &arr }; *s = append(*s, x)`. -/
def appendSlot (s : Option (List Ptr)) (x : Ptr) : Option (List Ptr) :=
  match s with
  | none => some [x]
  | some l => some (l ++ [x])

/-- One pass of the first loop (`switch base.ToHMSType(hwloc.Type)`): the
record is appended to the array of its kind, or the deferred error is set. -/
def bucket {R : RFTypes} (T : Taxonomy) (h : Heap R)
    (st : SystemHWInventory × Option HMSError) (hwloc : Ptr) :
    SystemHWInventory × Option HMSError :=
  match T.ToHMSType (h hwloc).Type_ with
  | .Cabinet => ({ st.1 with Cabinets := appendSlot st.1.Cabinets hwloc }, st.2)
  | .Chassis => ({ st.1 with Chassis := appendSlot st.1.Chassis hwloc }, st.2)
  | .ComputeModule =>
      ({ st.1 with ComputeModules := appendSlot st.1.ComputeModules hwloc }, st.2)
  | .RouterModule =>
      ({ st.1 with RouterModules := appendSlot st.1.RouterModules hwloc }, st.2)
  | .NodeEnclosure =>
      ({ st.1 with NodeEnclosures := appendSlot st.1.NodeEnclosures hwloc }, st.2)
  | .HSNBoard => ({ st.1 with HSNBoards := appendSlot st.1.HSNBoards hwloc }, st.2)
  | .Node => ({ st.1 with Nodes := appendSlot st.1.Nodes hwloc }, st.2)
  | .Processor => ({ st.1 with Processors := appendSlot st.1.Processors hwloc }, st.2)
  | .Memory => ({ st.1 with Memory := appendSlot st.1.Memory hwloc }, st.2)
  | .Drive => ({ st.1 with Drives := appendSlot st.1.Drives hwloc }, st.2)
  | .CabinetPDU => ({ st.1 with CabinetPDUs := appendSlot st.1.CabinetPDUs hwloc }, st.2)
  | .CabinetPDUOutlet =>
      ({ st.1 with CabinetPDUOutlets := appendSlot st.1.CabinetPDUOutlets hwloc }, st.2)
  | .HMSTypeInvalid => (st.1, some HMSError.ErrHMSTypeInvalid)
  | _ => (st.1, some HMSError.ErrHMSTypeUnsupported)

/-- The lookup maps `nmap` and `pdumap`: `m[n.ID] = n` for every entry of the
array in order, a later entry overwriting an earlier one with the same ID. -/
def buildMap {R : RFTypes} (h : Heap R) (arr : Option (List Ptr)) : String → Option Ptr :=
  match arr with
  | none => fun _ => none
  | some l => l.foldl (fun m n => Function.update m (h n).ID (some n)) (fun _ => none)

/-- The walk `for base.GetHMSType(parentID) != base.Node { parentID =
base.GetHMSCompParent(parentID) }` with a bound on the number of loop tests:
`some id` when the loop exits with `parentID = id`, `none` when the bound is
reached first. -/
def nodeAncestor (T : Taxonomy) : Nat → String → Option String
  | 0, _ => none
  | fuel + 1, parentID =>
      if T.GetHMSType parentID = HMSType.Node then some parentID
      else nodeAncestor T fuel (T.GetHMSCompParent parentID)

/-- The four nested slots the roll-up writes. -/
inductive NestSlot where
  | Processors | Memory | Drives | CabinetPDUOutlets
  deriving DecidableEq, Repr

/-- Reading the nested slot of a record. -/
def NestSlot.get {R : RFTypes} (s : NestSlot) (r : HWInvByLoc R) : Option (List Ptr) :=
  match s with
  | .Processors => r.Processors
  | .Memory => r.Memory
  | .Drives => r.Drives
  | .CabinetPDUOutlets => r.CabinetPDUOutlets

/-- Writing the nested slot of a record. -/
def NestSlot.set {R : RFTypes} (s : NestSlot) (r : HWInvByLoc R) (v : Option (List Ptr)) :
    HWInvByLoc R :=
  match s with
  | .Processors => { r with Processors := v }
  | .Memory => { r with Memory := v }
  | .Drives => { r with Drives := v }
  | .CabinetPDUOutlets => { r with CabinetPDUOutlets := v }

/-- One pass of a roll-up loop over a drained array.  `parentOf` computes the
parent identifier from the child's ID (`none`: the computation does not
finish); the child goes to the parent found in the map, or back to the
top-level array `st.2` when the map has no such key. -/
def rollUpStep {R : RFTypes} (slot : NestSlot) (parentOf : String → Option String)
    (m : String → Option Ptr) (st : Heap R × Option (List Ptr)) (c : Ptr) :
    Option (Heap R × Option (List Ptr)) :=
  match parentOf (st.1 c).ID with
  | none => none
  | some parentID =>
      match m parentID with
      | none => some (st.1, appendSlot st.2 c)
      | some parent =>
          some (Function.update st.1 parent
                  (slot.set (st.1 parent) (appendSlot (slot.get (st.1 parent)) c)),
                st.2)

/-- A roll-up loop: `rollUpStep` for every element of the drained array. -/
def rollUpLoop {R : RFTypes} (slot : NestSlot) (parentOf : String → Option String)
    (m : String → Option Ptr) :
    List Ptr → Heap R × Option (List Ptr) → Option (Heap R × Option (List Ptr))
  | [], st => some st
  | c :: cs, st =>
      match rollUpStep slot parentOf m st c with
      | none => none
      | some st1 => rollUpLoop slot parentOf m cs st1

/-- The guarded loop `if arr != nil { for _, c := range *arr { ... } }`, the
top-level array having been set to nil before. -/
def rollUp {R : RFTypes} (slot : NestSlot) (parentOf : String → Option String)
    (m : String → Option Ptr) (arr : Option (List Ptr)) (h : Heap R) :
    Option (Heap R × Option (List Ptr)) :=
  match arr with
  | none => some (h, none)
  | some l => rollUpLoop slot parentOf m l (h, none)

/-- The function `NewSystemHWInventory(hwlocs, xName, format)`, run on the heap
`h`.  The result is `none` when the walk of some drive does not finish within
`fuel` loop tests. -/
def NewSystemHWInventory {R : RFTypes} (T : Taxonomy) (fuel : Nat) (h : Heap R)
    (hwlocs : List Ptr) (xName format : String) : Option (Composed R) :=
  if format = HWInvFormatNestNodesOnly ∨ format = HWInvFormatHierarchical ∨
      format = HWInvFormatFullyFlat then
    let st := hwlocs.foldl (bucket T h) ({ XName := xName, Format := format }, none)
    let hwinv := st.1
    let err := st.2
    let rolled : Option (SystemHWInventory × Heap R) :=
      if hwinv.Format = HWInvFormatNestNodesOnly ∨
          hwinv.Format = HWInvFormatHierarchical then
        let nmap := buildMap h hwinv.Nodes
        let procArray := hwinv.Processors
        let memArray := hwinv.Memory
        let driveArray := hwinv.Drives
        match rollUp .Processors (fun id => some (T.GetHMSCompParent id)) nmap procArray h with
        | none => none
        | some (h1, procs) =>
          match rollUp .Memory (fun id => some (T.GetHMSCompParent id)) nmap memArray h1 with
          | none => none
          | some (h2, mems) =>
            match rollUp .Drives (nodeAncestor T fuel) nmap driveArray h2 with
            | none => none
            | some (h3, drives) =>
              let hwinv1 : SystemHWInventory :=
                { hwinv with Processors := procs, Memory := mems, Drives := drives }
              let pdumap := buildMap h3 hwinv1.CabinetPDUs
              let cabPDUArray := hwinv1.CabinetPDUOutlets
              match rollUp .CabinetPDUOutlets (fun id => some (T.GetHMSCompParent id))
                      pdumap cabPDUArray h3 with
              | none => none
              | some (h4, _) =>
                -- `hwinv.CabinetPDUOutlets = nil` after the loop (line 368)
                some ({ hwinv1 with CabinetPDUOutlets := none }, h4)
      else some (hwinv, h)
    match rolled with
    | none => none
    | some (hwinv2, h5) =>
      if hwinv2.Format = HWInvFormatHierarchical then
        some ⟨some hwinv2, some HMSError.ErrHWInvFmtNI, h5⟩
      else
        some ⟨some hwinv2, err, h5⟩
  else
    some ⟨none, some HMSError.ErrHWInvFmtInvalid, h⟩

/-! ## An instance of the naming library, for concrete inputs -/

/-- Modelled from the spec: the letters of the segments of an identifier, each
segment being one lower-case letter followed by at least one digit
(`"x0c0s0b0n0"` gives `"xcsbn"`); `none` when the text is not of that shape.
The state is 0 at the start, 1 after a letter, 2 after a digit. -/
def segLetters : Nat → List Char → Option (List Char)
  | st, [] => if st = 2 then some [] else none
  | st, c :: cs =>
      if c.isDigit then
        (if st = 0 then none else segLetters 2 cs)
      else if c.isLower then
        (if st = 1 then none else (segLetters 1 cs).map (fun ls => c :: ls))
      else none

/-- Modelled from the spec: `KindOf(id)`, the kind of the lowest component of
an identifier, read off the letters of its segments; `HMSTypeInvalid` for
anything else, the empty identifier included. -/
def xnameGetHMSType (id : String) : HMSType :=
  match segLetters 0 id.data with
  | none => HMSType.HMSTypeInvalid
  | some ls =>
      let k := String.mk ls
      if k = "x" then HMSType.Cabinet
      else if k = "xc" then HMSType.Chassis
      else if k = "xcs" then HMSType.ComputeModule
      else if k = "xcr" then HMSType.RouterModule
      else if k = "xcse" then HMSType.NodeEnclosure
      else if k = "xcre" then HMSType.HSNBoard
      else if k = "xcsb" then HMSType.NodeBMC
      else if k = "xcsbn" then HMSType.Node
      else if k = "xcsbnp" then HMSType.Processor
      else if k = "xcsbnd" then HMSType.Memory
      else if k = "xcsbng" then HMSType.StorageGroup
      else if k = "xcsbngk" then HMSType.Drive
      else if k = "xm" then HMSType.CabinetPDUController
      else if k = "xmp" then HMSType.CabinetPDU
      else if k = "xmpj" then HMSType.CabinetPDUOutlet
      else if k = "xct" then HMSType.CMMRectifier
      else if k = "xcset" then HMSType.NodeEnclosurePowerSupply
      else HMSType.HMSTypeInvalid

/-- Modelled from the spec: `ParentID(id)` strips the lowest hierarchy segment,
the trailing digits and the letter before them. -/
def xnameGetHMSCompParent (id : String) : String :=
  String.mk ((id.data.reverse.dropWhile Char.isDigit).dropWhile Char.isAlpha).reverse

/-- Modelled from the spec: the kind a record declares in its Type string, by
the name of the kind; `HMSTypeInvalid` for a string that names no kind. -/
def xnameToHMSType (t : String) : HMSType :=
  if t = "Cabinet" then HMSType.Cabinet
  else if t = "Chassis" then HMSType.Chassis
  else if t = "ComputeModule" then HMSType.ComputeModule
  else if t = "RouterModule" then HMSType.RouterModule
  else if t = "NodeEnclosure" then HMSType.NodeEnclosure
  else if t = "HSNBoard" then HMSType.HSNBoard
  else if t = "Node" then HMSType.Node
  else if t = "Processor" then HMSType.Processor
  else if t = "Memory" then HMSType.Memory
  else if t = "Drive" then HMSType.Drive
  else if t = "CabinetPDU" then HMSType.CabinetPDU
  else if t = "CabinetPDUOutlet" then HMSType.CabinetPDUOutlet
  else if t = "CMMRectifier" then HMSType.CMMRectifier
  else if t = "NodeEnclosurePowerSupply" then HMSType.NodeEnclosurePowerSupply
  else if t = "NodeBMC" then HMSType.NodeBMC
  else if t = "StorageGroup" then HMSType.StorageGroup
  else if t = "CabinetPDUController" then HMSType.CabinetPDUController
  else HMSType.HMSTypeInvalid

/-- Modelled from the spec: the naming collaborator of section 4.1 on xnames. -/
def xnames : Taxonomy where
  ToHMSType := xnameToHMSType
  GetHMSType := xnameGetHMSType
  GetHMSCompParent := xnameGetHMSCompParent

/-- Payload types for concrete inputs: the composition never reads a payload. -/
def noPayload : RFTypes :=
  ⟨Unit, Unit, Unit, Unit, Unit, Unit, Unit, Unit, Unit, Unit, Unit, Unit, Unit, Unit,
   Unit, Unit⟩

/-- A record with the given ID and Type and nothing else set. -/
def mkLoc (id type : String) : HWInvByLoc noPayload := { ID := id, Type_ := type }

/-- A heap holding the listed records at the addresses 0, 1, 2, ...; every
other address holds an empty record. -/
def heapOf (l : List (HWInvByLoc noPayload)) : Heap noPayload :=
  fun p => l.getD p {}

/-! ## Vocabulary of the statements -/

/-- The kind a record declares: `base.ToHMSType(hwloc.Type)`. -/
def kindOf {R : RFTypes} (T : Taxonomy) (h : Heap R) (p : Ptr) : HMSType :=
  T.ToHMSType (h p).Type_

/-- The entries of a list that declare the kind `k`, in the order of the list. -/
def ofKind {R : RFTypes} (T : Taxonomy) (h : Heap R) (k : HMSType) (l : List Ptr) :
    List Ptr :=
  l.filter (fun p => decide (kindOf T h p = k))

/-- A slot after the entries of `l` have been appended one by one: unchanged
(possibly still nil) when `l` is empty. -/
def appendAll (s : Option (List Ptr)) : List Ptr → Option (List Ptr)
  | [] => s
  | x :: xs => some (s.getD [] ++ x :: xs)

/-- The twelve kinds the first loop has a case for. -/
def bucketed (k : HMSType) : Bool :=
  match k with
  | .Cabinet | .Chassis | .ComputeModule | .RouterModule | .NodeEnclosure | .HSNBoard
  | .Node | .Processor | .Memory | .Drive | .CabinetPDU | .CabinetPDUOutlet => true
  | _ => false

/-- The error a record of kind `k` leaves in `err`, `none` when it leaves `err`
as it is. -/
def kindErr (k : HMSType) : Option HMSError :=
  if bucketed k then none
  else if k = HMSType.HMSTypeInvalid then some HMSError.ErrHMSTypeInvalid
  else some HMSError.ErrHMSTypeUnsupported

/-- The deferred error after the first loop: the error of the last record
that sets one, else the value `e` from before the loop. -/
def deferredErr {R : RFTypes} (T : Taxonomy) (h : Heap R) (e : Option HMSError)
    (l : List Ptr) : Option HMSError :=
  match (l.filterMap (fun p => kindErr (kindOf T h p))).getLast? with
  | some e1 => some e1
  | none => e

/-- The aggregate after the first loop has run over `l`, starting from `hw`. -/
def bucketInto {R : RFTypes} (T : Taxonomy) (h : Heap R) (hw : SystemHWInventory)
    (l : List Ptr) : SystemHWInventory :=
  { hw with
    Cabinets := appendAll hw.Cabinets (ofKind T h .Cabinet l)
    Chassis := appendAll hw.Chassis (ofKind T h .Chassis l)
    ComputeModules := appendAll hw.ComputeModules (ofKind T h .ComputeModule l)
    RouterModules := appendAll hw.RouterModules (ofKind T h .RouterModule l)
    NodeEnclosures := appendAll hw.NodeEnclosures (ofKind T h .NodeEnclosure l)
    HSNBoards := appendAll hw.HSNBoards (ofKind T h .HSNBoard l)
    Nodes := appendAll hw.Nodes (ofKind T h .Node l)
    Processors := appendAll hw.Processors (ofKind T h .Processor l)
    Memory := appendAll hw.Memory (ofKind T h .Memory l)
    Drives := appendAll hw.Drives (ofKind T h .Drive l)
    CabinetPDUs := appendAll hw.CabinetPDUs (ofKind T h .CabinetPDU l)
    CabinetPDUOutlets := appendAll hw.CabinetPDUOutlets (ofKind T h .CabinetPDUOutlet l) }

/-- The parent record the roll-up finds for the child `c`: the map entry of
the computed parent identifier; `none` when there is no such entry (or the
identifier is not computed). -/
def parentPtr {R : RFTypes} (parentOf : String → Option String) (m : String → Option Ptr)
    (h : Heap R) (c : Ptr) : Option Ptr :=
  (parentOf (h c).ID).bind m

/-- The entries of a drained array that the roll-up hands to the parent `q`. -/
def childrenOf {R : RFTypes} (parentOf : String → Option String) (m : String → Option Ptr)
    (h : Heap R) (q : Ptr) (cs : List Ptr) : List Ptr :=
  cs.filter (fun c => decide (parentPtr parentOf m h c = some q))

/-- The entries of a drained array for which the roll-up finds no parent. -/
def orphansOf {R : RFTypes} (parentOf : String → Option String) (m : String → Option Ptr)
    (h : Heap R) (cs : List Ptr) : List Ptr :=
  cs.filter (fun c => decide (parentPtr parentOf m h c = none))

/-- The records after a roll-up loop over `cs`: every record has its children
appended to the nested slot, and is otherwise as before. -/
def rolledHeap {R : RFTypes} (slot : NestSlot) (parentOf : String → Option String)
    (m : String → Option Ptr) (h : Heap R) (cs : List Ptr) : Heap R :=
  fun q => slot.set (h q) (appendAll (slot.get (h q)) (childrenOf parentOf m h q cs))

/-- The parent computation of the Processor, Memory and outlet loops:
`base.GetHMSCompParent(c.ID)`, which always returns. -/
def immediateParent (T : Taxonomy) : String → Option String :=
  fun id => some (T.GetHMSCompParent id)

/-- The map `nmap` of a call: built from the Node-kind records of the input. -/
def nodeMap {R : RFTypes} (T : Taxonomy) (h : Heap R) (hwlocs : List Ptr) :
    String → Option Ptr :=
  buildMap h (appendAll none (ofKind T h .Node hwlocs))

/-- The map `pdumap` of a call: built from the CabinetPDU-kind records of the
input. -/
def pduMap {R : RFTypes} (T : Taxonomy) (h : Heap R) (hwlocs : List Ptr) :
    String → Option Ptr :=
  buildMap h (appendAll none (ofKind T h .CabinetPDU hwlocs))

/-- The records after the four roll-up loops of a call. -/
def nestHeap {R : RFTypes} (T : Taxonomy) (fuel : Nat) (h : Heap R) (hwlocs : List Ptr) :
    Heap R :=
  fun q =>
    { h q with
      Processors := appendAll (h q).Processors
        (childrenOf (immediateParent T) (nodeMap T h hwlocs) h q (ofKind T h .Processor hwlocs))
      Memory := appendAll (h q).Memory
        (childrenOf (immediateParent T) (nodeMap T h hwlocs) h q (ofKind T h .Memory hwlocs))
      Drives := appendAll (h q).Drives
        (childrenOf (nodeAncestor T fuel) (nodeMap T h hwlocs) h q (ofKind T h .Drive hwlocs))
      CabinetPDUOutlets := appendAll (h q).CabinetPDUOutlets
        (childrenOf (immediateParent T) (pduMap T h hwlocs) h q
          (ofKind T h .CabinetPDUOutlet hwlocs)) }

/-- The aggregate after the roll-up of a call. -/
def nestInventory {R : RFTypes} (T : Taxonomy) (fuel : Nat) (h : Heap R)
    (hwlocs : List Ptr) (xName format : String) : SystemHWInventory :=
  { bucketInto T h { XName := xName, Format := format } hwlocs with
    Processors := appendAll none
      (orphansOf (immediateParent T) (nodeMap T h hwlocs) h (ofKind T h .Processor hwlocs))
    Memory := appendAll none
      (orphansOf (immediateParent T) (nodeMap T h hwlocs) h (ofKind T h .Memory hwlocs))
    Drives := appendAll none
      (orphansOf (nodeAncestor T fuel) (nodeMap T h hwlocs) h (ofKind T h .Drive hwlocs))
    CabinetPDUOutlets := none }

/-- Whether the input holds a record of kind `k` with the identifier `id`. -/
def hasRecord {R : RFTypes} (T : Taxonomy) (h : Heap R) (hwlocs : List Ptr) (k : HMSType)
    (id : String) : Bool :=
  hwlocs.any (fun n => decide (kindOf T h n = k) && decide ((h n).ID = id))

/-- All slots of an `hmsTypeArrays`, in the order of the struct. -/
def allSlots (a : hmsTypeArrays) : List (Option (List Ptr)) :=
  [a.Nodes, a.Cabinets, a.Chassis, a.ComputeModules, a.RouterModules, a.NodeEnclosures,
   a.HSNBoards, a.Processors, a.Memory, a.Drives, a.CabinetPDUs, a.CabinetPDUOutlets,
   a.CECs, a.CDUs, a.CabinetCDUs, a.CMMRectifiers, a.CMMFpgas, a.NodeAccels, a.NodeFpgas,
   a.RouterFpgas, a.RouterTORFpgas, a.HSNAsics, a.CabinetBMCs, a.CabinetPDUControllers,
   a.ChassisBMCs, a.NodeBMCs, a.RouterBMCs, a.CabinetPDUNics, a.NodeEnclosurePowerSupplies,
   a.NodePowerConnectors, a.NodeBMCNics, a.NodeNICs, a.NodeHsnNICs, a.RouterBMCNics,
   a.SMSBoxes, a.HSNLinks, a.HSNConnectors, a.HSNConnectorPorts, a.MgmtSwitches,
   a.MgmtSwitchConnectors]

/-- The number of records over all slots of an `hmsTypeArrays`. -/
def slotCount (a : hmsTypeArrays) : Nat :=
  ((allSlots a).map (fun s => (s.getD []).length)).sum

/-- A slot holding the list `l`: nil when `l` is empty. -/
def slotOf (l : List Ptr) : Option (List Ptr) :=
  if l = [] then none else some l

/-! ## Component locks (`pkg/sm/complocks.go`) -/

/-- The two functions of hms-base that the component locks call, as parameters. -/
structure CompIDLib where
  /-- `base.NormalizeHMSCompID`: the canonical form of an identifier. -/
  NormalizeHMSCompID : String → String
  /-- `base.IsHMSCompIDValid`: whether an identifier is a valid component ID. -/
  IsHMSCompIDValid : String → Bool

/-- The struct `CompLock`; `Lifetime` is a Go `int`, which the code only
compares with 0. -/
structure CompLock where
  ID : String := ""
  Created : String := ""
  Reason : String := ""
  Owner : String := ""
  Lifetime : Int := 0
  Xnames : List String := []
  normalized : Bool := false
  verified : Bool := false
  deriving DecidableEq, Repr

/-- The method `(cl *CompLock) Normalize()`: the lock after the call. -/
def CompLock.Normalize (L : CompIDLib) (cl : CompLock) : CompLock :=
  if cl.normalized = true then cl
  else
    { cl with normalized := true, Xnames := cl.Xnames.map L.NormalizeHMSCompID }

/-- The loop of `Verify` over the xnames: it returns `base.ErrHMSTypeInvalid` at
the first identifier that is not valid, and falls through to `return nil`. -/
def verifyXnames (L : CompIDLib) : List String → Option HMSError
  | [] => none
  | xname :: rest =>
      if L.IsHMSCompIDValid xname = false then some HMSError.ErrHMSTypeInvalid
      else verifyXnames L rest

/-- The method `(cl *CompLock) Verify()`: the lock after the call and the error
returned (`none` is nil). -/
def CompLock.Verify (L : CompIDLib) (cl : CompLock) : CompLock × Option HMSError :=
  if cl.verified = true then (cl, none)
  else
    let cl1 := { cl with verified := true }
    if cl1.Lifetime ≤ 0 then (cl1, some HMSError.ErrCompLockBadLifetime)
    else (cl1, verifyXnames L cl1.Xnames)

/-- The function `NewCompLock(reason, owner, lifetime, xnames)`: the lock
returned and the error returned. -/
def NewCompLock (L : CompIDLib) (reason owner : String) (lifetime : Int)
    (xnames : List String) : CompLock × Option HMSError :=
  let cl : CompLock := { Reason := reason, Owner := owner, Lifetime := lifetime,
                         Xnames := [] ++ xnames }
  let cl := cl.Normalize L
  cl.Verify L

/-- Modelled from the spec: the naming collaborator's canonical form (lower
case) and validity test (the identifier has a kind) on xnames. -/
def xnameIDs : CompIDLib where
  NormalizeHMSCompID := fun s => String.mk (s.data.map Char.toLower)
  IsHMSCompIDValid := fun s => decide (xnameGetHMSType s ≠ HMSType.HMSTypeInvalid)

/-! ## The codec (`DecodeLocationInfo`, `EncodeLocationInfo`, `DecodeFRUInfo`, `EncodeFRUInfo`) -/

/-- A byte slice `[]byte`. -/
abbrev Bytes := List UInt8

/-- A Go `error` value as a codec function returns it: one of the error values
of the packages, or an error of the JSON library, which is none of those. -/
inductive GoError (E : Type) where
  | hms (e : HMSError)
  | json (e : E)

/-- The library `encoding/json` at one payload struct type `P`, as a parameter;
`E` is the type of its errors. -/
structure JSONOf (E P : Type) where
  /-- `json.Unmarshal(data, v)` with `v = new(P)`: the error, or the struct as
  filled in. -/
  Unmarshal : Bytes → Except E P
  /-- `json.Marshal(v)` with `v` a `*P`, possibly nil: the error, or the bytes. -/
  Marshal : Option P → Except E Bytes

/-- The library `encoding/json` at the payload struct types of package `rf`. -/
structure JSONLib (R : RFTypes) where
  Err : Type
  ChassisLocationInfoRF : JSONOf Err R.ChassisLocationInfoRF
  SystemLocationInfoRF : JSONOf Err R.SystemLocationInfoRF
  ProcessorLocationInfoRF : JSONOf Err R.ProcessorLocationInfoRF
  MemoryLocationInfoRF : JSONOf Err R.MemoryLocationInfoRF
  DriveLocationInfoRF : JSONOf Err R.DriveLocationInfoRF
  PowerDistributionLocationInfo : JSONOf Err R.PowerDistributionLocationInfo
  OutletLocationInfo : JSONOf Err R.OutletLocationInfo
  PowerSupplyLocationInfoRF : JSONOf Err R.PowerSupplyLocationInfoRF
  ChassisFRUInfoRF : JSONOf Err R.ChassisFRUInfoRF
  SystemFRUInfoRF : JSONOf Err R.SystemFRUInfoRF
  ProcessorFRUInfoRF : JSONOf Err R.ProcessorFRUInfoRF
  MemoryFRUInfoRF : JSONOf Err R.MemoryFRUInfoRF
  DriveFRUInfoRF : JSONOf Err R.DriveFRUInfoRF
  PowerDistributionFRUInfo : JSONOf Err R.PowerDistributionFRUInfo
  OutletFRUInfo : JSONOf Err R.OutletFRUInfo
  PowerSupplyFRUInfoRF : JSONOf Err R.PowerSupplyFRUInfoRF

/-- The two results of `x, err = json.Marshal(v)`: the bytes with a nil error,
or nil bytes with the library's error. -/
def marshalResult {E : Type} (res : Except E Bytes) : Bytes × Option (GoError E) :=
  match res with
  | .ok b => (b, none)
  | .error e => ([], some (GoError.json e))

/-- The fourteen kinds the codec has a case for. -/
def codecKind (k : HMSType) : Bool :=
  match k with
  | .Cabinet | .Chassis | .ComputeModule | .RouterModule | .NodeEnclosure | .HSNBoard
  | .Node | .Processor | .Memory | .Drive | .CabinetPDU | .CabinetPDUOutlet
  | .CMMRectifier | .NodeEnclosurePowerSupply => true
  | _ => false

/-- The fourteen kinds the codec has a case for, as a list. -/
def codecKinds : List HMSType :=
  [.Cabinet, .Chassis, .ComputeModule, .RouterModule, .NodeEnclosure, .HSNBoard,
   .Node, .Processor, .Memory, .Drive, .CabinetPDU, .CabinetPDUOutlet,
   .CMMRectifier, .NodeEnclosurePowerSupply]

/-- The JSON library round-trips the values of one payload type: what `Marshal`
writes for a struct, `Unmarshal` reads back as that struct. -/
def JSONOf.RoundTrips {E P : Type} (c : JSONOf E P) : Prop :=
  ∀ (p : P) (b : Bytes), c.Marshal (some p) = .ok b → c.Unmarshal b = .ok p

/-- The JSON library round-trips every payload type. -/
def JSONLib.RoundTrips {R : RFTypes} (J : JSONLib R) : Prop :=
  J.ChassisLocationInfoRF.RoundTrips ∧ J.SystemLocationInfoRF.RoundTrips ∧
  J.ProcessorLocationInfoRF.RoundTrips ∧ J.MemoryLocationInfoRF.RoundTrips ∧
  J.DriveLocationInfoRF.RoundTrips ∧ J.PowerDistributionLocationInfo.RoundTrips ∧
  J.OutletLocationInfo.RoundTrips ∧ J.PowerSupplyLocationInfoRF.RoundTrips ∧
  J.ChassisFRUInfoRF.RoundTrips ∧ J.SystemFRUInfoRF.RoundTrips ∧
  J.ProcessorFRUInfoRF.RoundTrips ∧ J.MemoryFRUInfoRF.RoundTrips ∧
  J.DriveFRUInfoRF.RoundTrips ∧ J.PowerDistributionFRUInfo.RoundTrips ∧
  J.OutletFRUInfo.RoundTrips ∧ J.PowerSupplyFRUInfoRF.RoundTrips

def HWInvByLocCabinet : String := "HWInvByLocCabinet"
def HWInvByLocChassis : String := "HWInvByLocChassis"
def HWInvByLocComputeModule : String := "HWInvByLocComputeModule"
def HWInvByLocRouterModule : String := "HWInvByLocRouterModule"
def HWInvByLocNodeEnclosure : String := "HWInvByLocNodeEnclosure"
def HWInvByLocHSNBoard : String := "HWInvByLocHSNBoard"
def HWInvByLocNode : String := "HWInvByLocNode"
def HWInvByLocProcessor : String := "HWInvByLocProcessor"
def HWInvByLocDrive : String := "HWInvByLocDrive"
def HWInvByLocMemory : String := "HWInvByLocMemory"
def HWInvByLocPDU : String := "HWInvByLocPDU"
def HWInvByLocOutlet : String := "HWInvByLocOutlet"
def HWInvByLocCMMRectifier : String := "HWInvByLocCMMRectifier"
def HWInvByLocNodeEnclosurePowerSupply : String := "HWInvByLocNodeEnclosurePowerSupply"

/-- The method `(hw *HWInvByLoc) DecodeLocationInfo(locInfoJSON)`: the record
after the call and the error returned (`none` is nil). -/
def DecodeLocationInfo {R : RFTypes} (J : JSONLib R) (T : Taxonomy) (hw : HWInvByLoc R)
    (locInfoJSON : Bytes) : HWInvByLoc R × Option (GoError J.Err) :=
  match T.ToHMSType hw.Type_ with
  | .Cabinet | .Chassis | .ComputeModule | .RouterModule | .NodeEnclosure | .HSNBoard =>
      match J.ChassisLocationInfoRF.Unmarshal locInfoJSON with
      | .error e => (hw, some (GoError.json e))
      | .ok rfChassisLocationInfo =>
          match T.ToHMSType hw.Type_ with
          | .Cabinet =>
              ({ hw with HMSCabinetLocationInfo := some rfChassisLocationInfo
                         HWInventoryByLocationType := HWInvByLocCabinet }, none)
          | .Chassis =>
              ({ hw with HMSChassisLocationInfo := some rfChassisLocationInfo
                         HWInventoryByLocationType := HWInvByLocChassis }, none)
          | .ComputeModule =>
              ({ hw with HMSComputeModuleLocationInfo := some rfChassisLocationInfo
                         HWInventoryByLocationType := HWInvByLocComputeModule }, none)
          | .RouterModule =>
              ({ hw with HMSRouterModuleLocationInfo := some rfChassisLocationInfo
                         HWInventoryByLocationType := HWInvByLocRouterModule }, none)
          | .NodeEnclosure =>
              ({ hw with HMSNodeEnclosureLocationInfo := some rfChassisLocationInfo
                         HWInventoryByLocationType := HWInvByLocNodeEnclosure }, none)
          | .HSNBoard =>
              ({ hw with HMSHSNBoardLocationInfo := some rfChassisLocationInfo
                         HWInventoryByLocationType := HWInvByLocHSNBoard }, none)
          | _ => (hw, none)
  | .Node =>
      match J.SystemLocationInfoRF.Unmarshal locInfoJSON with
      | .error e => (hw, some (GoError.json e))
      | .ok rfSystemLocationInfo =>
          ({ hw with HMSNodeLocationInfo := some rfSystemLocationInfo
                     HWInventoryByLocationType := HWInvByLocNode }, none)
  | .Processor =>
      match J.ProcessorLocationInfoRF.Unmarshal locInfoJSON with
      | .error e => (hw, some (GoError.json e))
      | .ok rfProcessorLocationInfo =>
          ({ hw with HMSProcessorLocationInfo := some rfProcessorLocationInfo
                     HWInventoryByLocationType := HWInvByLocProcessor }, none)
  | .Memory =>
      match J.MemoryLocationInfoRF.Unmarshal locInfoJSON with
      | .error e => (hw, some (GoError.json e))
      | .ok rfMemoryLocationInfo =>
          ({ hw with HMSMemoryLocationInfo := some rfMemoryLocationInfo
                     HWInventoryByLocationType := HWInvByLocMemory }, none)
  | .Drive =>
      match J.DriveLocationInfoRF.Unmarshal locInfoJSON with
      | .error e => (hw, some (GoError.json e))
      | .ok rfDriveLocationInfo =>
          ({ hw with HMSDriveLocationInfo := some rfDriveLocationInfo
                     HWInventoryByLocationType := HWInvByLocDrive }, none)
  | .CabinetPDU =>
      match J.PowerDistributionLocationInfo.Unmarshal locInfoJSON with
      | .error e => (hw, some (GoError.json e))
      | .ok rfPDULocationInfo =>
          ({ hw with HMSPDULocationInfo := some rfPDULocationInfo
                     HWInventoryByLocationType := HWInvByLocPDU }, none)
  | .CabinetPDUOutlet =>
      match J.OutletLocationInfo.Unmarshal locInfoJSON with
      | .error e => (hw, some (GoError.json e))
      | .ok rfOutletLocationInfo =>
          ({ hw with HMSOutletLocationInfo := some rfOutletLocationInfo
                     HWInventoryByLocationType := HWInvByLocOutlet }, none)
  | .CMMRectifier =>
      match J.PowerSupplyLocationInfoRF.Unmarshal locInfoJSON with
      | .error e => (hw, some (GoError.json e))
      | .ok rfCMMRectifierLocationInfo =>
          ({ hw with HMSCMMRectifierLocationInfo := some rfCMMRectifierLocationInfo
                     HWInventoryByLocationType := HWInvByLocCMMRectifier }, none)
  | .NodeEnclosurePowerSupply =>
      match J.PowerSupplyLocationInfoRF.Unmarshal locInfoJSON with
      | .error e => (hw, some (GoError.json e))
      | .ok rfNodeEnclosurePowerSupplyLocationInfo =>
          ({ hw with
             HMSNodeEnclosurePowerSupplyLocationInfo :=
               some rfNodeEnclosurePowerSupplyLocationInfo
             HWInventoryByLocationType := HWInvByLocNodeEnclosurePowerSupply }, none)
  | .HMSTypeInvalid => (hw, some (GoError.hms HMSError.ErrHMSTypeInvalid))
  | _ => (hw, some (GoError.hms HMSError.ErrHMSTypeUnsupported))

/-- The method `(hw *HWInvByLoc) EncodeLocationInfo()`: the record after the
call (the method assigns to no field), the bytes and the error returned. -/
def EncodeLocationInfo {R : RFTypes} (J : JSONLib R) (T : Taxonomy) (hw : HWInvByLoc R) :
    HWInvByLoc R × Bytes × Option (GoError J.Err) :=
  match T.ToHMSType hw.Type_ with
  | .Cabinet => (hw, marshalResult (J.ChassisLocationInfoRF.Marshal hw.HMSCabinetLocationInfo))
  | .Chassis => (hw, marshalResult (J.ChassisLocationInfoRF.Marshal hw.HMSChassisLocationInfo))
  | .ComputeModule =>
      (hw, marshalResult (J.ChassisLocationInfoRF.Marshal hw.HMSComputeModuleLocationInfo))
  | .RouterModule =>
      (hw, marshalResult (J.ChassisLocationInfoRF.Marshal hw.HMSRouterModuleLocationInfo))
  | .NodeEnclosure =>
      (hw, marshalResult (J.ChassisLocationInfoRF.Marshal hw.HMSNodeEnclosureLocationInfo))
  | .HSNBoard =>
      (hw, marshalResult (J.ChassisLocationInfoRF.Marshal hw.HMSHSNBoardLocationInfo))
  | .Node => (hw, marshalResult (J.SystemLocationInfoRF.Marshal hw.HMSNodeLocationInfo))
  | .Processor =>
      (hw, marshalResult (J.ProcessorLocationInfoRF.Marshal hw.HMSProcessorLocationInfo))
  | .Memory => (hw, marshalResult (J.MemoryLocationInfoRF.Marshal hw.HMSMemoryLocationInfo))
  | .Drive => (hw, marshalResult (J.DriveLocationInfoRF.Marshal hw.HMSDriveLocationInfo))
  | .CabinetPDU =>
      (hw, marshalResult (J.PowerDistributionLocationInfo.Marshal hw.HMSPDULocationInfo))
  | .CabinetPDUOutlet =>
      (hw, marshalResult (J.OutletLocationInfo.Marshal hw.HMSOutletLocationInfo))
  | .CMMRectifier =>
      (hw, marshalResult (J.PowerSupplyLocationInfoRF.Marshal hw.HMSCMMRectifierLocationInfo))
  | .NodeEnclosurePowerSupply =>
      (hw, marshalResult
        (J.PowerSupplyLocationInfoRF.Marshal hw.HMSNodeEnclosurePowerSupplyLocationInfo))
  | .HMSTypeInvalid => (hw, [], some (GoError.hms HMSError.ErrHMSTypeInvalid))
  | _ => (hw, [], some (GoError.hms HMSError.ErrHMSTypeUnsupported))

/-- A LocationInfo payload of any of the eight struct types. -/
inductive LocationInfo (R : RFTypes) where
  | chassis (p : R.ChassisLocationInfoRF)
  | system (p : R.SystemLocationInfoRF)
  | processor (p : R.ProcessorLocationInfoRF)
  | memory (p : R.MemoryLocationInfoRF)
  | drive (p : R.DriveLocationInfoRF)
  | pdu (p : R.PowerDistributionLocationInfo)
  | outlet (p : R.OutletLocationInfo)
  | powerSupply (p : R.PowerSupplyLocationInfoRF)

/-- The payload slot of a location record that belongs to the kind `k`: its
content, `none` when the slot is nil or `k` has no slot. -/
def locSlot {R : RFTypes} (k : HMSType) (hw : HWInvByLoc R) : Option (LocationInfo R) :=
  match k with
  | .Cabinet => hw.HMSCabinetLocationInfo.map LocationInfo.chassis
  | .Chassis => hw.HMSChassisLocationInfo.map LocationInfo.chassis
  | .ComputeModule => hw.HMSComputeModuleLocationInfo.map LocationInfo.chassis
  | .RouterModule => hw.HMSRouterModuleLocationInfo.map LocationInfo.chassis
  | .NodeEnclosure => hw.HMSNodeEnclosureLocationInfo.map LocationInfo.chassis
  | .HSNBoard => hw.HMSHSNBoardLocationInfo.map LocationInfo.chassis
  | .Node => hw.HMSNodeLocationInfo.map LocationInfo.system
  | .Processor => hw.HMSProcessorLocationInfo.map LocationInfo.processor
  | .Memory => hw.HMSMemoryLocationInfo.map LocationInfo.memory
  | .Drive => hw.HMSDriveLocationInfo.map LocationInfo.drive
  | .CabinetPDU => hw.HMSPDULocationInfo.map LocationInfo.pdu
  | .CabinetPDUOutlet => hw.HMSOutletLocationInfo.map LocationInfo.outlet
  | .CMMRectifier => hw.HMSCMMRectifierLocationInfo.map LocationInfo.powerSupply
  | .NodeEnclosurePowerSupply =>
      hw.HMSNodeEnclosurePowerSupplyLocationInfo.map LocationInfo.powerSupply
  | _ => none

/-- The discriminator constant of the kind `k` for location records; the empty
string for a kind without one. -/
def locTag (k : HMSType) : String :=
  match k with
  | .Cabinet => HWInvByLocCabinet
  | .Chassis => HWInvByLocChassis
  | .ComputeModule => HWInvByLocComputeModule
  | .RouterModule => HWInvByLocRouterModule
  | .NodeEnclosure => HWInvByLocNodeEnclosure
  | .HSNBoard => HWInvByLocHSNBoard
  | .Node => HWInvByLocNode
  | .Processor => HWInvByLocProcessor
  | .Memory => HWInvByLocMemory
  | .Drive => HWInvByLocDrive
  | .CabinetPDU => HWInvByLocPDU
  | .CabinetPDUOutlet => HWInvByLocOutlet
  | .CMMRectifier => HWInvByLocCMMRectifier
  | .NodeEnclosurePowerSupply => HWInvByLocNodeEnclosurePowerSupply
  | _ => ""

/-- What the JSON library makes of the bytes `b` at the payload type of the
kind `k`; `none` for a kind without a payload type. -/
def parseLoc {R : RFTypes} (J : JSONLib R) (k : HMSType) (b : Bytes) :
    Option (Except J.Err (LocationInfo R)) :=
  match k with
  | .Cabinet | .Chassis | .ComputeModule | .RouterModule | .NodeEnclosure | .HSNBoard =>
      some ((J.ChassisLocationInfoRF.Unmarshal b).map LocationInfo.chassis)
  | .Node => some ((J.SystemLocationInfoRF.Unmarshal b).map LocationInfo.system)
  | .Processor => some ((J.ProcessorLocationInfoRF.Unmarshal b).map LocationInfo.processor)
  | .Memory => some ((J.MemoryLocationInfoRF.Unmarshal b).map LocationInfo.memory)
  | .Drive => some ((J.DriveLocationInfoRF.Unmarshal b).map LocationInfo.drive)
  | .CabinetPDU => some ((J.PowerDistributionLocationInfo.Unmarshal b).map LocationInfo.pdu)
  | .CabinetPDUOutlet => some ((J.OutletLocationInfo.Unmarshal b).map LocationInfo.outlet)
  | .CMMRectifier | .NodeEnclosurePowerSupply =>
      some ((J.PowerSupplyLocationInfoRF.Unmarshal b).map LocationInfo.powerSupply)
  | _ => none

/-- The serialization of a LocationInfo payload by the JSON library. -/
def serializeLoc {R : RFTypes} (J : JSONLib R) (v : LocationInfo R) : Except J.Err Bytes :=
  match v with
  | .chassis p => J.ChassisLocationInfoRF.Marshal (some p)
  | .system p => J.SystemLocationInfoRF.Marshal (some p)
  | .processor p => J.ProcessorLocationInfoRF.Marshal (some p)
  | .memory p => J.MemoryLocationInfoRF.Marshal (some p)
  | .drive p => J.DriveLocationInfoRF.Marshal (some p)
  | .pdu p => J.PowerDistributionLocationInfo.Marshal (some p)
  | .outlet p => J.OutletLocationInfo.Marshal (some p)
  | .powerSupply p => J.PowerSupplyLocationInfoRF.Marshal (some p)

/-- The kinds whose payload slot is populated in a location record. -/
def locPopulated {R : RFTypes} (hw : HWInvByLoc R) : List HMSType :=
  codecKinds.filter (fun k => (locSlot k hw).isSome)

def HWInvByFRUCabinet : String := "HWInvByFRUCabinet"
def HWInvByFRUChassis : String := "HWInvByFRUChassis"
def HWInvByFRUComputeModule : String := "HWInvByFRUComputeModule"
def HWInvByFRURouterModule : String := "HWInvByFRURouterModule"
def HWInvByFRUNodeEnclosure : String := "HWInvByFRUNodeEnclosure"
def HWInvByFRUHSNBoard : String := "HWInvByFRUHSNBoard"
def HWInvByFRUNode : String := "HWInvByFRUNode"
def HWInvByFRUProcessor : String := "HWInvByFRUProcessor"
def HWInvByFRUDrive : String := "HWInvByFRUDrive"
def HWInvByFRUMemory : String := "HWInvByFRUMemory"
def HWInvByFRUPDU : String := "HWInvByFRUPDU"
def HWInvByFRUOutlet : String := "HWInvByFRUOutlet"
def HWInvByFRUCMMRectifier : String := "HWInvByFRUCMMRectifier"
def HWInvByFRUNodeEnclosurePowerSupply : String := "HWInvByFRU"

/-- The method `(hf *HWInvByFRU) DecodeFRUInfo(fruInfoJSON)`: the record
after the call and the error returned (`none` is nil). -/
def DecodeFRUInfo {R : RFTypes} (J : JSONLib R) (T : Taxonomy) (hf : HWInvByFRU R)
    (fruInfoJSON : Bytes) : HWInvByFRU R × Option (GoError J.Err) :=
  match T.ToHMSType hf.Type_ with
  | .Cabinet | .Chassis | .ComputeModule | .RouterModule | .NodeEnclosure | .HSNBoard =>
      match J.ChassisFRUInfoRF.Unmarshal fruInfoJSON with
      | .error e => (hf, some (GoError.json e))
      | .ok rfChassisFRUInfo =>
          match T.ToHMSType hf.Type_ with
          | .Cabinet =>
              ({ hf with HMSCabinetFRUInfo := some rfChassisFRUInfo
                         HWInventoryByFRUType := HWInvByFRUCabinet }, none)
          | .Chassis =>
              ({ hf with HMSChassisFRUInfo := some rfChassisFRUInfo
                         HWInventoryByFRUType := HWInvByFRUChassis }, none)
          | .ComputeModule =>
              ({ hf with HMSComputeModuleFRUInfo := some rfChassisFRUInfo
                         HWInventoryByFRUType := HWInvByFRUComputeModule }, none)
          | .RouterModule =>
              ({ hf with HMSRouterModuleFRUInfo := some rfChassisFRUInfo
                         HWInventoryByFRUType := HWInvByFRURouterModule }, none)
          | .NodeEnclosure =>
              ({ hf with HMSNodeEnclosureFRUInfo := some rfChassisFRUInfo
                         HWInventoryByFRUType := HWInvByFRUNodeEnclosure }, none)
          | .HSNBoard =>
              ({ hf with HMSHSNBoardFRUInfo := some rfChassisFRUInfo
                         HWInventoryByFRUType := HWInvByFRUHSNBoard }, none)
          | _ => (hf, none)
  | .Node =>
      match J.SystemFRUInfoRF.Unmarshal fruInfoJSON with
      | .error e => (hf, some (GoError.json e))
      | .ok rfSystemFRUInfo =>
          ({ hf with HMSNodeFRUInfo := some rfSystemFRUInfo
                     HWInventoryByFRUType := HWInvByFRUNode }, none)
  | .Processor =>
      match J.ProcessorFRUInfoRF.Unmarshal fruInfoJSON with
      | .error e => (hf, some (GoError.json e))
      | .ok rfProcessorFRUInfo =>
          ({ hf with HMSProcessorFRUInfo := some rfProcessorFRUInfo
                     HWInventoryByFRUType := HWInvByFRUProcessor }, none)
  | .Memory =>
      match J.MemoryFRUInfoRF.Unmarshal fruInfoJSON with
      | .error e => (hf, some (GoError.json e))
      | .ok rfMemoryFRUInfo =>
          ({ hf with HMSMemoryFRUInfo := some rfMemoryFRUInfo
                     HWInventoryByFRUType := HWInvByFRUMemory }, none)
  | .Drive =>
      match J.DriveFRUInfoRF.Unmarshal fruInfoJSON with
      | .error e => (hf, some (GoError.json e))
      | .ok rfDriveFRUInfo =>
          ({ hf with HMSDriveFRUInfo := some rfDriveFRUInfo
                     HWInventoryByFRUType := HWInvByFRUDrive }, none)
  | .CabinetPDU =>
      match J.PowerDistributionFRUInfo.Unmarshal fruInfoJSON with
      | .error e => (hf, some (GoError.json e))
      | .ok rfPDUFRUInfo =>
          ({ hf with HMSPDUFRUInfo := some rfPDUFRUInfo
                     HWInventoryByFRUType := HWInvByFRUPDU }, none)
  | .CabinetPDUOutlet =>
      match J.OutletFRUInfo.Unmarshal fruInfoJSON with
      | .error e => (hf, some (GoError.json e))
      | .ok rfOutletFRUInfo =>
          ({ hf with HMSOutletFRUInfo := some rfOutletFRUInfo
                     HWInventoryByFRUType := HWInvByFRUOutlet }, none)
  | .CMMRectifier =>
      match J.PowerSupplyFRUInfoRF.Unmarshal fruInfoJSON with
      | .error e => (hf, some (GoError.json e))
      | .ok rfCMMRectifierFRUInfo =>
          ({ hf with HMSCMMRectifierFRUInfo := some rfCMMRectifierFRUInfo
                     HWInventoryByFRUType := HWInvByFRUCMMRectifier }, none)
  | .NodeEnclosurePowerSupply =>
      match J.PowerSupplyFRUInfoRF.Unmarshal fruInfoJSON with
      | .error e => (hf, some (GoError.json e))
      | .ok rfNodeEnclosurePowerSupplyFRUInfo =>
          ({ hf with
             HMSNodeEnclosurePowerSupplyFRUInfo :=
               some rfNodeEnclosurePowerSupplyFRUInfo
             HWInventoryByFRUType := HWInvByFRUNodeEnclosurePowerSupply }, none)
  | .HMSTypeInvalid => (hf, some (GoError.hms HMSError.ErrHMSTypeInvalid))
  | _ => (hf, some (GoError.hms HMSError.ErrHMSTypeUnsupported))

/-- The method `(hf *HWInvByFRU) EncodeFRUInfo()`: the record after the
call (the method assigns to no field), the bytes and the error returned. -/
def EncodeFRUInfo {R : RFTypes} (J : JSONLib R) (T : Taxonomy) (hf : HWInvByFRU R) :
    HWInvByFRU R × Bytes × Option (GoError J.Err) :=
  match T.ToHMSType hf.Type_ with
  | .Cabinet => (hf, marshalResult (J.ChassisFRUInfoRF.Marshal hf.HMSCabinetFRUInfo))
  | .Chassis => (hf, marshalResult (J.ChassisFRUInfoRF.Marshal hf.HMSChassisFRUInfo))
  | .ComputeModule =>
      (hf, marshalResult (J.ChassisFRUInfoRF.Marshal hf.HMSComputeModuleFRUInfo))
  | .RouterModule =>
      (hf, marshalResult (J.ChassisFRUInfoRF.Marshal hf.HMSRouterModuleFRUInfo))
  | .NodeEnclosure =>
      (hf, marshalResult (J.ChassisFRUInfoRF.Marshal hf.HMSNodeEnclosureFRUInfo))
  | .HSNBoard =>
      (hf, marshalResult (J.ChassisFRUInfoRF.Marshal hf.HMSHSNBoardFRUInfo))
  | .Node => (hf, marshalResult (J.SystemFRUInfoRF.Marshal hf.HMSNodeFRUInfo))
  | .Processor =>
      (hf, marshalResult (J.ProcessorFRUInfoRF.Marshal hf.HMSProcessorFRUInfo))
  | .Memory => (hf, marshalResult (J.MemoryFRUInfoRF.Marshal hf.HMSMemoryFRUInfo))
  | .Drive => (hf, marshalResult (J.DriveFRUInfoRF.Marshal hf.HMSDriveFRUInfo))
  | .CabinetPDU =>
      (hf, marshalResult (J.PowerDistributionFRUInfo.Marshal hf.HMSPDUFRUInfo))
  | .CabinetPDUOutlet =>
      (hf, marshalResult (J.OutletFRUInfo.Marshal hf.HMSOutletFRUInfo))
  | .CMMRectifier =>
      (hf, marshalResult (J.PowerSupplyFRUInfoRF.Marshal hf.HMSCMMRectifierFRUInfo))
  | .NodeEnclosurePowerSupply =>
      (hf, marshalResult
        (J.PowerSupplyFRUInfoRF.Marshal hf.HMSNodeEnclosurePowerSupplyFRUInfo))
  | .HMSTypeInvalid => (hf, [], some (GoError.hms HMSError.ErrHMSTypeInvalid))
  | _ => (hf, [], some (GoError.hms HMSError.ErrHMSTypeUnsupported))

/-- A FRUInfo payload of any of the eight struct types. -/
inductive FRUInfo (R : RFTypes) where
  | chassis (p : R.ChassisFRUInfoRF)
  | system (p : R.SystemFRUInfoRF)
  | processor (p : R.ProcessorFRUInfoRF)
  | memory (p : R.MemoryFRUInfoRF)
  | drive (p : R.DriveFRUInfoRF)
  | pdu (p : R.PowerDistributionFRUInfo)
  | outlet (p : R.OutletFRUInfo)
  | powerSupply (p : R.PowerSupplyFRUInfoRF)

/-- The payload slot of a FRU record that belongs to the kind `k`: its
content, `none` when the slot is nil or `k` has no slot. -/
def fruSlot {R : RFTypes} (k : HMSType) (hf : HWInvByFRU R) : Option (FRUInfo R) :=
  match k with
  | .Cabinet => hf.HMSCabinetFRUInfo.map FRUInfo.chassis
  | .Chassis => hf.HMSChassisFRUInfo.map FRUInfo.chassis
  | .ComputeModule => hf.HMSComputeModuleFRUInfo.map FRUInfo.chassis
  | .RouterModule => hf.HMSRouterModuleFRUInfo.map FRUInfo.chassis
  | .NodeEnclosure => hf.HMSNodeEnclosureFRUInfo.map FRUInfo.chassis
  | .HSNBoard => hf.HMSHSNBoardFRUInfo.map FRUInfo.chassis
  | .Node => hf.HMSNodeFRUInfo.map FRUInfo.system
  | .Processor => hf.HMSProcessorFRUInfo.map FRUInfo.processor
  | .Memory => hf.HMSMemoryFRUInfo.map FRUInfo.memory
  | .Drive => hf.HMSDriveFRUInfo.map FRUInfo.drive
  | .CabinetPDU => hf.HMSPDUFRUInfo.map FRUInfo.pdu
  | .CabinetPDUOutlet => hf.HMSOutletFRUInfo.map FRUInfo.outlet
  | .CMMRectifier => hf.HMSCMMRectifierFRUInfo.map FRUInfo.powerSupply
  | .NodeEnclosurePowerSupply =>
      hf.HMSNodeEnclosurePowerSupplyFRUInfo.map FRUInfo.powerSupply
  | _ => none

/-- The discriminator constant of the kind `k` for FRU records; the empty
string for a kind without one. -/
def fruTag (k : HMSType) : String :=
  match k with
  | .Cabinet => HWInvByFRUCabinet
  | .Chassis => HWInvByFRUChassis
  | .ComputeModule => HWInvByFRUComputeModule
  | .RouterModule => HWInvByFRURouterModule
  | .NodeEnclosure => HWInvByFRUNodeEnclosure
  | .HSNBoard => HWInvByFRUHSNBoard
  | .Node => HWInvByFRUNode
  | .Processor => HWInvByFRUProcessor
  | .Memory => HWInvByFRUMemory
  | .Drive => HWInvByFRUDrive
  | .CabinetPDU => HWInvByFRUPDU
  | .CabinetPDUOutlet => HWInvByFRUOutlet
  | .CMMRectifier => HWInvByFRUCMMRectifier
  | .NodeEnclosurePowerSupply => HWInvByFRUNodeEnclosurePowerSupply
  | _ => ""

/-- What the JSON library makes of the bytes `b` at the payload type of the
kind `k`; `none` for a kind without a payload type. -/
def parseFRU {R : RFTypes} (J : JSONLib R) (k : HMSType) (b : Bytes) :
    Option (Except J.Err (FRUInfo R)) :=
  match k with
  | .Cabinet | .Chassis | .ComputeModule | .RouterModule | .NodeEnclosure | .HSNBoard =>
      some ((J.ChassisFRUInfoRF.Unmarshal b).map FRUInfo.chassis)
  | .Node => some ((J.SystemFRUInfoRF.Unmarshal b).map FRUInfo.system)
  | .Processor => some ((J.ProcessorFRUInfoRF.Unmarshal b).map FRUInfo.processor)
  | .Memory => some ((J.MemoryFRUInfoRF.Unmarshal b).map FRUInfo.memory)
  | .Drive => some ((J.DriveFRUInfoRF.Unmarshal b).map FRUInfo.drive)
  | .CabinetPDU => some ((J.PowerDistributionFRUInfo.Unmarshal b).map FRUInfo.pdu)
  | .CabinetPDUOutlet => some ((J.OutletFRUInfo.Unmarshal b).map FRUInfo.outlet)
  | .CMMRectifier | .NodeEnclosurePowerSupply =>
      some ((J.PowerSupplyFRUInfoRF.Unmarshal b).map FRUInfo.powerSupply)
  | _ => none

/-- The serialization of a FRUInfo payload by the JSON library. -/
def serializeFRU {R : RFTypes} (J : JSONLib R) (v : FRUInfo R) : Except J.Err Bytes :=
  match v with
  | .chassis p => J.ChassisFRUInfoRF.Marshal (some p)
  | .system p => J.SystemFRUInfoRF.Marshal (some p)
  | .processor p => J.ProcessorFRUInfoRF.Marshal (some p)
  | .memory p => J.MemoryFRUInfoRF.Marshal (some p)
  | .drive p => J.DriveFRUInfoRF.Marshal (some p)
  | .pdu p => J.PowerDistributionFRUInfo.Marshal (some p)
  | .outlet p => J.OutletFRUInfo.Marshal (some p)
  | .powerSupply p => J.PowerSupplyFRUInfoRF.Marshal (some p)

/-- The kinds whose payload slot is populated in a FRU record. -/
def fruPopulated {R : RFTypes} (hf : HWInvByFRU R) : List HMSType :=
  codecKinds.filter (fun k => (fruSlot k hf).isSome)

/-- Payload types for concrete codec inputs: every payload struct is a byte
string. -/
@[reducible] def rawPayloads : RFTypes :=
  ⟨Bytes, Bytes, Bytes, Bytes, Bytes, Bytes, Bytes, Bytes, Bytes, Bytes, Bytes, Bytes,
   Bytes, Bytes, Bytes, Bytes⟩

/-- A JSON library for concrete codec inputs, at one payload type: `Marshal`
writes a struct between braces and a nil pointer as `null`; `Unmarshal` reads
`null` as the zero struct and otherwise what stands between the braces, and
answers an error for anything else. -/
def braceJSONOf : JSONOf String Bytes where
  Unmarshal := fun b =>
    if b = [110, 117, 108, 108] then .ok []
    else if b.head? = some 123 ∧ b.getLast? = some 125 ∧ 2 ≤ b.length then
      .ok b.tail.dropLast
    else .error "invalid character looking for beginning of value"
  Marshal := fun v =>
    match v with
    | none => .ok [110, 117, 108, 108]
    | some p => .ok (123 :: (p ++ [125]))

/-- A JSON library for concrete codec inputs: `braceJSONOf` at every payload
type. -/
def braceJSON : JSONLib rawPayloads :=
  ⟨String, braceJSONOf, braceJSONOf, braceJSONOf, braceJSONOf, braceJSONOf, braceJSONOf,
   braceJSONOf, braceJSONOf, braceJSONOf, braceJSONOf, braceJSONOf, braceJSONOf,
   braceJSONOf, braceJSONOf, braceJSONOf, braceJSONOf⟩

/-! ## HTTP client settings (`pkg/redfish/rfclient.go`) -/

/-- The three package variables of `rfclient.go`; the timeout is a Go `int`,
which the code only compares with 0 and stores. -/
structure HTTPClientSettings where
  httpClientTimeout : Int
  httpClientProxyURL : String
  httpClientInsecureSkipVerify : Bool
  deriving DecidableEq, Repr

/-- The initial values `var httpClientTimeout = 30`, `var httpClientProxyURL =
""`, `var httpClientInsecureSkipVerify = true`. -/
def initialHTTPClientSettings : HTTPClientSettings :=
  { httpClientTimeout := 30, httpClientProxyURL := "", httpClientInsecureSkipVerify := true }

/-- The function `SetHTTPClientTimeout(timeout)`: the package variables after
the call (the `else` branch only logs). -/
def SetHTTPClientTimeout (s : HTTPClientSettings) (timeout : Int) : HTTPClientSettings :=
  if timeout ≥ 0 then { s with httpClientTimeout := timeout } else s

/-- The function `GetHTTPClientTimeout()`. -/
def GetHTTPClientTimeout (s : HTTPClientSettings) : Int := s.httpClientTimeout

/-- The function `SetHTTPClientProxyURL(proxyURLStr)`. -/
def SetHTTPClientProxyURL (s : HTTPClientSettings) (proxyURLStr : String) :
    HTTPClientSettings :=
  { s with httpClientProxyURL := proxyURLStr }

/-- The function `GetHTTPClientProxyURL()`. -/
def GetHTTPClientProxyURL (s : HTTPClientSettings) : String := s.httpClientProxyURL

/-- The function `SetHTTPClientInsecureSkipVerify(flag)`. -/
def SetHTTPClientInsecureSkipVerify (s : HTTPClientSettings) (flag : Bool) :
    HTTPClientSettings :=
  { s with httpClientInsecureSkipVerify := flag }

/-- The function `GetHTTPClientInsecureSkipVerify()`. -/
def GetHTTPClientInsecureSkipVerify (s : HTTPClientSettings) : Bool :=
  s.httpClientInsecureSkipVerify

/-- The entries of the slots `f n` of the records `n` of a list, record after
record: the nested children of the records of a top-level slot. -/
def nestedOf (f : Ptr → List Ptr) : List Ptr → List Ptr
  | [] => []
  | n :: ns => f n ++ nestedOf f ns

/-! ## Component lock patches (`pkg/sm/complocks.go`) -/

/-- The struct `CompLockPatch`: three pointer fields, `none` for nil. -/
structure CompLockPatch where
  Reason : Option String := none
  Owner : Option String := none
  Lifetime : Option Int := none
  deriving DecidableEq, Repr

/-- The method `(clp *CompLockPatch) Normalize()`: the patch after the call. -/
def CompLockPatch.Normalize (clp : CompLockPatch) : CompLockPatch :=
  clp

/-- The method `(clp *CompLockPatch) Verify()`: the error returned (`none` is
nil); the method only reads the patch. -/
def CompLockPatch.Verify (clp : CompLockPatch) : Option HMSError :=
  match clp.Lifetime with
  | some lifetime =>
      if lifetime ≤ 0 then some HMSError.ErrCompLockBadLifetime else none
  | none => none

/-! ## Component locks over the caller's memory

`NewCompLock` copies the caller's slice and `Normalize` writes through the
slice of the lock; whether the caller's strings are touched is a question about
the cells both slices point to, so the slices are modelled as views of a
memory of string cells. -/

/-- The string cells of the memory, by address, and the first address that is
not allocated yet. -/
structure Mem.Store where
  cells : Nat → String
  next : Nat

/-- A Go `[]string`: the address of its first element and its length.  The nil
slice has length 0 and capacity 0; the capacity of the other slices plays no
part, as nothing appends to them. -/
structure Mem.Slice where
  ptr : Nat
  len : Nat
  deriving DecidableEq, Repr

/-- The elements of a slice, as the memory holds them. -/
def Mem.Slice.read (s : Mem.Slice) (m : Mem.Store) : List String :=
  (List.range s.len).map (fun i => m.cells (s.ptr + i))

/-- The expression `append([]string(nil), xnames...)`: the nil slice has no
capacity, so the elements are copied into newly allocated cells; with no
element to append the nil slice is the result. -/
def Mem.appendNil (m : Mem.Store) (xnames : Mem.Slice) : Mem.Slice × Mem.Store :=
  if xnames.len = 0 then (⟨0, 0⟩, m)
  else
    (⟨m.next, xnames.len⟩,
     { cells := fun a =>
         if m.next ≤ a ∧ a < m.next + xnames.len then m.cells (xnames.ptr + (a - m.next))
         else m.cells a
       next := m.next + xnames.len })

/-- The struct `CompLock` with its `Xnames` as a slice of the memory. -/
structure Mem.CompLock where
  ID : String := ""
  Created : String := ""
  Reason : String := ""
  Owner : String := ""
  Lifetime : Int := 0
  Xnames : Mem.Slice := ⟨0, 0⟩
  normalized : Bool := false
  verified : Bool := false

/-- The loop `for i, xname := range cl.Xnames { cl.Xnames[i] = ... }` of
`Normalize`: the cells after the loop. -/
def Mem.normalizeCells (L : CompIDLib) (s : Mem.Slice) (cells : Nat → String) :
    Nat → String :=
  (List.range s.len).foldl
    (fun c i => Function.update c (s.ptr + i) (L.NormalizeHMSCompID (c (s.ptr + i)))) cells

/-- The method `(cl *CompLock) Normalize()` over the memory: the lock and the
memory after the call. -/
def Mem.CompLock.Normalize (L : CompIDLib) (cl : Mem.CompLock) (m : Mem.Store) :
    Mem.CompLock × Mem.Store :=
  if cl.normalized = true then (cl, m)
  else
    ({ cl with normalized := true },
     { m with cells := Mem.normalizeCells L cl.Xnames m.cells })

/-- The method `(cl *CompLock) Verify()` over the memory: the lock after the
call and the error returned; the memory is only read. -/
def Mem.CompLock.Verify (L : CompIDLib) (cl : Mem.CompLock) (m : Mem.Store) :
    Mem.CompLock × Option HMSError :=
  if cl.verified = true then (cl, none)
  else
    let cl1 := { cl with verified := true }
    if cl1.Lifetime ≤ 0 then (cl1, some HMSError.ErrCompLockBadLifetime)
    else (cl1, verifyXnames L (cl1.Xnames.read m))

/-- The function `NewCompLock(reason, owner, lifetime, xnames)` over the memory:
the lock returned (`new(CompLock)` is never nil), the error returned and the
memory after the call. -/
def Mem.NewCompLock (L : CompIDLib) (m : Mem.Store) (reason owner : String) (lifetime : Int)
    (xnames : Mem.Slice) : Mem.CompLock × Option HMSError × Mem.Store :=
  let cl : Mem.CompLock := { Reason := reason, Owner := owner, Lifetime := lifetime }
  let a := Mem.appendNil m xnames
  let cl := { cl with Xnames := a.1 }
  let n := cl.Normalize L a.2
  let v := n.1.Verify L n.2
  (v.1, v.2, n.2)

/-- The lock a lock over the memory stands for: its `Xnames` read from the
memory. -/
def Mem.CompLock.toCompLock (cl : Mem.CompLock) (m : Mem.Store) : HmsSmd.CompLock :=
  { ID := cl.ID, Created := cl.Created, Reason := cl.Reason, Owner := cl.Owner,
    Lifetime := cl.Lifetime, Xnames := cl.Xnames.read m, normalized := cl.normalized,
    verified := cl.verified }

/-- A memory for concrete calls: the caller's strings "X0C0S0B0N0" and "bogus"
at the addresses 1 and 2, and 3 the first address not allocated. -/
def callerStore : Mem.Store :=
  { cells := fun a => if a = 1 then "X0C0S0B0N0" else if a = 2 then "bogus" else ""
    next := 3 }

/-! ## The first loop -/

theorem appendAll_appendSlot (s : Option (List Ptr)) (x : Ptr) (l : List Ptr) :
    appendAll (appendSlot s x) l = appendAll s (x :: l) := by
  cases s <;> cases l <;> simp [appendAll, appendSlot]

theorem appendAll_nil (s : Option (List Ptr)) : appendAll s [] = s := rfl

theorem appendAll_none (l : List Ptr) :
    appendAll none l = if l = [] then none else some l := by
  cases l <;> simp [appendAll]

theorem ofKind_cons {R : RFTypes} (T : Taxonomy) (h : Heap R) (k : HMSType) (x : Ptr)
    (l : List Ptr) :
    ofKind T h k (x :: l) = if kindOf T h x = k then x :: ofKind T h k l else ofKind T h k l := by
  unfold ofKind
  by_cases hk : kindOf T h x = k <;> simp [List.filter_cons, hk]

theorem foldl_bucket_fst {R : RFTypes} (T : Taxonomy) (h : Heap R) (l : List Ptr) :
    ∀ st : SystemHWInventory × Option HMSError,
      (l.foldl (bucket T h) st).1 = bucketInto T h st.1 l := by
  induction l with
  | nil => intro st; rfl
  | cons x xs ih =>
    intro st
    rw [List.foldl_cons, ih]
    have hk : kindOf T h x = T.ToHMSType (h x).Type_ := rfl
    unfold bucket bucketInto
    simp only [ofKind_cons, hk]
    cases T.ToHMSType (h x).Type_ <;> simp [appendAll_appendSlot]

theorem bucket_snd {R : RFTypes} (T : Taxonomy) (h : Heap R)
    (st : SystemHWInventory × Option HMSError) (x : Ptr) :
    (bucket T h st x).2 =
      match kindErr (kindOf T h x) with
      | some e => some e
      | none => st.2 := by
  unfold bucket kindOf
  cases T.ToHMSType (h x).Type_ <;> rfl

theorem deferredErr_cons {R : RFTypes} (T : Taxonomy) (h : Heap R) (e : Option HMSError)
    (x : Ptr) (l : List Ptr) :
    deferredErr T h e (x :: l) =
      deferredErr T h (match kindErr (kindOf T h x) with
                        | some e1 => some e1
                        | none => e) l := by
  unfold deferredErr
  rw [List.filterMap_cons]
  cases hx : kindErr (kindOf T h x) with
  | none => simp
  | some e1 =>
    simp only [List.getLast?_cons]
    cases (List.filterMap (fun p => kindErr (kindOf T h p)) l).getLast? <;> simp

theorem foldl_bucket_snd {R : RFTypes} (T : Taxonomy) (h : Heap R) (l : List Ptr) :
    ∀ st : SystemHWInventory × Option HMSError,
      (l.foldl (bucket T h) st).2 = deferredErr T h st.2 l := by
  induction l with
  | nil => intro st; rfl
  | cons x xs ih =>
    intro st
    rw [List.foldl_cons, ih, bucket_snd, deferredErr_cons]

/-! ## The roll-up loops -/

theorem NestSlot.get_set {R : RFTypes} (s : NestSlot) (r : HWInvByLoc R)
    (v : Option (List Ptr)) : s.get (s.set r v) = v := by
  cases s <;> rfl

theorem NestSlot.set_set {R : RFTypes} (s : NestSlot) (r : HWInvByLoc R)
    (a b : Option (List Ptr)) : s.set (s.set r a) b = s.set r b := by
  cases s <;> rfl

theorem NestSlot.set_get {R : RFTypes} (s : NestSlot) (r : HWInvByLoc R) :
    s.set r (s.get r) = r := by
  cases s <;> rfl

theorem NestSlot.set_ID {R : RFTypes} (s : NestSlot) (r : HWInvByLoc R)
    (v : Option (List Ptr)) : (s.set r v).ID = r.ID := by
  cases s <;> rfl

theorem NestSlot.set_Type {R : RFTypes} (s : NestSlot) (r : HWInvByLoc R)
    (v : Option (List Ptr)) : (s.set r v).Type_ = r.Type_ := by
  cases s <;> rfl

theorem parentPtr_congr {R : RFTypes} (parentOf : String → Option String)
    (m : String → Option Ptr) (h h1 : Heap R) (hid : ∀ q, (h1 q).ID = (h q).ID) :
    parentPtr parentOf m h1 = parentPtr parentOf m h := by
  funext c
  simp [parentPtr, hid]

theorem childrenOf_congr {R : RFTypes} (parentOf : String → Option String)
    (m : String → Option Ptr) (h h1 : Heap R) (hid : ∀ q, (h1 q).ID = (h q).ID) :
    childrenOf parentOf m h1 = childrenOf parentOf m h := by
  funext q cs
  simp [childrenOf, parentPtr_congr parentOf m h h1 hid]

theorem orphansOf_congr {R : RFTypes} (parentOf : String → Option String)
    (m : String → Option Ptr) (h h1 : Heap R) (hid : ∀ q, (h1 q).ID = (h q).ID) :
    orphansOf parentOf m h1 = orphansOf parentOf m h := by
  funext cs
  simp [orphansOf, parentPtr_congr parentOf m h h1 hid]

theorem rolledHeap_ID {R : RFTypes} (slot : NestSlot) (parentOf : String → Option String)
    (m : String → Option Ptr) (h : Heap R) (cs : List Ptr) (q : Ptr) :
    (rolledHeap slot parentOf m h cs q).ID = (h q).ID := by
  simp [rolledHeap, NestSlot.set_ID]

theorem rolledHeap_Type {R : RFTypes} (slot : NestSlot) (parentOf : String → Option String)
    (m : String → Option Ptr) (h : Heap R) (cs : List Ptr) (q : Ptr) :
    (rolledHeap slot parentOf m h cs q).Type_ = (h q).Type_ := by
  simp [rolledHeap, NestSlot.set_Type]

/-- A roll-up loop returns when every parent identifier is computed, and then
leaves `rolledHeap` and the orphans appended to the top-level array. -/
theorem rollUpLoop_eq {R : RFTypes} (slot : NestSlot) (parentOf : String → Option String)
    (m : String → Option Ptr) (cs : List Ptr) :
    ∀ (h : Heap R) (top : Option (List Ptr)),
      (∀ c ∈ cs, (parentOf (h c).ID).isSome = true) →
      rollUpLoop slot parentOf m cs (h, top) =
        some (rolledHeap slot parentOf m h cs, appendAll top (orphansOf parentOf m h cs)) := by
  induction cs with
  | nil =>
    intro h top _
    have hh : rolledHeap slot parentOf m h [] = h := by
      funext q
      simp [rolledHeap, childrenOf, appendAll, NestSlot.set_get]
    simp [rollUpLoop, hh, orphansOf, appendAll]
  | cons c cs ih =>
    intro h top hsome
    obtain ⟨pid, hpid⟩ := Option.isSome_iff_exists.mp (hsome c (List.mem_cons_self _ _))
    have hrest : ∀ c1 ∈ cs, (parentOf (h c1).ID).isSome = true :=
      fun c1 hc1 => hsome c1 (List.mem_cons_of_mem _ hc1)
    cases hm : m pid with
    | none =>
      have hpp : parentPtr parentOf m h c = none := by simp [parentPtr, hpid, hm]
      simp only [rollUpLoop, rollUpStep, hpid, hm]
      rw [ih h (appendSlot top c) hrest, appendAll_appendSlot]
      congr 2
      · funext q
        simp [rolledHeap, childrenOf, List.filter_cons, hpp]
      · simp [orphansOf, List.filter_cons, hpp]
    | some parent =>
      have hpp : parentPtr parentOf m h c = some parent := by simp [parentPtr, hpid, hm]
      simp only [rollUpLoop, rollUpStep, hpid, hm]
      have hid : ∀ q, (Function.update h parent
          (slot.set (h parent) (appendSlot (slot.get (h parent)) c)) q).ID = (h q).ID := by
        intro q
        by_cases hq : q = parent
        · subst hq; simp [NestSlot.set_ID]
        · simp [Function.update_noteq hq]
      rw [ih _ top (fun c1 hc1 => by rw [hid]; exact hrest c1 hc1)]
      congr 2
      · funext q
        simp only [rolledHeap, childrenOf_congr parentOf m h _ hid]
        by_cases hq : q = parent
        · subst hq
          simp [childrenOf, List.filter_cons, hpp, NestSlot.set_set, NestSlot.get_set,
            appendAll_appendSlot]
        · have hne : ¬ parent = q := fun e => hq e.symm
          simp [childrenOf, List.filter_cons, hpp, Function.update_noteq hq, hne]
      · rw [orphansOf_congr parentOf m h _ hid]
        simp [orphansOf, List.filter_cons, hpp]

/-- A roll-up loop does not return when some parent identifier is not computed. -/
theorem rollUpLoop_none {R : RFTypes} (slot : NestSlot) (parentOf : String → Option String)
    (m : String → Option Ptr) (cs : List Ptr) :
    ∀ (h : Heap R) (top : Option (List Ptr)),
      (∃ c ∈ cs, parentOf (h c).ID = none) →
      rollUpLoop slot parentOf m cs (h, top) = none := by
  induction cs with
  | nil => intro h top ⟨c, hc, _⟩; simp at hc
  | cons c cs ih =>
    intro h top ⟨c1, hc1, hnone⟩
    cases hpid : parentOf (h c).ID with
    | none => simp [rollUpLoop, rollUpStep, hpid]
    | some pid =>
      have hin : c1 ∈ cs := by
        rcases List.mem_cons.mp hc1 with e | e
        · subst e; rw [hpid] at hnone; cases hnone
        · exact e
      cases hm : m pid with
      | none =>
        simp only [rollUpLoop, rollUpStep, hpid, hm]
        exact ih h _ ⟨c1, hin, hnone⟩
      | some parent =>
        simp only [rollUpLoop, rollUpStep, hpid, hm]
        apply ih
        refine ⟨c1, hin, ?_⟩
        by_cases hq : c1 = parent
        · subst hq; simpa [NestSlot.set_ID] using hnone
        · simpa [Function.update_noteq hq] using hnone

theorem rollUp_eq {R : RFTypes} (slot : NestSlot) (parentOf : String → Option String)
    (m : String → Option Ptr) (l : List Ptr) (h : Heap R)
    (hsome : ∀ c ∈ l, (parentOf (h c).ID).isSome = true) :
    rollUp slot parentOf m (appendAll none l) h =
      some (rolledHeap slot parentOf m h l, appendAll none (orphansOf parentOf m h l)) := by
  cases l with
  | nil =>
    have := rollUpLoop_eq slot parentOf m [] h none hsome
    simpa [rollUp, appendAll, rollUpLoop] using this
  | cons x xs =>
    simpa [rollUp, appendAll] using rollUpLoop_eq slot parentOf m (x :: xs) h none hsome

theorem rollUp_none {R : RFTypes} (slot : NestSlot) (parentOf : String → Option String)
    (m : String → Option Ptr) (l : List Ptr) (h : Heap R)
    (hnone : ∃ c ∈ l, parentOf (h c).ID = none) :
    rollUp slot parentOf m (appendAll none l) h = none := by
  cases l with
  | nil => obtain ⟨c, hc, _⟩ := hnone; simp at hc
  | cons x xs =>
    simpa [rollUp, appendAll] using rollUpLoop_none slot parentOf m (x :: xs) h none hnone

/-! ## The lookup maps -/

theorem foldl_update_eq {R : RFTypes} (h : Heap R) (l : List Ptr) :
    ∀ (m0 : String → Option Ptr) (id : String),
      l.foldl (fun m n => Function.update m (h n).ID (some n)) m0 id =
        (l.reverse.find? (fun n => decide ((h n).ID = id))).or (m0 id) := by
  induction l with
  | nil => intro m0 id; simp
  | cons x xs ih =>
    intro m0 id
    rw [List.foldl_cons, ih, List.reverse_cons, List.find?_append]
    cases hf : List.find? (fun n => decide ((h n).ID = id)) xs.reverse with
    | some n => simp
    | none =>
      by_cases hx : (h x).ID = id
      · subst hx; simp
      · have hx1 : ¬ id = (h x).ID := fun e => hx e.symm
        simp [List.find?_cons, hx, Function.update_noteq hx1]

/-- The map built from a list answers, for an identifier, the last entry of the
list with that ID. -/
theorem buildMap_eq {R : RFTypes} (h : Heap R) (l : List Ptr) (id : String) :
    buildMap h (appendAll none l) id = l.reverse.find? (fun n => decide ((h n).ID = id)) := by
  cases l with
  | nil => simp [buildMap, appendAll]
  | cons x xs =>
    have := foldl_update_eq h (x :: xs) (fun _ => none) id
    simpa [buildMap, appendAll] using this

theorem buildMap_congr {R : RFTypes} (h h1 : Heap R) (hid : ∀ q, (h1 q).ID = (h q).ID)
    (l : List Ptr) : buildMap h1 (appendAll none l) = buildMap h (appendAll none l) := by
  funext id
  simp [buildMap_eq, hid]

theorem buildMap_some {R : RFTypes} (h : Heap R) (l : List Ptr) (id : String) (n : Ptr)
    (hn : buildMap h (appendAll none l) id = some n) : n ∈ l ∧ (h n).ID = id := by
  rw [buildMap_eq] at hn
  refine ⟨List.mem_reverse.mp (List.mem_of_find?_eq_some hn), ?_⟩
  simpa using List.find?_some hn

theorem buildMap_eq_none {R : RFTypes} (h : Heap R) (l : List Ptr) (id : String) :
    buildMap h (appendAll none l) id = none ↔ ∀ n ∈ l, (h n).ID ≠ id := by
  rw [buildMap_eq]
  simp [List.find?_eq_none]

theorem mem_ofKind {R : RFTypes} (T : Taxonomy) (h : Heap R) (k : HMSType) (l : List Ptr)
    (p : Ptr) : p ∈ ofKind T h k l ↔ p ∈ l ∧ kindOf T h p = k := by
  simp [ofKind]

/-! ## The composition as a whole -/

theorem nodeAncestor_congr_ID {R : RFTypes} (h h1 : Heap R)
    (hid : ∀ q, (h1 q).ID = (h q).ID) (f : String → Option String) (l : List Ptr)
    (hs : ∀ c ∈ l, (f (h c).ID).isSome = true) :
    ∀ c ∈ l, (f (h1 c).ID).isSome = true := by
  intro c hc
  rw [hid]
  exact hs c hc

/-- The roll-up formats: when the walk of every drive finishes within the fuel,
the call returns `nestInventory` and leaves `nestHeap`. -/
theorem NewSystemHWInventory_nest {R : RFTypes} (T : Taxonomy) (fuel : Nat) (h : Heap R)
    (hwlocs : List Ptr) (xName format : String)
    (hf : format = HWInvFormatNestNodesOnly ∨ format = HWInvFormatHierarchical)
    (hd : ∀ d ∈ ofKind T h .Drive hwlocs, (nodeAncestor T fuel (h d).ID).isSome = true) :
    NewSystemHWInventory T fuel h hwlocs xName format =
      some ⟨some (nestInventory T fuel h hwlocs xName format),
            if format = HWInvFormatHierarchical then some HMSError.ErrHWInvFmtNI
            else deferredErr T h none hwlocs,
            nestHeap T fuel h hwlocs⟩ := by
  have hfmt : format = HWInvFormatNestNodesOnly ∨ format = HWInvFormatHierarchical ∨
      format = HWInvFormatFullyFlat := by
    rcases hf with e | e
    · exact Or.inl e
    · exact Or.inr (Or.inl e)
  have hst : List.foldl (bucket T h)
      (({ XName := xName, Format := format } : SystemHWInventory), (none : Option HMSError))
      hwlocs =
      (bucketInto T h { XName := xName, Format := format } hwlocs, deferredErr T h none hwlocs) :=
    Prod.ext (foldl_bucket_fst T h hwlocs _) (foldl_bucket_snd T h hwlocs _)
  have himm : ∀ (g : Heap R) (l : List Ptr),
      ∀ c ∈ l, ((immediateParent T) (g c).ID).isSome = true := by
    intro g l c _; rfl
  -- the heaps between the loops
  let h1 := rolledHeap .Processors (immediateParent T) (nodeMap T h hwlocs) h
    (ofKind T h .Processor hwlocs)
  let h2 := rolledHeap .Memory (immediateParent T) (nodeMap T h hwlocs) h1
    (ofKind T h .Memory hwlocs)
  let h3 := rolledHeap .Drives (nodeAncestor T fuel) (nodeMap T h hwlocs) h2
    (ofKind T h .Drive hwlocs)
  have hid1 : ∀ q, (h1 q).ID = (h q).ID := fun q => rolledHeap_ID _ _ _ _ _ q
  have hid2 : ∀ q, (h2 q).ID = (h q).ID := fun q => (rolledHeap_ID _ _ _ _ _ q).trans (hid1 q)
  have hid3 : ∀ q, (h3 q).ID = (h q).ID := fun q => (rolledHeap_ID _ _ _ _ _ q).trans (hid2 q)
  have e1 := rollUp_eq .Processors (immediateParent T) (nodeMap T h hwlocs)
    (ofKind T h .Processor hwlocs) h (himm _ _)
  have e2 := rollUp_eq .Memory (immediateParent T) (nodeMap T h hwlocs)
    (ofKind T h .Memory hwlocs) h1 (himm _ _)
  have e3 := rollUp_eq .Drives (nodeAncestor T fuel) (nodeMap T h hwlocs)
    (ofKind T h .Drive hwlocs) h2 (nodeAncestor_congr_ID h h2 hid2 _ _ hd)
  have e4 := rollUp_eq .CabinetPDUOutlets (immediateParent T) (buildMap h3
    (appendAll none (ofKind T h .CabinetPDU hwlocs)))
    (ofKind T h .CabinetPDUOutlet hwlocs) h3 (himm _ _)
  unfold NewSystemHWInventory
  simp only [hfmt, if_true, hst]
  have hN : (bucketInto T h { XName := xName, Format := format } hwlocs).Nodes =
      appendAll none (ofKind T h .Node hwlocs) := rfl
  have hP : (bucketInto T h { XName := xName, Format := format } hwlocs).Processors =
      appendAll none (ofKind T h .Processor hwlocs) := rfl
  have hM : (bucketInto T h { XName := xName, Format := format } hwlocs).Memory =
      appendAll none (ofKind T h .Memory hwlocs) := rfl
  have hD : (bucketInto T h { XName := xName, Format := format } hwlocs).Drives =
      appendAll none (ofKind T h .Drive hwlocs) := rfl
  have hC : (bucketInto T h { XName := xName, Format := format } hwlocs).CabinetPDUs =
      appendAll none (ofKind T h .CabinetPDU hwlocs) := rfl
  have hO : (bucketInto T h { XName := xName, Format := format } hwlocs).CabinetPDUOutlets =
      appendAll none (ofKind T h .CabinetPDUOutlet hwlocs) := rfl
  have hF : (bucketInto T h { XName := xName, Format := format } hwlocs).Format = format := rfl
  simp only [hN, hP, hM, hD, hC, hO, hF, hf, if_true]
  rw [show buildMap h (appendAll none (ofKind T h .Node hwlocs)) = nodeMap T h hwlocs from rfl]
  have himmdef : (fun id => some (T.GetHMSCompParent id)) = immediateParent T := rfl
  simp only [himmdef, e1, e2, e3, e4]
  have ho1 := orphansOf_congr (immediateParent T) (nodeMap T h hwlocs) h h1 hid1
  have ho2 := orphansOf_congr (nodeAncestor T fuel) (nodeMap T h hwlocs) h h2 hid2
  have hc1 := childrenOf_congr (immediateParent T) (nodeMap T h hwlocs) h h1 hid1
  have hc2 := childrenOf_congr (nodeAncestor T fuel) (nodeMap T h hwlocs) h h2 hid2
  have hc3 := childrenOf_congr (immediateParent T) (pduMap T h hwlocs) h h3 hid3
  have hb : buildMap h3 (appendAll none (ofKind T h .CabinetPDU hwlocs)) = pduMap T h hwlocs :=
    buildMap_congr h h3 hid3 _
  have hheap : rolledHeap .CabinetPDUOutlets (immediateParent T) (pduMap T h hwlocs) h3
      (ofKind T h .CabinetPDUOutlet hwlocs) = nestHeap T fuel h hwlocs := by
    funext q
    show NestSlot.set .CabinetPDUOutlets (h3 q) (appendAll (NestSlot.get .CabinetPDUOutlets (h3 q))
      (childrenOf (immediateParent T) (pduMap T h hwlocs) h3 q _)) = _
    rw [hc3]
    show NestSlot.set .CabinetPDUOutlets (NestSlot.set .Drives (h2 q)
        (appendAll (NestSlot.get .Drives (h2 q))
          (childrenOf (nodeAncestor T fuel) (nodeMap T h hwlocs) h2 q _)))
      (appendAll (NestSlot.get .CabinetPDUOutlets (NestSlot.set .Drives (h2 q)
        (appendAll (NestSlot.get .Drives (h2 q))
          (childrenOf (nodeAncestor T fuel) (nodeMap T h hwlocs) h2 q _)))) _) = _
    rw [hc2]
    show NestSlot.set .CabinetPDUOutlets (NestSlot.set .Drives (NestSlot.set .Memory (h1 q)
        (appendAll (NestSlot.get .Memory (h1 q))
          (childrenOf (immediateParent T) (nodeMap T h hwlocs) h1 q _))) _) _ = _
    rw [hc1]
    rfl
  rw [ho1, ho2, hb, hheap]
  by_cases hH : format = HWInvFormatHierarchical
  · simp only [hH, if_true]
    rfl
  · simp only [hH, if_false]
    rfl

/-- The roll-up formats: when the walk of some drive does not finish within the
fuel, neither does the call. -/
theorem NewSystemHWInventory_nest_none {R : RFTypes} (T : Taxonomy) (fuel : Nat)
    (h : Heap R) (hwlocs : List Ptr) (xName format : String)
    (hf : format = HWInvFormatNestNodesOnly ∨ format = HWInvFormatHierarchical)
    (hd : ∃ d ∈ ofKind T h .Drive hwlocs, nodeAncestor T fuel (h d).ID = none) :
    NewSystemHWInventory T fuel h hwlocs xName format = none := by
  have hfmt : format = HWInvFormatNestNodesOnly ∨ format = HWInvFormatHierarchical ∨
      format = HWInvFormatFullyFlat := by
    rcases hf with e | e
    · exact Or.inl e
    · exact Or.inr (Or.inl e)
  have hst : List.foldl (bucket T h)
      (({ XName := xName, Format := format } : SystemHWInventory), (none : Option HMSError))
      hwlocs =
      (bucketInto T h { XName := xName, Format := format } hwlocs, deferredErr T h none hwlocs) :=
    Prod.ext (foldl_bucket_fst T h hwlocs _) (foldl_bucket_snd T h hwlocs _)
  have himm : ∀ (g : Heap R) (l : List Ptr),
      ∀ c ∈ l, ((immediateParent T) (g c).ID).isSome = true := by
    intro g l c _; rfl
  have e1 := rollUp_eq .Processors (immediateParent T) (nodeMap T h hwlocs)
    (ofKind T h .Processor hwlocs) h (himm _ _)
  have e2 := rollUp_eq .Memory (immediateParent T) (nodeMap T h hwlocs)
    (ofKind T h .Memory hwlocs)
    (rolledHeap .Processors (immediateParent T) (nodeMap T h hwlocs) h
        (ofKind T h .Processor hwlocs)) (himm _ _)
  have hid2 : ∀ q, (rolledHeap .Memory (immediateParent T) (nodeMap T h hwlocs)
      (rolledHeap .Processors (immediateParent T) (nodeMap T h hwlocs) h
        (ofKind T h .Processor hwlocs)) (ofKind T h .Memory hwlocs) q).ID = (h q).ID :=
    fun q => (rolledHeap_ID _ _ _ _ _ q).trans (rolledHeap_ID _ _ _ _ _ q)
  have e3 := rollUp_none .Drives (nodeAncestor T fuel) (nodeMap T h hwlocs)
    (ofKind T h .Drive hwlocs)
    (rolledHeap .Memory (immediateParent T) (nodeMap T h hwlocs)
      (rolledHeap .Processors (immediateParent T) (nodeMap T h hwlocs) h
        (ofKind T h .Processor hwlocs)) (ofKind T h .Memory hwlocs))
    (by obtain ⟨d, hd1, hd2⟩ := hd
        exact ⟨d, hd1, by rw [hid2]; exact hd2⟩)
  unfold NewSystemHWInventory
  simp only [hfmt, if_true, hst]
  have hN : (bucketInto T h { XName := xName, Format := format } hwlocs).Nodes =
      appendAll none (ofKind T h .Node hwlocs) := rfl
  have hP : (bucketInto T h { XName := xName, Format := format } hwlocs).Processors =
      appendAll none (ofKind T h .Processor hwlocs) := rfl
  have hM : (bucketInto T h { XName := xName, Format := format } hwlocs).Memory =
      appendAll none (ofKind T h .Memory hwlocs) := rfl
  have hD : (bucketInto T h { XName := xName, Format := format } hwlocs).Drives =
      appendAll none (ofKind T h .Drive hwlocs) := rfl
  have hF : (bucketInto T h { XName := xName, Format := format } hwlocs).Format = format := rfl
  simp only [hN, hP, hM, hD, hF, hf, if_true]
  rw [show buildMap h (appendAll none (ofKind T h .Node hwlocs)) = nodeMap T h hwlocs from rfl]
  have himmdef : (fun id => some (T.GetHMSCompParent id)) = immediateParent T := rfl
  simp only [himmdef, e1, e2, e3]

/-- The flat format: the call returns the aggregate of the first loop, the
deferred error, and leaves the records alone. -/
theorem NewSystemHWInventory_flat {R : RFTypes} (T : Taxonomy) (fuel : Nat) (h : Heap R)
    (hwlocs : List Ptr) (xName : String) :
    NewSystemHWInventory T fuel h hwlocs xName HWInvFormatFullyFlat =
      some ⟨some (bucketInto T h { XName := xName, Format := HWInvFormatFullyFlat } hwlocs),
            deferredErr T h none hwlocs, h⟩ := by
  have hst : List.foldl (bucket T h)
      (({ XName := xName, Format := HWInvFormatFullyFlat } : SystemHWInventory),
        (none : Option HMSError)) hwlocs =
      (bucketInto T h { XName := xName, Format := HWInvFormatFullyFlat } hwlocs,
        deferredErr T h none hwlocs) :=
    Prod.ext (foldl_bucket_fst T h hwlocs _) (foldl_bucket_snd T h hwlocs _)
  have hF : (bucketInto T h { XName := xName, Format := HWInvFormatFullyFlat } hwlocs).Format =
      HWInvFormatFullyFlat := rfl
  have h1 : ¬ HWInvFormatFullyFlat = HWInvFormatNestNodesOnly := by decide
  have h2 : ¬ HWInvFormatFullyFlat = HWInvFormatHierarchical := by decide
  unfold NewSystemHWInventory
  simp only [hst, hF, h1, h2, or_self, false_or, if_true, if_false]

/-- An unknown format: the call returns the nil aggregate and
`ErrHWInvFmtInvalid`, and leaves the records alone. -/
theorem NewSystemHWInventory_invalid {R : RFTypes} (T : Taxonomy) (fuel : Nat) (h : Heap R)
    (hwlocs : List Ptr) (xName format : String)
    (hf : ¬ (format = HWInvFormatNestNodesOnly ∨ format = HWInvFormatHierarchical ∨
      format = HWInvFormatFullyFlat)) :
    NewSystemHWInventory T fuel h hwlocs xName format =
      some ⟨none, some HMSError.ErrHWInvFmtInvalid, h⟩ := by
  unfold NewSystemHWInventory
  simp only [hf, if_false]

/-- In the roll-up formats the call returns exactly when every drive walk
finishes. -/
theorem NewSystemHWInventory_nest_cases {R : RFTypes} (T : Taxonomy) (fuel : Nat)
    (h : Heap R) (hwlocs : List Ptr) (xName format : String) (r : Composed R)
    (hf : format = HWInvFormatNestNodesOnly ∨ format = HWInvFormatHierarchical)
    (hr : NewSystemHWInventory T fuel h hwlocs xName format = some r) :
    (∀ d ∈ ofKind T h .Drive hwlocs, (nodeAncestor T fuel (h d).ID).isSome = true) ∧
    r = ⟨some (nestInventory T fuel h hwlocs xName format),
          if format = HWInvFormatHierarchical then some HMSError.ErrHWInvFmtNI
          else deferredErr T h none hwlocs,
          nestHeap T fuel h hwlocs⟩ := by
  by_cases hd : ∀ d ∈ ofKind T h .Drive hwlocs, (nodeAncestor T fuel (h d).ID).isSome = true
  · refine ⟨hd, ?_⟩
    rw [NewSystemHWInventory_nest T fuel h hwlocs xName format hf hd] at hr
    exact (Option.some.inj hr).symm
  · exfalso
    push_neg at hd
    obtain ⟨d, hd1, hd2⟩ := hd
    have hnone : nodeAncestor T fuel (h d).ID = none := by
      cases hx : nodeAncestor T fuel (h d).ID with
      | none => rfl
      | some x => rw [hx] at hd2; simp at hd2
    rw [NewSystemHWInventory_nest_none T fuel h hwlocs xName format hf ⟨d, hd1, hnone⟩] at hr
    cases hr

/-! ## Membership and lookup facts -/

theorem mem_appendAll (s : Option (List Ptr)) (l : List Ptr) (x : Ptr) (hx : x ∈ l) :
    x ∈ (appendAll s l).getD [] := by
  cases l with
  | nil => simp at hx
  | cons y ys => simp only [appendAll, Option.getD_some]; exact List.mem_append_right _ hx

theorem appendAll_none_getD (l : List Ptr) : (appendAll none l).getD [] = l := by
  cases l <;> simp [appendAll]

theorem appendAll_none_eq_slotOf (l : List Ptr) : appendAll none l = slotOf l := by
  cases l <;> simp [appendAll, slotOf]

theorem hasRecord_eq_true {R : RFTypes} (T : Taxonomy) (h : Heap R) (hwlocs : List Ptr)
    (k : HMSType) (id : String) :
    hasRecord T h hwlocs k id = true ↔ ∃ n ∈ hwlocs, kindOf T h n = k ∧ (h n).ID = id := by
  simp [hasRecord]

/-- The lookup map of kind `k` has no entry for `id` exactly when the input has
no record of kind `k` with that ID. -/
theorem kindMap_eq_none {R : RFTypes} (T : Taxonomy) (h : Heap R) (hwlocs : List Ptr)
    (k : HMSType) (id : String) :
    buildMap h (appendAll none (ofKind T h k hwlocs)) id = none ↔
      hasRecord T h hwlocs k id = false := by
  rw [buildMap_eq_none]
  constructor
  · intro hall
    cases hb : hasRecord T h hwlocs k id with
    | false => rfl
    | true =>
      obtain ⟨n, hn, hk, hid⟩ := (hasRecord_eq_true T h hwlocs k id).mp hb
      exact absurd hid (hall n ((mem_ofKind T h k hwlocs n).mpr ⟨hn, hk⟩))
  · intro hb n hn hid
    have hmem := (mem_ofKind T h k hwlocs n).mp hn
    have : hasRecord T h hwlocs k id = true :=
      (hasRecord_eq_true T h hwlocs k id).mpr ⟨n, hmem.1, hmem.2, hid⟩
    rw [hb] at this
    cases this

/-- An entry of the lookup map of kind `k` is a record of the input of kind `k`
with the looked-up ID. -/
theorem kindMap_some {R : RFTypes} (T : Taxonomy) (h : Heap R) (hwlocs : List Ptr)
    (k : HMSType) (id : String) (n : Ptr)
    (hn : buildMap h (appendAll none (ofKind T h k hwlocs)) id = some n) :
    n ∈ hwlocs ∧ kindOf T h n = k ∧ (h n).ID = id := by
  obtain ⟨h1, h2⟩ := buildMap_some h _ id n hn
  obtain ⟨h3, h4⟩ := (mem_ofKind T h k hwlocs n).mp h1
  exact ⟨h3, h4, h2⟩

/-- When the input has a record of kind `k` with the ID, the lookup map has an
entry for it. -/
theorem kindMap_of_mem {R : RFTypes} (T : Taxonomy) (h : Heap R) (hwlocs : List Ptr)
    (k : HMSType) (n : Ptr) (hn : n ∈ hwlocs) (hk : kindOf T h n = k) :
    ∃ n1, buildMap h (appendAll none (ofKind T h k hwlocs)) (h n).ID = some n1 := by
  cases hb : buildMap h (appendAll none (ofKind T h k hwlocs)) (h n).ID with
  | some n1 => exact ⟨n1, rfl⟩
  | none =>
    exfalso
    exact (buildMap_eq_none h _ _).mp hb n ((mem_ofKind T h k hwlocs n).mpr ⟨hn, hk⟩) rfl

/-- The walk ends within `fuel` loop tests when some ancestor at most
`fuel - 1` steps up has kind Node. -/
theorem nodeAncestor_isSome {T : Taxonomy} (fuel : Nat) :
    ∀ (id : String) (k : Nat), k < fuel →
      T.GetHMSType (T.GetHMSCompParent^[k] id) = HMSType.Node →
      (nodeAncestor T fuel id).isSome = true := by
  induction fuel with
  | zero => intro id k hlt; omega
  | succ f ih =>
    intro id k hlt hk
    by_cases h0 : T.GetHMSType id = HMSType.Node
    · simp [nodeAncestor, h0]
    · simp only [nodeAncestor, h0, if_false]
      cases k with
      | zero => exact absurd hk h0
      | succ k1 =>
        rw [Function.iterate_succ_apply] at hk
        exact ih _ k1 (by omega) hk

/-- A roll-up composition returns when every Drive-kind record of the input has
an ancestor of kind Node that the walk reaches within the fuel. -/
theorem NewSystemHWInventory_nest_returns {R : RFTypes} (T : Taxonomy) (fuel : Nat)
    (h : Heap R) (hwlocs : List Ptr) (xName format : String)
    (hf : format = HWInvFormatNestNodesOnly ∨ format = HWInvFormatHierarchical)
    (hwalk : ∀ d ∈ hwlocs, kindOf T h d = HMSType.Drive →
      ∃ k, k < fuel ∧ T.GetHMSType (T.GetHMSCompParent^[k] (h d).ID) = HMSType.Node) :
    (∀ d ∈ ofKind T h .Drive hwlocs, (nodeAncestor T fuel (h d).ID).isSome = true) ∧
    NewSystemHWInventory T fuel h hwlocs xName format =
      some ⟨some (nestInventory T fuel h hwlocs xName format),
            if format = HWInvFormatHierarchical then some HMSError.ErrHWInvFmtNI
            else deferredErr T h none hwlocs,
            nestHeap T fuel h hwlocs⟩ := by
  have hd : ∀ d ∈ ofKind T h .Drive hwlocs, (nodeAncestor T fuel (h d).ID).isSome = true := by
    intro d hdm
    obtain ⟨hm, hk⟩ := (mem_ofKind T h _ hwlocs d).mp hdm
    obtain ⟨k, hlt, hnode⟩ := hwalk d hm hk
    exact nodeAncestor_isSome fuel _ k hlt hnode
  exact ⟨hd, NewSystemHWInventory_nest T fuel h hwlocs xName format hf hd⟩

/-- The walk ends within `fuel` loop tests exactly when some ancestor fewer
than `fuel` steps up has kind Node. -/
theorem nodeAncestor_isSome_iff {T : Taxonomy} (fuel : Nat) :
    ∀ id : String, (nodeAncestor T fuel id).isSome = true ↔
      ∃ k, k < fuel ∧ T.GetHMSType (T.GetHMSCompParent^[k] id) = HMSType.Node := by
  intro id
  constructor
  · revert id
    induction fuel with
    | zero => intro id hs; simp [nodeAncestor] at hs
    | succ f ih =>
      intro id hs
      by_cases h0 : T.GetHMSType id = HMSType.Node
      · exact ⟨0, by omega, h0⟩
      · simp only [nodeAncestor, h0, if_false] at hs
        obtain ⟨k, hlt, hk⟩ := ih _ hs
        exact ⟨k + 1, by omega, by rw [Function.iterate_succ_apply]; exact hk⟩
  · rintro ⟨k, hlt, hk⟩
    exact nodeAncestor_isSome fuel id k hlt hk

/-- A roll-up composition returns exactly when every Drive-kind record of the
input has an ancestor of kind Node that the walk reaches within the fuel. -/
theorem NewSystemHWInventory_nest_isSome_iff {R : RFTypes} (T : Taxonomy) (fuel : Nat)
    (h : Heap R) (hwlocs : List Ptr) (xName format : String)
    (hf : format = HWInvFormatNestNodesOnly ∨ format = HWInvFormatHierarchical) :
    (∃ r, NewSystemHWInventory T fuel h hwlocs xName format = some r) ↔
      ∀ d ∈ hwlocs, kindOf T h d = HMSType.Drive →
        ∃ k, k < fuel ∧ T.GetHMSType (T.GetHMSCompParent^[k] (h d).ID) = HMSType.Node := by
  constructor
  · rintro ⟨r, hr⟩ d hdm hk
    obtain ⟨hd, _⟩ := NewSystemHWInventory_nest_cases T fuel h hwlocs xName format r hf hr
    exact (nodeAncestor_isSome_iff fuel _).mp
      (hd d ((mem_ofKind T h _ hwlocs d).mpr ⟨hdm, hk⟩))
  · intro hwalk
    exact ⟨_, (NewSystemHWInventory_nest_returns T fuel h hwlocs xName format hf hwalk).2⟩

/-- A child whose computed parent identifier is the ID of a record of the
parent kind goes to the record the map holds for that ID, which is a record
of the input of that kind and ID (the given one when it is the only one), and
it is not among the orphans. -/
theorem child_placed {R : RFTypes} (T : Taxonomy) (h : Heap R) (hwlocs : List Ptr)
    (parentOf : String → Option String) (k kc : HMSType) (p n : Ptr) (pid : String)
    (hp : p ∈ hwlocs) (hkp : kindOf T h p = kc) (hpid : parentOf (h p).ID = some pid)
    (hn : n ∈ hwlocs) (hkn : kindOf T h n = k) (hnid : (h n).ID = pid) :
    (∃ n1 ∈ hwlocs, kindOf T h n1 = k ∧ (h n1).ID = pid ∧
      p ∈ childrenOf parentOf (buildMap h (appendAll none (ofKind T h k hwlocs))) h n1
            (ofKind T h kc hwlocs) ∧
      ((∀ n2 ∈ hwlocs, kindOf T h n2 = k → (h n2).ID = pid → n2 = n) → n1 = n)) ∧
    p ∉ orphansOf parentOf (buildMap h (appendAll none (ofKind T h k hwlocs))) h
          (ofKind T h kc hwlocs) := by
  obtain ⟨n1, hn1⟩ := kindMap_of_mem T h hwlocs k n hn hkn
  rw [hnid] at hn1
  obtain ⟨hm1, hk1, hid1⟩ := kindMap_some T h hwlocs k pid n1 hn1
  have hpp : parentPtr parentOf (buildMap h (appendAll none (ofKind T h k hwlocs))) h p =
      some n1 := by
    simp [parentPtr, hpid, hn1]
  have hpk : p ∈ ofKind T h kc hwlocs := (mem_ofKind T h kc hwlocs p).mpr ⟨hp, hkp⟩
  refine ⟨⟨n1, hm1, hk1, hid1, ?_, fun huniq => huniq n1 hm1 hk1 hid1⟩, ?_⟩
  · simp [childrenOf, hpk, hpp]
  · simp [orphansOf, hpp]

/-- The orphans of a loop with an always-returning parent computation are the
children whose parent identifier is the ID of no record of the parent kind. -/
theorem orphansOf_eq_filter {R : RFTypes} (T : Taxonomy) (h : Heap R) (hwlocs : List Ptr)
    (parentOf : String → Option String) (k kc : HMSType) :
    orphansOf parentOf (buildMap h (appendAll none (ofKind T h k hwlocs))) h
        (ofKind T h kc hwlocs) =
      hwlocs.filter (fun p => decide (kindOf T h p = kc) &&
        (parentOf (h p).ID).all (fun pid => !hasRecord T h hwlocs k pid)) := by
  have hmn : ∀ pid, buildMap h (appendAll none (ofKind T h k hwlocs)) pid = none ↔
      hasRecord T h hwlocs k pid = false := fun pid => kindMap_eq_none T h hwlocs k pid
  generalize buildMap h (appendAll none (ofKind T h k hwlocs)) = m at hmn
  unfold orphansOf ofKind
  rw [List.filter_filter]
  apply List.filter_congr
  intro p _
  by_cases hk : kindOf T h p = kc
  · cases hpid : parentOf (h p).ID with
    | none => simp [parentPtr, hpid, hk]
    | some pid =>
      cases hb : hasRecord T h hwlocs k pid with
      | false => simp [parentPtr, hpid, hk, hb, (hmn pid).mpr hb]
      | true =>
        have hne : m pid ≠ none := by
          intro e
          rw [(hmn pid).mp e] at hb
          cases hb
        simp [parentPtr, hpid, hk, hb, hne]
  · simp [hk]

/-- C1 (node roll-up).  A NestNodesOnly composition returns when the walk of
every Drive-kind record ends within the fuel, and then a Processor-kind (resp.
Memory-kind) record whose immediate parent identifier is the ID of a Node-kind
record `n` of the input is in the nested Processors (resp. Memory) slot of a
Node-kind record of the input with that ID - of `n` itself when no other Node
record has this ID - and is not in the top-level slot; and the top-level slot
is nil when every such record has a matching Node. -/
theorem C1_node_rollup {R : RFTypes} (T : Taxonomy) (fuel : Nat) (h : Heap R)
    (hwlocs : List Ptr) (xName : String)
    (hwalk : ∀ d ∈ hwlocs, kindOf T h d = HMSType.Drive →
      ∃ k, k < fuel ∧ T.GetHMSType (T.GetHMSCompParent^[k] (h d).ID) = HMSType.Node) :
    ∃ r inv, NewSystemHWInventory T fuel h hwlocs xName HWInvFormatNestNodesOnly = some r ∧
      r.hwinv = some inv ∧
      (∀ p ∈ hwlocs, ∀ n ∈ hwlocs, kindOf T h n = HMSType.Node →
        (h n).ID = T.GetHMSCompParent (h p).ID →
        (kindOf T h p = HMSType.Processor →
          (∃ n1 ∈ hwlocs, kindOf T h n1 = HMSType.Node ∧ (h n1).ID = (h n).ID ∧
            p ∈ (r.heap n1).Processors.getD [] ∧
            ((∀ n2 ∈ hwlocs, kindOf T h n2 = HMSType.Node → (h n2).ID = (h n).ID → n2 = n) →
              n1 = n)) ∧
          p ∉ inv.Processors.getD []) ∧
        (kindOf T h p = HMSType.Memory →
          (∃ n1 ∈ hwlocs, kindOf T h n1 = HMSType.Node ∧ (h n1).ID = (h n).ID ∧
            p ∈ (r.heap n1).Memory.getD [] ∧
            ((∀ n2 ∈ hwlocs, kindOf T h n2 = HMSType.Node → (h n2).ID = (h n).ID → n2 = n) →
              n1 = n)) ∧
          p ∉ inv.Memory.getD [])) ∧
      ((∀ p ∈ hwlocs, kindOf T h p = HMSType.Processor →
          hasRecord T h hwlocs HMSType.Node (T.GetHMSCompParent (h p).ID) = true) →
        inv.Processors = none) ∧
      ((∀ p ∈ hwlocs, kindOf T h p = HMSType.Memory →
          hasRecord T h hwlocs HMSType.Node (T.GetHMSCompParent (h p).ID) = true) →
        inv.Memory = none) := by
  refine ⟨_, _, (NewSystemHWInventory_nest_returns T fuel h hwlocs xName _ (Or.inl rfl)
    hwalk).2, rfl, ?_, ?_, ?_⟩
  · intro p hp n hn hkn hnid
    constructor
    · intro hkp
      obtain ⟨⟨n1, hm1, hk1, hid1, hch, huniq⟩, horph⟩ :=
        child_placed T h hwlocs (immediateParent T) HMSType.Node HMSType.Processor p n
          (T.GetHMSCompParent (h p).ID) hp hkp rfl hn hkn hnid
      refine ⟨⟨n1, hm1, hk1, hid1.trans hnid.symm, mem_appendAll _ _ _ hch, ?_⟩, ?_⟩
      · intro hu
        exact huniq (fun n2 h2 hk2 hid2 => hu n2 h2 hk2 (hid2.trans hnid.symm))
      · show p ∉ (appendAll none _).getD []
        rw [appendAll_none_getD]
        exact horph
    · intro hkp
      obtain ⟨⟨n1, hm1, hk1, hid1, hch, huniq⟩, horph⟩ :=
        child_placed T h hwlocs (immediateParent T) HMSType.Node HMSType.Memory p n
          (T.GetHMSCompParent (h p).ID) hp hkp rfl hn hkn hnid
      refine ⟨⟨n1, hm1, hk1, hid1.trans hnid.symm, mem_appendAll _ _ _ hch, ?_⟩, ?_⟩
      · intro hu
        exact huniq (fun n2 h2 hk2 hid2 => hu n2 h2 hk2 (hid2.trans hnid.symm))
      · show p ∉ (appendAll none _).getD []
        rw [appendAll_none_getD]
        exact horph
  · intro hall
    show appendAll none (orphansOf (immediateParent T) (nodeMap T h hwlocs) h
      (ofKind T h HMSType.Processor hwlocs)) = none
    have hnil : orphansOf (immediateParent T) (nodeMap T h hwlocs) h
        (ofKind T h HMSType.Processor hwlocs) = [] := by
      unfold nodeMap
      rw [orphansOf_eq_filter, List.filter_eq_nil_iff]
      intro p hp
      by_cases hk : kindOf T h p = HMSType.Processor
      · simp [hk, immediateParent, hall p hp hk]
      · simp [hk]
    rw [hnil]
    rfl
  · intro hall
    show appendAll none (orphansOf (immediateParent T) (nodeMap T h hwlocs) h
      (ofKind T h HMSType.Memory hwlocs)) = none
    have hnil : orphansOf (immediateParent T) (nodeMap T h hwlocs) h
        (ofKind T h HMSType.Memory hwlocs) = [] := by
      unfold nodeMap
      rw [orphansOf_eq_filter, List.filter_eq_nil_iff]
      intro p hp
      by_cases hk : kindOf T h p = HMSType.Memory
      · simp [hk, immediateParent, hall p hp hk]
      · simp [hk]
    rw [hnil]
    rfl

/-- C1 at Node "x0c0s0b0n0" and Processor "x0c0s0b0n0p0": the processor is in
the node's nested Processors slot and the top-level Processors slot is nil. -/
theorem C1_node_rollup_witness :
    ∃ r inv, NewSystemHWInventory xnames 1
        (heapOf [mkLoc "x0c0s0b0n0" "Node", mkLoc "x0c0s0b0n0p0" "Processor"]) [0, 1] "s0"
        HWInvFormatNestNodesOnly = some r ∧
      r.hwinv = some inv ∧ 1 ∈ (r.heap 0).Processors.getD [] ∧
      1 ∉ inv.Processors.getD [] ∧ inv.Processors = none := by
  obtain ⟨r, inv, hr, hinv, hplaced, hnil, _⟩ :=
    C1_node_rollup xnames 1
      (heapOf [mkLoc "x0c0s0b0n0" "Node", mkLoc "x0c0s0b0n0p0" "Processor"]) [0, 1] "s0"
      (by decide)
  obtain ⟨⟨n1, _, _, _, hmem, huniq⟩, hnot⟩ :=
    (hplaced 1 (by decide) 0 (by decide) (by decide) (by decide)).1 (by decide)
  have h0 : n1 = 0 := huniq (by decide)
  subst h0
  exact ⟨r, inv, hr, hinv, hmem, hnot, hnil (by decide)⟩

/-- C2 (orphan retention for node subcomponents).  A NestNodesOnly composition
returns when the walk of every Drive-kind record ends within the fuel, and
then the top-level Processors (resp. Memory) slot holds, in input order,
exactly the Processor-kind (resp. Memory-kind) records whose immediate parent
identifier is the ID of no Node-kind record of the input, and the top-level
Drives slot holds, in input order, exactly the Drive-kind records whose walk
ends at an identifier that is the ID of no Node-kind record of the input. -/
theorem C2_orphans_retained {R : RFTypes} (T : Taxonomy) (fuel : Nat) (h : Heap R)
    (hwlocs : List Ptr) (xName : String)
    (hwalk : ∀ d ∈ hwlocs, kindOf T h d = HMSType.Drive →
      ∃ k, k < fuel ∧ T.GetHMSType (T.GetHMSCompParent^[k] (h d).ID) = HMSType.Node) :
    ∃ r inv, NewSystemHWInventory T fuel h hwlocs xName HWInvFormatNestNodesOnly = some r ∧
      r.hwinv = some inv ∧
      inv.Processors.getD [] =
        hwlocs.filter (fun p => decide (kindOf T h p = HMSType.Processor) &&
          !hasRecord T h hwlocs HMSType.Node (T.GetHMSCompParent (h p).ID)) ∧
      inv.Memory.getD [] =
        hwlocs.filter (fun p => decide (kindOf T h p = HMSType.Memory) &&
          !hasRecord T h hwlocs HMSType.Node (T.GetHMSCompParent (h p).ID)) ∧
      inv.Drives.getD [] =
        hwlocs.filter (fun d => decide (kindOf T h d = HMSType.Drive) &&
          (nodeAncestor T fuel (h d).ID).any
            (fun id => !hasRecord T h hwlocs HMSType.Node id)) := by
  obtain ⟨hd, hreq⟩ :=
    NewSystemHWInventory_nest_returns T fuel h hwlocs xName _ (Or.inl rfl) hwalk
  refine ⟨_, _, hreq, rfl, ?_, ?_, ?_⟩
  · show (appendAll none (orphansOf (immediateParent T) (nodeMap T h hwlocs) h
      (ofKind T h HMSType.Processor hwlocs))).getD [] = _
    rw [appendAll_none_getD]
    unfold nodeMap
    rw [orphansOf_eq_filter]
    rfl
  · show (appendAll none (orphansOf (immediateParent T) (nodeMap T h hwlocs) h
      (ofKind T h HMSType.Memory hwlocs))).getD [] = _
    rw [appendAll_none_getD]
    unfold nodeMap
    rw [orphansOf_eq_filter]
    rfl
  · show (appendAll none (orphansOf (nodeAncestor T fuel) (nodeMap T h hwlocs) h
      (ofKind T h HMSType.Drive hwlocs))).getD [] = _
    rw [appendAll_none_getD]
    unfold nodeMap
    rw [orphansOf_eq_filter]
    apply List.filter_congr
    intro d hdm
    by_cases hk : kindOf T h d = HMSType.Drive
    · obtain ⟨id, hid⟩ := Option.isSome_iff_exists.mp
        (hd d ((mem_ofKind T h _ hwlocs d).mpr ⟨hdm, hk⟩))
      simp [hk, hid]
    · simp [hk]

/-- C2 at Memory "x0c0s0b0n1d0" with no Node "x0c0s0b0n1" in the input: the
record is in the top-level Memory array. -/
theorem C2_orphans_retained_witness :
    ∃ r inv, NewSystemHWInventory xnames 1
        (heapOf [mkLoc "x0c0s0b0n0" "Node", mkLoc "x0c0s0b0n1d0" "Memory"]) [0, 1] "s0"
        HWInvFormatNestNodesOnly = some r ∧
      r.hwinv = some inv ∧ inv.Memory.getD [] = [1] := by
  obtain ⟨r, inv, hr, hinv, _, hmem, _⟩ :=
    C2_orphans_retained xnames 1
      (heapOf [mkLoc "x0c0s0b0n0" "Node", mkLoc "x0c0s0b0n1d0" "Memory"]) [0, 1] "s0"
      (by decide)
  refine ⟨r, inv, hr, hinv, ?_⟩
  rw [hmem]
  decide

/-- After a roll-up the top-level CabinetPDUOutlets slot is nil, whatever the
input: the assignment after the outlet loop clears it. -/
theorem outlets_slot_nil {R : RFTypes} (T : Taxonomy) (fuel : Nat) (h : Heap R)
    (hwlocs : List Ptr) (xName format : String) (r : Composed R)
    (hf : format = HWInvFormatNestNodesOnly ∨ format = HWInvFormatHierarchical)
    (hr : NewSystemHWInventory T fuel h hwlocs xName format = some r) :
    ∃ inv, r.hwinv = some inv ∧ inv.CabinetPDUOutlets = none := by
  obtain ⟨_, hreq⟩ := NewSystemHWInventory_nest_cases T fuel h hwlocs xName _ r hf hr
  subst hreq
  exact ⟨_, rfl, rfl⟩

/-- A record keeps its nested slots through the roll-up when no child is handed
to it. -/
theorem nestHeap_eq_self {R : RFTypes} (T : Taxonomy) (fuel : Nat) (h : Heap R)
    (hwlocs : List Ptr) (q : Ptr)
    (h1 : childrenOf (immediateParent T) (nodeMap T h hwlocs) h q
      (ofKind T h .Processor hwlocs) = [])
    (h2 : childrenOf (immediateParent T) (nodeMap T h hwlocs) h q
      (ofKind T h .Memory hwlocs) = [])
    (h3 : childrenOf (nodeAncestor T fuel) (nodeMap T h hwlocs) h q
      (ofKind T h .Drive hwlocs) = [])
    (h4 : childrenOf (immediateParent T) (pduMap T h hwlocs) h q
      (ofKind T h .CabinetPDUOutlet hwlocs) = []) :
    nestHeap T fuel h hwlocs q = h q := by
  unfold nestHeap
  rw [h1, h2, h3, h4]
  rfl

theorem childrenOf_nil_of_orphans {R : RFTypes} (parentOf : String → Option String)
    (m : String → Option Ptr) (h : Heap R) (q : Ptr) (cs : List Ptr)
    (horph : ∀ c ∈ cs, parentPtr parentOf m h c = none) :
    childrenOf parentOf m h q cs = [] := by
  unfold childrenOf
  rw [List.filter_eq_nil_iff]
  intro c hc
  simp [horph c hc]

/-- C3 (orphan retention for outlets) fails on the code.  The input is the
single CabinetPDUOutlet record "x0m0p0j1", with no CabinetPDU "x0m0p0", composed
as NestNodesOnly: the call returns a nil error and an aggregate all of whose
top-level slots are nil, and no record gains a child, so the record is dropped. -/
theorem C3_orphan_outlet_dropped :
    ∃ r inv, NewSystemHWInventory xnames 1
        (heapOf [mkLoc "x0m0p0j1" "CabinetPDUOutlet"]) [0] "s0"
        HWInvFormatNestNodesOnly = some r ∧
      r.hwinv = some inv ∧ r.err = none ∧ inv.CabinetPDUOutlets = none ∧
      (∀ s ∈ allSlots inv.tohmsTypeArrays, s = none) ∧
      r.heap = heapOf [mkLoc "x0m0p0j1" "CabinetPDUOutlet"] := by
  have hsome : (NewSystemHWInventory xnames 1
      (heapOf [mkLoc "x0m0p0j1" "CabinetPDUOutlet"]) [0] "s0"
      HWInvFormatNestNodesOnly).isSome = true := by decide
  obtain ⟨r, hr⟩ := Option.isSome_iff_exists.mp hsome
  obtain ⟨_, hreq⟩ := NewSystemHWInventory_nest_cases xnames 1 _ [0] "s0" _ r (Or.inl rfl) hr
  refine ⟨r, nestInventory xnames 1 (heapOf [mkLoc "x0m0p0j1" "CabinetPDUOutlet"]) [0] "s0"
    HWInvFormatNestNodesOnly, hr, ?_, ?_, ?_, ?_, ?_⟩
  · rw [hreq]
  · rw [hreq]; decide
  · rfl
  · decide
  · rw [hreq]
    funext q
    apply nestHeap_eq_self
    · apply childrenOf_nil_of_orphans; decide
    · apply childrenOf_nil_of_orphans; decide
    · apply childrenOf_nil_of_orphans; decide
    · apply childrenOf_nil_of_orphans; decide

/-! ## The flat format -/

theorem ofKind_sum {R : RFTypes} (T : Taxonomy) (h : Heap R) (l : List Ptr) :
    (ofKind T h .Node l).length + (ofKind T h .Cabinet l).length +
      (ofKind T h .Chassis l).length + (ofKind T h .ComputeModule l).length +
      (ofKind T h .RouterModule l).length + (ofKind T h .NodeEnclosure l).length +
      (ofKind T h .HSNBoard l).length + (ofKind T h .Processor l).length +
      (ofKind T h .Memory l).length + (ofKind T h .Drive l).length +
      (ofKind T h .CabinetPDU l).length + (ofKind T h .CabinetPDUOutlet l).length =
    (l.filter (fun p => bucketed (kindOf T h p))).length := by
  induction l with
  | nil => rfl
  | cons x xs ih =>
    simp only [ofKind_cons, List.filter_cons]
    cases hk : kindOf T h x <;>
      simp +decide only [reduceCtorEq, if_true, if_false, List.length_cons] <;> omega

theorem slotCount_bucketInto {R : RFTypes} (T : Taxonomy) (h : Heap R) (l : List Ptr)
    (xName format : String) :
    slotCount (bucketInto T h { XName := xName, Format := format } l).tohmsTypeArrays =
      (l.filter (fun p => bucketed (kindOf T h p))).length := by
  rw [← ofKind_sum]
  simp [slotCount, allSlots, bucketInto, appendAll_none_getD]
  omega

/-- C4 as stated fails: a FullyFlat composition of the single record
"x0c0s0b0" of Type "NodeBMC" (a kind without a case in the first loop) returns
an aggregate whose slots hold no record at all, while the input has length 1. -/
theorem C4_counterexample :
    ∃ r inv, NewSystemHWInventory xnames 0 (heapOf [mkLoc "x0c0s0b0" "NodeBMC"]) [0] "s0"
        HWInvFormatFullyFlat = some r ∧
      r.hwinv = some inv ∧ slotCount inv.tohmsTypeArrays = 0 ∧
      slotCount inv.tohmsTypeArrays ≠ ([0] : List Ptr).length := by
  refine ⟨_, _, NewSystemHWInventory_flat xnames 0 _ [0] "s0", rfl, ?_, ?_⟩ <;> decide

/-- C4, amended (total preservation).  A FullyFlat composition always returns,
and the lengths of the top-level slots of its aggregate add up to the number
of input records whose declared Type is one of the twelve bucketed kinds; the
sum is the input length exactly when every record has such a kind. -/
theorem C4_total_preservation {R : RFTypes} (T : Taxonomy) (fuel : Nat) (h : Heap R)
    (hwlocs : List Ptr) (xName : String) :
    ∃ r inv, NewSystemHWInventory T fuel h hwlocs xName HWInvFormatFullyFlat = some r ∧
      r.hwinv = some inv ∧
      slotCount inv.tohmsTypeArrays =
        (hwlocs.filter (fun p => bucketed (kindOf T h p))).length ∧
      (slotCount inv.tohmsTypeArrays = hwlocs.length ↔
        ∀ p ∈ hwlocs, bucketed (kindOf T h p) = true) := by
  refine ⟨_, _, NewSystemHWInventory_flat T fuel h hwlocs xName, rfl, ?_, ?_⟩
  · exact slotCount_bucketInto T h hwlocs xName _
  · show slotCount (bucketInto T h _ hwlocs).tohmsTypeArrays = _ ↔ _
    rw [slotCount_bucketInto]
    exact List.filter_length_eq_length

/-! ## Formats -/

/-- C5 (format validation).  For a format that is none of the three exact
strings the call returns the nil aggregate with ErrHWInvFmtInvalid, whatever
the records; and whenever the call returns, the aggregate is nil with
ErrHWInvFmtInvalid exactly for such a format, and is otherwise non-nil with
XName and Format as passed. -/
theorem C5_format_validation {R : RFTypes} (T : Taxonomy) (fuel : Nat) (h : Heap R)
    (hwlocs : List Ptr) (xName format : String) :
    (¬ (format = "FullyFlat" ∨ format = "NestNodesOnly" ∨ format = "Hierarchical") →
      NewSystemHWInventory T fuel h hwlocs xName format =
        some ⟨none, some HMSError.ErrHWInvFmtInvalid, h⟩) ∧
    (∀ r, NewSystemHWInventory T fuel h hwlocs xName format = some r →
      ((r.hwinv = none ∧ r.err = some HMSError.ErrHWInvFmtInvalid) ↔
        ¬ (format = "FullyFlat" ∨ format = "NestNodesOnly" ∨ format = "Hierarchical")) ∧
      ((format = "FullyFlat" ∨ format = "NestNodesOnly" ∨ format = "Hierarchical") →
        ∃ inv, r.hwinv = some inv ∧ inv.XName = xName ∧ inv.Format = format)) := by
  have hvalid : (format = "FullyFlat" ∨ format = "NestNodesOnly" ∨ format = "Hierarchical") →
      ∀ r, NewSystemHWInventory T fuel h hwlocs xName format = some r →
        ∃ inv, r.hwinv = some inv ∧ inv.XName = xName ∧ inv.Format = format := by
    intro hv r hr
    rcases hv with e | e | e
    · subst e
      have := NewSystemHWInventory_flat T fuel h hwlocs xName
      rw [show HWInvFormatFullyFlat = "FullyFlat" from rfl, hr] at this
      rw [Option.some.inj this]
      exact ⟨_, rfl, rfl, rfl⟩
    · obtain ⟨_, hreq⟩ :=
        NewSystemHWInventory_nest_cases T fuel h hwlocs xName format r (Or.inl e) hr
      rw [hreq]
      exact ⟨_, rfl, rfl, rfl⟩
    · obtain ⟨_, hreq⟩ :=
        NewSystemHWInventory_nest_cases T fuel h hwlocs xName format r (Or.inr e) hr
      rw [hreq]
      exact ⟨_, rfl, rfl, rfl⟩
  have hinv : ¬ (format = "FullyFlat" ∨ format = "NestNodesOnly" ∨ format = "Hierarchical") →
      NewSystemHWInventory T fuel h hwlocs xName format =
        some ⟨none, some HMSError.ErrHWInvFmtInvalid, h⟩ := by
    intro hn
    apply NewSystemHWInventory_invalid
    intro hv
    apply hn
    rcases hv with e | e | e
    · exact Or.inr (Or.inl e)
    · exact Or.inr (Or.inr e)
    · exact Or.inl e
  refine ⟨hinv, fun r hr => ⟨⟨?_, ?_⟩, fun hv => hvalid hv r hr⟩⟩
  · rintro ⟨hnil, _⟩ hv
    obtain ⟨inv, hsome, _⟩ := hvalid hv r hr
    rw [hnil] at hsome
    cases hsome
  · intro hn
    rw [hinv hn] at hr
    rw [← Option.some.inj hr]
    exact ⟨rfl, rfl⟩

/-- C5 at the formats "Bogus" and "": no aggregate and ErrHWInvFmtInvalid, also
for a list holding a record; and at "FullyFlat" a non-nil aggregate. -/
theorem C5_format_validation_witness :
    NewSystemHWInventory xnames 0 (heapOf [mkLoc "x0c0s0b0n0" "Node"]) [0] "s0" "Bogus" =
      some ⟨none, some HMSError.ErrHWInvFmtInvalid, heapOf [mkLoc "x0c0s0b0n0" "Node"]⟩ ∧
    NewSystemHWInventory xnames 0 (heapOf [mkLoc "x0c0s0b0n0" "Node"]) [0] "s0" "" =
      some ⟨none, some HMSError.ErrHWInvFmtInvalid, heapOf [mkLoc "x0c0s0b0n0" "Node"]⟩ ∧
    ∃ r inv, NewSystemHWInventory xnames 0 (heapOf [mkLoc "x0c0s0b0n0" "Node"]) [0] "s0"
        "FullyFlat" = some r ∧
      r.hwinv = some inv ∧ inv.XName = "s0" ∧ inv.Format = "FullyFlat" := by
  refine ⟨(C5_format_validation xnames 0 _ [0] "s0" "Bogus").1 (by decide),
    (C5_format_validation xnames 0 _ [0] "s0" "").1 (by decide), ?_⟩
  have hsome : (NewSystemHWInventory xnames 0 (heapOf [mkLoc "x0c0s0b0n0" "Node"]) [0] "s0"
      "FullyFlat").isSome = true := by decide
  obtain ⟨r, hr⟩ := Option.isSome_iff_exists.mp hsome
  obtain ⟨inv, h1, h2, h3⟩ :=
    ((C5_format_validation xnames 0 _ [0] "s0" "FullyFlat").2 r hr).2 (by decide)
  exact ⟨r, inv, hr, h1, h2, h3⟩

/-- C6 (Hierarchical request).  A Hierarchical composition returns exactly when
the NestNodesOnly composition of the same input does, and then with the error
ErrHWInvFmtNI, the same records, and an aggregate that differs from the
NestNodesOnly one in the Format field only. -/
theorem C6_hierarchical {R : RFTypes} (T : Taxonomy) (fuel : Nat) (h : Heap R)
    (hwlocs : List Ptr) (xName : String) :
    NewSystemHWInventory T fuel h hwlocs xName HWInvFormatHierarchical =
        (NewSystemHWInventory T fuel h hwlocs xName HWInvFormatNestNodesOnly).map
          (fun r => ⟨r.hwinv.map (fun inv => { inv with Format := HWInvFormatHierarchical }),
                     some HMSError.ErrHWInvFmtNI, r.heap⟩) ∧
    (∀ r, NewSystemHWInventory T fuel h hwlocs xName HWInvFormatHierarchical = some r →
      r.err = some HMSError.ErrHWInvFmtNI ∧
      ∃ inv r1 inv1, r.hwinv = some inv ∧
        NewSystemHWInventory T fuel h hwlocs xName HWInvFormatNestNodesOnly = some r1 ∧
        r1.hwinv = some inv1 ∧ inv.tohmsTypeArrays = inv1.tohmsTypeArrays ∧
        inv.XName = inv1.XName ∧ inv.Format = "Hierarchical" ∧
        inv1.Format = "NestNodesOnly" ∧ r.heap = r1.heap) := by
  have hne : ¬ HWInvFormatNestNodesOnly = HWInvFormatHierarchical := by decide
  by_cases hd : ∀ d ∈ ofKind T h .Drive hwlocs, (nodeAncestor T fuel (h d).ID).isSome = true
  · have hH := NewSystemHWInventory_nest T fuel h hwlocs xName HWInvFormatHierarchical
      (Or.inr rfl) hd
    have hN := NewSystemHWInventory_nest T fuel h hwlocs xName HWInvFormatNestNodesOnly
      (Or.inl rfl) hd
    simp only [if_true] at hH
    simp only [hne, if_false] at hN
    refine ⟨?_, ?_⟩
    · rw [hH, hN]
      rfl
    · intro r hr
      rw [hH] at hr
      rw [← Option.some.inj hr]
      exact ⟨rfl, _, _, _, rfl, hN, rfl, rfl, rfl, rfl, rfl, rfl⟩
  · push_neg at hd
    obtain ⟨d, hd1, hd2⟩ := hd
    have hnone : nodeAncestor T fuel (h d).ID = none := by
      cases hx : nodeAncestor T fuel (h d).ID with
      | none => rfl
      | some x => rw [hx] at hd2; simp at hd2
    have hH := NewSystemHWInventory_nest_none T fuel h hwlocs xName HWInvFormatHierarchical
      (Or.inr rfl) ⟨d, hd1, hnone⟩
    have hN := NewSystemHWInventory_nest_none T fuel h hwlocs xName HWInvFormatNestNodesOnly
      (Or.inl rfl) ⟨d, hd1, hnone⟩
    refine ⟨by rw [hH, hN]; rfl, ?_⟩
    intro r hr
    rw [hH] at hr
    cases hr

/-- C6 at a list with a record of invalid Type: the Hierarchical call returns
ErrHWInvFmtNI (not the kind error) and nests the processor as NestNodesOnly
does. -/
theorem C6_hierarchical_witness :
    ∃ r inv, NewSystemHWInventory xnames 1
        (heapOf [mkLoc "x0c0s0b0n0" "Node", mkLoc "x0c0s0b0n0p0" "Processor",
          mkLoc "x9" "Bogus"]) [0, 1, 2] "s0" HWInvFormatHierarchical = some r ∧
      r.err = some HMSError.ErrHWInvFmtNI ∧ r.hwinv = some inv ∧
      inv.Nodes = some [0] ∧ inv.Processors = none ∧ (r.heap 0).Processors = some [1] := by
  have hsome : (NewSystemHWInventory xnames 1
      (heapOf [mkLoc "x0c0s0b0n0" "Node", mkLoc "x0c0s0b0n0p0" "Processor",
        mkLoc "x9" "Bogus"]) [0, 1, 2] "s0" HWInvFormatHierarchical).isSome = true := by decide
  obtain ⟨r, hr⟩ := Option.isSome_iff_exists.mp hsome
  obtain ⟨herr, inv, r1, inv1, hinv, hr1, hinv1, harr, _, _, _, hheap⟩ :=
    (C6_hierarchical xnames 1 _ [0, 1, 2] "s0").2 r hr
  have hN := NewSystemHWInventory_nest xnames 1
    (heapOf [mkLoc "x0c0s0b0n0" "Node", mkLoc "x0c0s0b0n0p0" "Processor",
      mkLoc "x9" "Bogus"]) [0, 1, 2] "s0" HWInvFormatNestNodesOnly (Or.inl rfl) (by decide)
  rw [hN] at hr1
  have hr1 := Option.some.inj hr1
  subst hr1
  have hinv1 := Option.some.inj hinv1
  subst hinv1
  refine ⟨r, inv, hr, herr, hinv, ?_, ?_, ?_⟩
  · show inv.tohmsTypeArrays.Nodes = _
    rw [harr]; decide
  · show inv.tohmsTypeArrays.Processors = _
    rw [harr]; decide
  · rw [hheap]; decide

/-! ## The deferred error -/

/-- The deferred error is nil exactly when every record has a bucketed kind. -/
theorem deferredErr_eq_none_iff {R : RFTypes} (T : Taxonomy) (h : Heap R) (l : List Ptr) :
    deferredErr T h none l = none ↔ ∀ p ∈ l, bucketed (kindOf T h p) = true := by
  have hk : ∀ k, kindErr k = none ↔ bucketed k = true := by
    intro k
    cases k <;> simp +decide [kindErr]
  unfold deferredErr
  constructor
  · intro hnone p hp
    cases hl : (List.filterMap (fun p => kindErr (kindOf T h p)) l).getLast? with
    | some e => rw [hl] at hnone; cases hnone
    | none =>
      have hnil := List.getLast?_eq_none_iff.mp hl
      rw [List.filterMap_eq_nil_iff] at hnil
      exact (hk _).mp (hnil p hp)
  · intro hall
    have hnil : List.filterMap (fun p => kindErr (kindOf T h p)) l = [] := by
      rw [List.filterMap_eq_nil_iff]
      exact fun p hp => (hk _).mpr (hall p hp)
    rw [hnil]
    rfl

/-- With a record `x` of a kind that is not bucketed, followed by records of
bucketed kinds only, the deferred error is the error of `x`. -/
theorem deferredErr_last {R : RFTypes} (T : Taxonomy) (h : Heap R) (pre post : List Ptr)
    (x : Ptr) (hx : bucketed (kindOf T h x) = false)
    (hpost : ∀ p ∈ post, bucketed (kindOf T h p) = true) :
    deferredErr T h none (pre ++ x :: post) =
      some (if kindOf T h x = HMSType.HMSTypeInvalid then HMSError.ErrHMSTypeInvalid
            else HMSError.ErrHMSTypeUnsupported) := by
  have hk : ∀ k, kindErr k = none ↔ bucketed k = true := by
    intro k
    cases k <;> simp +decide [kindErr]
  have hnil : List.filterMap (fun p => kindErr (kindOf T h p)) post = [] := by
    rw [List.filterMap_eq_nil_iff]
    exact fun p hp => (hk _).mpr (hpost p hp)
  have hkx : kindErr (kindOf T h x) =
      some (if kindOf T h x = HMSType.HMSTypeInvalid then HMSError.ErrHMSTypeInvalid
            else HMSError.ErrHMSTypeUnsupported) := by
    unfold kindErr
    rw [hx]
    by_cases hi : kindOf T h x = HMSType.HMSTypeInvalid <;> simp [hi]
  unfold deferredErr
  rw [List.filterMap_append, List.filterMap_cons, hkx, hnil]
  simp

/-- The error of a FullyFlat or NestNodesOnly composition that returns is the
deferred error of the first loop, and the aggregate is not nil. -/
theorem err_eq_deferredErr {R : RFTypes} (T : Taxonomy) (fuel : Nat) (h : Heap R)
    (hwlocs : List Ptr) (xName format : String) (r : Composed R)
    (hf : format = HWInvFormatFullyFlat ∨ format = HWInvFormatNestNodesOnly)
    (hr : NewSystemHWInventory T fuel h hwlocs xName format = some r) :
    r.err = deferredErr T h none hwlocs ∧ r.hwinv ≠ none := by
  rcases hf with e | e
  · subst e
    rw [NewSystemHWInventory_flat] at hr
    rw [← Option.some.inj hr]
    exact ⟨rfl, by simp⟩
  · subst e
    obtain ⟨_, hreq⟩ := NewSystemHWInventory_nest_cases T fuel h hwlocs xName _ r (Or.inl rfl) hr
    rw [hreq]
    have hne : ¬ HWInvFormatNestNodesOnly = HWInvFormatHierarchical := by decide
    simp [hne]

/-- C7 (deferred kind error) fails on the code in its last part.  The input is
the record "x9" of the invalid Type "Bogus" followed by the CabinetPDUOutlet
record "x0m0p0j1", composed as NestNodesOnly: the call returns
ErrHMSTypeInvalid with a non-nil aggregate, as claimed, but the outlet, a
record of a bucketed kind after the bad record, is placed nowhere: every
top-level slot is nil and no record gains a child. -/
theorem C7_outlet_after_bad_record_not_placed :
    ∃ r inv, NewSystemHWInventory xnames 1
        (heapOf [mkLoc "x9" "Bogus", mkLoc "x0m0p0j1" "CabinetPDUOutlet"]) [0, 1] "s0"
        HWInvFormatNestNodesOnly = some r ∧
      r.hwinv = some inv ∧ r.err = some HMSError.ErrHMSTypeInvalid ∧
      bucketed (kindOf xnames
        (heapOf [mkLoc "x9" "Bogus", mkLoc "x0m0p0j1" "CabinetPDUOutlet"]) 1) = true ∧
      (∀ s ∈ allSlots inv.tohmsTypeArrays, s = none) ∧
      r.heap = heapOf [mkLoc "x9" "Bogus", mkLoc "x0m0p0j1" "CabinetPDUOutlet"] := by
  have hsome : (NewSystemHWInventory xnames 1
      (heapOf [mkLoc "x9" "Bogus", mkLoc "x0m0p0j1" "CabinetPDUOutlet"]) [0, 1] "s0"
      HWInvFormatNestNodesOnly).isSome = true := by decide
  obtain ⟨r, hr⟩ := Option.isSome_iff_exists.mp hsome
  obtain ⟨_, hreq⟩ := NewSystemHWInventory_nest_cases xnames 1 _ [0, 1] "s0" _ r (Or.inl rfl) hr
  refine ⟨r, nestInventory xnames 1
    (heapOf [mkLoc "x9" "Bogus", mkLoc "x0m0p0j1" "CabinetPDUOutlet"]) [0, 1] "s0"
    HWInvFormatNestNodesOnly, hr, ?_, ?_, ?_, ?_, ?_⟩
  · rw [hreq]
  · rw [hreq]; decide
  · decide
  · decide
  · rw [hreq]
    funext q
    apply nestHeap_eq_self
    · apply childrenOf_nil_of_orphans; decide
    · apply childrenOf_nil_of_orphans; decide
    · apply childrenOf_nil_of_orphans; decide
    · apply childrenOf_nil_of_orphans; decide

/-! ## The drive walk -/

/-- The walk never ends from an identifier none of whose ancestors, itself
included, has kind Node. -/
theorem nodeAncestor_none {T : Taxonomy} (fuel : Nat) :
    ∀ id : String, (∀ k, T.GetHMSType (T.GetHMSCompParent^[k] id) ≠ HMSType.Node) →
      nodeAncestor T fuel id = none := by
  induction fuel with
  | zero => intro id _; rfl
  | succ f ih =>
    intro id hno
    have h0 : T.GetHMSType id ≠ HMSType.Node := hno 0
    simp only [nodeAncestor, h0, if_false]
    apply ih
    intro k
    have := hno (k + 1)
    rwa [Function.iterate_succ_apply] at this

/-- When the walk ends, it ends at the nearest ancestor of kind Node. -/
theorem nodeAncestor_some_eq {T : Taxonomy} (fuel : Nat) :
    ∀ (id x : String) (k : Nat), nodeAncestor T fuel id = some x →
      T.GetHMSType (T.GetHMSCompParent^[k] id) = HMSType.Node →
      (∀ j, j < k → T.GetHMSType (T.GetHMSCompParent^[j] id) ≠ HMSType.Node) →
      x = T.GetHMSCompParent^[k] id := by
  induction fuel with
  | zero => intro id x k hx; simp [nodeAncestor] at hx
  | succ f ih =>
    intro id x k hx hk hmin
    by_cases h0 : T.GetHMSType id = HMSType.Node
    · simp only [nodeAncestor, h0, if_true] at hx
      have hk0 : k = 0 := by
        by_contra hne
        exact hmin 0 (Nat.pos_of_ne_zero hne) h0
      subst hk0
      exact (Option.some.inj hx).symm
    · simp only [nodeAncestor, h0, if_false] at hx
      cases k with
      | zero => exact absurd hk h0
      | succ k1 =>
        rw [Function.iterate_succ_apply] at hk ⊢
        apply ih _ x k1 hx hk
        intro j hj
        have := hmin (j + 1) (by omega)
        rwa [Function.iterate_succ_apply] at this

/-- The walk ends within `fuel` loop tests when the nearest ancestor of kind
Node is `k < fuel` steps up. -/
theorem nodeAncestor_of_lt {T : Taxonomy} (fuel : Nat) :
    ∀ (id : String) (k : Nat), k < fuel →
      T.GetHMSType (T.GetHMSCompParent^[k] id) = HMSType.Node →
      (∀ j, j < k → T.GetHMSType (T.GetHMSCompParent^[j] id) ≠ HMSType.Node) →
      nodeAncestor T fuel id = some (T.GetHMSCompParent^[k] id) := by
  induction fuel with
  | zero => intro id k hlt; omega
  | succ f ih =>
    intro id k hlt hk hmin
    cases k with
    | zero =>
      have h0 : T.GetHMSType id = HMSType.Node := hk
      simp [nodeAncestor, h0]
    | succ k1 =>
      have h0 : T.GetHMSType id ≠ HMSType.Node := hmin 0 (by omega)
      simp only [nodeAncestor, h0, if_false]
      rw [Function.iterate_succ_apply] at hk ⊢
      apply ih _ k1 (by omega) hk
      intro j hj
      have := hmin (j + 1) (by omega)
      rwa [Function.iterate_succ_apply] at this

/-- C8 (totality of composition) fails on the code.  The input is the single
Drive-kind record with the empty ID, which has no ancestor of kind Node,
composed as NestNodesOnly: whatever the number of loop tests allowed, the walk
`for base.GetHMSType(parentID) != base.Node` has not ended, so the call does
not return and the drive is not handled as an orphan. -/
theorem C8_drive_walk_never_ends :
    (∀ k, xnames.GetHMSType (xnames.GetHMSCompParent^[k] "") ≠ HMSType.Node) ∧
    ∀ fuel, NewSystemHWInventory xnames fuel (heapOf [mkLoc "" "Drive"]) [0] "s0"
      HWInvFormatNestNodesOnly = none := by
  have hfix : ∀ k, xnames.GetHMSCompParent^[k] "" = "" := by
    intro k
    induction k with
    | zero => rfl
    | succ k ih =>
      rw [Function.iterate_succ_apply]
      have : xnames.GetHMSCompParent "" = "" := by decide
      rw [this, ih]
  have hno : ∀ k, xnames.GetHMSType (xnames.GetHMSCompParent^[k] "") ≠ HMSType.Node := by
    intro k
    rw [hfix]
    decide
  refine ⟨hno, fun fuel => ?_⟩
  apply NewSystemHWInventory_nest_none _ _ _ _ _ _ (Or.inl rfl)
  refine ⟨0, by decide, ?_⟩
  exact nodeAncestor_none fuel _ hno

/-- C9 (drive roll-up).  A NestNodesOnly composition returns when the walk of
every Drive-kind record ends within the fuel, and then a Drive-kind record `d`
whose nearest ancestor of kind Node, `k` steps up for any `k`, is the ID of a
Node-kind record `n` of the input is in the nested Drives slot of a Node-kind
record of the input with that ID - of `n` itself when no other Node record
has this ID - and is not in the top-level Drives slot. -/
theorem C9_drive_rollup {R : RFTypes} (T : Taxonomy) (fuel : Nat) (h : Heap R)
    (hwlocs : List Ptr) (xName : String)
    (hwalk : ∀ d ∈ hwlocs, kindOf T h d = HMSType.Drive →
      ∃ k, k < fuel ∧ T.GetHMSType (T.GetHMSCompParent^[k] (h d).ID) = HMSType.Node) :
    ∃ r inv, NewSystemHWInventory T fuel h hwlocs xName HWInvFormatNestNodesOnly = some r ∧
      r.hwinv = some inv ∧
      ∀ d ∈ hwlocs, kindOf T h d = HMSType.Drive →
      ∀ k, T.GetHMSType (T.GetHMSCompParent^[k] (h d).ID) = HMSType.Node →
        (∀ j, j < k → T.GetHMSType (T.GetHMSCompParent^[j] (h d).ID) ≠ HMSType.Node) →
      ∀ n ∈ hwlocs, kindOf T h n = HMSType.Node →
        (h n).ID = T.GetHMSCompParent^[k] (h d).ID →
        (∃ n1 ∈ hwlocs, kindOf T h n1 = HMSType.Node ∧ (h n1).ID = (h n).ID ∧
          d ∈ (r.heap n1).Drives.getD [] ∧
          ((∀ n2 ∈ hwlocs, kindOf T h n2 = HMSType.Node → (h n2).ID = (h n).ID → n2 = n) →
            n1 = n)) ∧
        d ∉ inv.Drives.getD [] := by
  obtain ⟨hd, hreq⟩ :=
    NewSystemHWInventory_nest_returns T fuel h hwlocs xName _ (Or.inl rfl) hwalk
  refine ⟨_, _, hreq, rfl, ?_⟩
  intro d hdm hkd k hk hmin n hn hkn hnid
  obtain ⟨x, hx⟩ := Option.isSome_iff_exists.mp
    (hd d ((mem_ofKind T h _ hwlocs d).mpr ⟨hdm, hkd⟩))
  have hxk : x = T.GetHMSCompParent^[k] (h d).ID := nodeAncestor_some_eq fuel _ x k hx hk hmin
  obtain ⟨⟨n1, hm1, hk1, hid1, hch, huniq⟩, horph⟩ :=
    child_placed T h hwlocs (nodeAncestor T fuel) HMSType.Node HMSType.Drive d n x hdm hkd hx
      hn hkn (hnid.trans hxk.symm)
  refine ⟨⟨n1, hm1, hk1, hid1.trans (hxk.trans hnid.symm), mem_appendAll _ _ _ hch, ?_⟩, ?_⟩
  · intro hu
    exact huniq (fun n2 h2 hk2 hid2 => hu n2 h2 hk2 (hid2.trans (hxk.trans hnid.symm)))
  · show d ∉ (appendAll none _).getD []
    rw [appendAll_none_getD]
    exact horph

/-- C9 at Node "x0c0s0b0n0" and Drive "x0c0s0b0n0g0k0", two steps below the
node with the StorageGroup segment "g0" between: the drive is in the node's
nested Drives slot and not in the top-level Drives slot. -/
theorem C9_drive_rollup_witness :
    ∃ r inv, NewSystemHWInventory xnames 3
        (heapOf [mkLoc "x0c0s0b0n0g0k0" "Drive", mkLoc "x0c0s0b0n0" "Node"]) [0, 1] "s0"
        HWInvFormatNestNodesOnly = some r ∧
      r.hwinv = some inv ∧ 0 ∈ (r.heap 1).Drives.getD [] ∧ 0 ∉ inv.Drives.getD [] := by
  obtain ⟨r, inv, hr, hinv, hplaced⟩ :=
    C9_drive_rollup xnames 3
      (heapOf [mkLoc "x0c0s0b0n0g0k0" "Drive", mkLoc "x0c0s0b0n0" "Node"]) [0, 1] "s0"
      (by decide)
  obtain ⟨⟨n1, _, _, _, hmem, huniq⟩, hnot⟩ :=
    hplaced 0 (by decide) (by decide) 2 (by decide) (by decide) 1 (by decide) (by decide)
      (by decide)
  have h1 : n1 = 1 := huniq (by decide)
  subst h1
  exact ⟨r, inv, hr, hinv, hmem, hnot⟩

/-- C10 (bucketing preserves input order).  A FullyFlat composition always
returns, leaves the records alone, and in its aggregate each of the twelve
bucketed slots holds exactly the input records declaring that kind, in input
order (nil when there is none), every other slot being nil. -/
theorem C10_bucketing_order {R : RFTypes} (T : Taxonomy) (fuel : Nat) (h : Heap R)
    (hwlocs : List Ptr) (xName : String) :
    ∃ inv, NewSystemHWInventory T fuel h hwlocs xName HWInvFormatFullyFlat =
        some ⟨some inv, deferredErr T h none hwlocs, h⟩ ∧
      inv.tohmsTypeArrays =
        { Cabinets := slotOf (ofKind T h HMSType.Cabinet hwlocs)
          Chassis := slotOf (ofKind T h HMSType.Chassis hwlocs)
          ComputeModules := slotOf (ofKind T h HMSType.ComputeModule hwlocs)
          RouterModules := slotOf (ofKind T h HMSType.RouterModule hwlocs)
          NodeEnclosures := slotOf (ofKind T h HMSType.NodeEnclosure hwlocs)
          HSNBoards := slotOf (ofKind T h HMSType.HSNBoard hwlocs)
          Nodes := slotOf (ofKind T h HMSType.Node hwlocs)
          Processors := slotOf (ofKind T h HMSType.Processor hwlocs)
          Memory := slotOf (ofKind T h HMSType.Memory hwlocs)
          Drives := slotOf (ofKind T h HMSType.Drive hwlocs)
          CabinetPDUs := slotOf (ofKind T h HMSType.CabinetPDU hwlocs)
          CabinetPDUOutlets := slotOf (ofKind T h HMSType.CabinetPDUOutlet hwlocs) } ∧
      ∀ k, ofKind T h k hwlocs =
        hwlocs.filter (fun p => decide (T.ToHMSType (h p).Type_ = k)) := by
  refine ⟨_, NewSystemHWInventory_flat T fuel h hwlocs xName, ?_, fun k => rfl⟩
  simp only [← appendAll_none_eq_slotOf]
  rfl

/-! ## Outlets, unsupported kinds, and the error of a roll-up -/

/-- C11 (outlet roll-up).  A NestNodesOnly composition returns when the walk of
every Drive-kind record ends within the fuel, and then the top-level
CabinetPDUOutlets slot is nil, a CabinetPDUOutlet-kind record whose immediate
parent identifier is the ID of a CabinetPDU-kind record `n` of the input is in
the nested CabinetPDUOutlets slot of a CabinetPDU-kind record of the input
with that ID - of `n` itself when no other CabinetPDU record has this ID -
and the nested slot of every record is what it held before followed by the
outlets handed to it, in input order. -/
theorem C11_outlet_rollup {R : RFTypes} (T : Taxonomy) (fuel : Nat) (h : Heap R)
    (hwlocs : List Ptr) (xName : String)
    (hwalk : ∀ d ∈ hwlocs, kindOf T h d = HMSType.Drive →
      ∃ k, k < fuel ∧ T.GetHMSType (T.GetHMSCompParent^[k] (h d).ID) = HMSType.Node) :
    ∃ r inv, NewSystemHWInventory T fuel h hwlocs xName HWInvFormatNestNodesOnly = some r ∧
      r.hwinv = some inv ∧ inv.CabinetPDUOutlets = none ∧
      (∀ o ∈ hwlocs, kindOf T h o = HMSType.CabinetPDUOutlet →
        ∀ n ∈ hwlocs, kindOf T h n = HMSType.CabinetPDU →
        (h n).ID = T.GetHMSCompParent (h o).ID →
        ∃ n1 ∈ hwlocs, kindOf T h n1 = HMSType.CabinetPDU ∧ (h n1).ID = (h n).ID ∧
          o ∈ (r.heap n1).CabinetPDUOutlets.getD [] ∧
          ((∀ n2 ∈ hwlocs, kindOf T h n2 = HMSType.CabinetPDU → (h n2).ID = (h n).ID →
            n2 = n) → n1 = n)) ∧
      (∀ q, (r.heap q).CabinetPDUOutlets =
        appendAll (h q).CabinetPDUOutlets
          (hwlocs.filter (fun o => decide (kindOf T h o = HMSType.CabinetPDUOutlet) &&
            decide (pduMap T h hwlocs (T.GetHMSCompParent (h o).ID) = some q)))) := by
  refine ⟨_, _, (NewSystemHWInventory_nest_returns T fuel h hwlocs xName _ (Or.inl rfl)
    hwalk).2, rfl, rfl, ?_, ?_⟩
  · intro o ho hko n hn hkn hnid
    obtain ⟨⟨n1, hm1, hk1, hid1, hch, huniq⟩, _⟩ :=
      child_placed T h hwlocs (immediateParent T) HMSType.CabinetPDU HMSType.CabinetPDUOutlet
        o n (T.GetHMSCompParent (h o).ID) ho hko rfl hn hkn hnid
    refine ⟨n1, hm1, hk1, hid1.trans hnid.symm, mem_appendAll _ _ _ hch, ?_⟩
    intro hu
    exact huniq (fun n2 h2 hk2 hid2 => hu n2 h2 hk2 (hid2.trans hnid.symm))
  · intro q
    show appendAll (h q).CabinetPDUOutlets (childrenOf (immediateParent T) (pduMap T h hwlocs) h q
      (ofKind T h HMSType.CabinetPDUOutlet hwlocs)) = _
    congr 1
    unfold childrenOf ofKind
    rw [List.filter_filter]
    apply List.filter_congr
    intro o _
    simp [parentPtr, immediateParent, Bool.and_comm]

/-- C11 at CabinetPDU "x0m0p0" with the outlets "x0m0p0j2" and "x0m0p0j1" in this
input order: both are in the nested slot of the PDU, in input order, and the
top-level CabinetPDUOutlets slot is nil. -/
theorem C11_outlet_rollup_witness :
    ∃ r inv, NewSystemHWInventory xnames 1
        (heapOf [mkLoc "x0m0p0j2" "CabinetPDUOutlet", mkLoc "x0m0p0" "CabinetPDU",
          mkLoc "x0m0p0j1" "CabinetPDUOutlet"]) [0, 1, 2] "s0"
        HWInvFormatNestNodesOnly = some r ∧
      r.hwinv = some inv ∧ inv.CabinetPDUOutlets = none ∧
      (r.heap 1).CabinetPDUOutlets = some [0, 2] := by
  obtain ⟨r, inv, hr, hinv, hnil, _, hslot⟩ :=
    C11_outlet_rollup xnames 1
      (heapOf [mkLoc "x0m0p0j2" "CabinetPDUOutlet", mkLoc "x0m0p0" "CabinetPDU",
        mkLoc "x0m0p0j1" "CabinetPDUOutlet"]) [0, 1, 2] "s0" (by decide)
  refine ⟨r, inv, hr, hinv, hnil, ?_⟩
  rw [hslot 1]
  decide

/-- Every entry of a slot filled from the records of a bucketed kind declares a
bucketed kind. -/
theorem slot_ofKind_bucketed {R : RFTypes} (T : Taxonomy) (h : Heap R) (k : HMSType)
    (l : List Ptr) (hk : bucketed k = true) (f : List Ptr → List Ptr)
    (hf : ∀ x, x ∈ f (ofKind T h k l) → x ∈ ofKind T h k l) :
    ∀ x ∈ (appendAll none (f (ofKind T h k l))).getD [], bucketed (kindOf T h x) = true := by
  intro x hx
  rw [appendAll_none_getD] at hx
  have := (mem_ofKind T h k l x).mp (hf x hx)
  rw [this.2]
  exact hk

theorem mem_orphansOf {R : RFTypes} (parentOf : String → Option String)
    (m : String → Option Ptr) (h : Heap R) (cs : List Ptr) (x : Ptr)
    (hx : x ∈ orphansOf parentOf m h cs) : x ∈ cs := by
  unfold orphansOf at hx
  exact (List.mem_filter.mp hx).1

/-- The top-level slots of the aggregate of the first loop hold records of
bucketed kinds only. -/
theorem bucketInto_slots_bucketed {R : RFTypes} (T : Taxonomy) (h : Heap R)
    (hwlocs : List Ptr) (xName format : String) :
    ∀ s ∈ allSlots (bucketInto T h { XName := xName, Format := format }
        hwlocs).tohmsTypeArrays,
      ∀ x ∈ s.getD [], bucketed (kindOf T h x) = true := by
  have hb : ∀ k, bucketed k = true →
      ∀ x ∈ (appendAll none (ofKind T h k hwlocs)).getD [], bucketed (kindOf T h x) = true :=
    fun k hk => slot_ofKind_bucketed T h k hwlocs hk id (fun _ hx => hx)
  intro s hs
  simp only [allSlots, bucketInto, List.mem_cons, List.mem_singleton, List.not_mem_nil,
    or_false] at hs
  rcases hs with e | e | e | e | e | e | e | e | e | e | e | e | e | e | e | e | e | e | e | e |
    e | e | e | e | e | e | e | e | e | e | e | e | e | e | e | e | e | e | e | e
  all_goals subst e
  all_goals first
    | exact hb _ rfl
    | (intro x hx; simp at hx)

/-- The top-level slots of the aggregate of a roll-up hold records of bucketed
kinds only. -/
theorem nestInventory_slots_bucketed {R : RFTypes} (T : Taxonomy) (fuel : Nat) (h : Heap R)
    (hwlocs : List Ptr) (xName format : String) :
    ∀ s ∈ allSlots (nestInventory T fuel h hwlocs xName format).tohmsTypeArrays,
      ∀ x ∈ s.getD [], bucketed (kindOf T h x) = true := by
  have hb : ∀ k, bucketed k = true →
      ∀ x ∈ (appendAll none (ofKind T h k hwlocs)).getD [], bucketed (kindOf T h x) = true :=
    fun k hk => slot_ofKind_bucketed T h k hwlocs hk id (fun _ hx => hx)
  have ho : ∀ k parentOf m, bucketed k = true →
      ∀ x ∈ (appendAll none (orphansOf parentOf m h (ofKind T h k hwlocs))).getD [],
        bucketed (kindOf T h x) = true :=
    fun k parentOf m hk => slot_ofKind_bucketed T h k hwlocs hk (orphansOf parentOf m h)
      (fun x hx => mem_orphansOf parentOf m h _ x hx)
  intro s hs
  simp only [allSlots, nestInventory, bucketInto, List.mem_cons, List.mem_singleton,
    List.not_mem_nil, or_false] at hs
  rcases hs with e | e | e | e | e | e | e | e | e | e | e | e | e | e | e | e | e | e | e | e |
    e | e | e | e | e | e | e | e | e | e | e | e | e | e | e | e | e | e | e | e
  all_goals subst e
  all_goals first
    | exact hb _ rfl
    | exact ho _ _ _ rfl
    | (intro x hx; simp at hx)

/-- C12 as stated fails: a FullyFlat composition of the single record "x0c0t0" of
Type "CMMRectifier", a well-formed kind without a case in the first loop,
returns ErrHMSTypeUnsupported and an aggregate all of whose top-level slots are
nil, so the record is in none of them. -/
theorem C12_counterexample :
    ∃ r inv, NewSystemHWInventory xnames 0 (heapOf [mkLoc "x0c0t0" "CMMRectifier"]) [0] "s0"
        HWInvFormatFullyFlat = some r ∧
      r.hwinv = some inv ∧ r.err = some HMSError.ErrHMSTypeUnsupported ∧
      (∀ s ∈ allSlots inv.tohmsTypeArrays, s = none) ∧
      ¬ ∃ s ∈ allSlots inv.tohmsTypeArrays, 0 ∈ s.getD [] := by
  refine ⟨_, _, NewSystemHWInventory_flat xnames 0 _ [0] "s0", rfl, ?_, ?_, ?_⟩ <;> decide

/-- C12, amended (unsupported kinds are not bucketed).  For each of the three
formats the call returns (for the roll-up formats: when the walk of every
Drive-kind record ends within the fuel) a non-nil aggregate, and a record whose
declared Type is not one of the twelve bucketed kinds - a well-formed but
unsupported kind included - is in none of its top-level slots. -/
theorem C12_unsupported_not_bucketed {R : RFTypes} (T : Taxonomy) (fuel : Nat) (h : Heap R)
    (hwlocs : List Ptr) (xName format : String)
    (hret : format = HWInvFormatFullyFlat ∨
      ((format = HWInvFormatNestNodesOnly ∨ format = HWInvFormatHierarchical) ∧
        ∀ d ∈ hwlocs, kindOf T h d = HMSType.Drive →
          ∃ k, k < fuel ∧ T.GetHMSType (T.GetHMSCompParent^[k] (h d).ID) = HMSType.Node)) :
    ∃ r inv, NewSystemHWInventory T fuel h hwlocs xName format = some r ∧
      r.hwinv = some inv ∧
      ∀ p, bucketed (kindOf T h p) = false →
        ∀ s ∈ allSlots inv.tohmsTypeArrays, p ∉ s.getD [] := by
  rcases hret with e | ⟨hf, hwalk⟩
  · subst e
    refine ⟨_, _, NewSystemHWInventory_flat T fuel h hwlocs xName, rfl, ?_⟩
    intro p hp s hs hmem
    rw [bucketInto_slots_bucketed T h hwlocs xName _ s hs p hmem] at hp
    cases hp
  · refine ⟨_, _, (NewSystemHWInventory_nest_returns T fuel h hwlocs xName format hf
      hwalk).2, rfl, ?_⟩
    intro p hp s hs hmem
    rw [nestInventory_slots_bucketed T fuel h hwlocs xName format s hs p hmem] at hp
    cases hp

/-- C12, amended, at a NestNodesOnly composition of Node "x0c0s0b0n0" and the
NodeBMC record "x0c0s0b0": the aggregate holds the node and the NodeBMC record
is in no top-level slot. -/
theorem C12_unsupported_not_bucketed_witness :
    ∃ r inv, NewSystemHWInventory xnames 1
        (heapOf [mkLoc "x0c0s0b0n0" "Node", mkLoc "x0c0s0b0" "NodeBMC"]) [0, 1] "s0"
        HWInvFormatNestNodesOnly = some r ∧
      r.hwinv = some inv ∧ inv.Nodes = some [0] ∧
      ∀ s ∈ allSlots inv.tohmsTypeArrays, 1 ∉ s.getD [] := by
  obtain ⟨r, inv, hr, hinv, hnot⟩ :=
    C12_unsupported_not_bucketed xnames 1
      (heapOf [mkLoc "x0c0s0b0n0" "Node", mkLoc "x0c0s0b0" "NodeBMC"]) [0, 1] "s0"
      HWInvFormatNestNodesOnly (Or.inr ⟨Or.inl rfl, by decide⟩)
  have hN := (NewSystemHWInventory_nest_returns xnames 1
    (heapOf [mkLoc "x0c0s0b0n0" "Node", mkLoc "x0c0s0b0" "NodeBMC"]) [0, 1] "s0"
    HWInvFormatNestNodesOnly (Or.inl rfl) (by decide)).2
  rw [hN] at hr
  have hr := Option.some.inj hr
  subst hr
  have hinv := Option.some.inj hinv
  subst hinv
  exact ⟨_, _, hN, rfl, by decide, hnot 1 (by decide)⟩

/-- When every record has a bucketed kind and the walk of every Drive-kind
record ends within the fuel, a NestNodesOnly composition returns a nil error,
orphans or not. -/
theorem NewSystemHWInventory_nest_err_nil {R : RFTypes} (T : Taxonomy) (fuel : Nat)
    (h : Heap R) (hwlocs : List Ptr) (xName : String)
    (hb : ∀ p ∈ hwlocs, bucketed (kindOf T h p) = true)
    (hwalk : ∀ d ∈ hwlocs, kindOf T h d = HMSType.Drive →
      ∃ k, k < fuel ∧ T.GetHMSType (T.GetHMSCompParent^[k] (h d).ID) = HMSType.Node) :
    ∃ r, NewSystemHWInventory T fuel h hwlocs xName HWInvFormatNestNodesOnly = some r ∧
      r.err = none ∧ r.hwinv ≠ none := by
  have hr := (NewSystemHWInventory_nest_returns T fuel h hwlocs xName _ (Or.inl rfl) hwalk).2
  obtain ⟨he, hn⟩ := err_eq_deferredErr T fuel h hwlocs xName _ _ (Or.inr rfl) hr
  exact ⟨_, hr, he.trans ((deferredErr_eq_none_iff T h hwlocs).mpr hb), hn⟩

/-- In the instance `xnames` the parent of the empty identifier is the empty
identifier, however often it is taken. -/
theorem xnames_parent_iterate_empty (k : Nat) : xnames.GetHMSCompParent^[k] "" = "" := by
  induction k with
  | zero => rfl
  | succ k ih =>
    rw [Function.iterate_succ_apply]
    have : xnames.GetHMSCompParent "" = "" := by decide
    rw [this, ih]

/-- C20 (orphans are not surfaced as a hard error) fails on the code.  The
input has records of bucketed kinds only: Node "x0c0s0b0n0", the orphan
Processor "x0c0s0b0n1p0" and the Drive-typed record "x0c0s0b0", an orphan none
of whose ancestors has kind Node.  Composed as NestNodesOnly, the call does not
return a nil error: whatever the number of loop tests allowed, the drive walk
has not ended and the call has not returned. -/
theorem C20_orphan_drive_no_return :
    (∀ p ∈ [0, 1, 2], bucketed (kindOf xnames
      (heapOf [mkLoc "x0c0s0b0n0" "Node", mkLoc "x0c0s0b0n1p0" "Processor",
        mkLoc "x0c0s0b0" "Drive"]) p) = true) ∧
    hasRecord xnames
      (heapOf [mkLoc "x0c0s0b0n0" "Node", mkLoc "x0c0s0b0n1p0" "Processor",
        mkLoc "x0c0s0b0" "Drive"]) [0, 1, 2] HMSType.Node "x0c0s0" = false ∧
    ∀ fuel, NewSystemHWInventory xnames fuel
      (heapOf [mkLoc "x0c0s0b0n0" "Node", mkLoc "x0c0s0b0n1p0" "Processor",
        mkLoc "x0c0s0b0" "Drive"]) [0, 1, 2] "s0" HWInvFormatNestNodesOnly = none := by
  have h4 : xnames.GetHMSCompParent^[4] "x0c0s0b0" = "" := by decide
  have hno : ∀ k, xnames.GetHMSType (xnames.GetHMSCompParent^[k] "x0c0s0b0") ≠
      HMSType.Node := by
    intro k
    by_cases hk : k < 4
    · interval_cases k <;> decide
    · obtain ⟨j, rfl⟩ : ∃ j, k = j + 4 := ⟨k - 4, by omega⟩
      rw [Function.iterate_add_apply, h4, xnames_parent_iterate_empty]
      decide
  refine ⟨by decide, by decide, fun fuel => ?_⟩
  apply NewSystemHWInventory_nest_none _ _ _ _ _ _ (Or.inl rfl)
  refine ⟨2, by decide, ?_⟩
  exact nodeAncestor_none fuel _ hno

/-! ## Component locks -/

theorem verifyXnames_eq_none (L : CompIDLib) (l : List String) :
    verifyXnames L l = none ↔ ∀ x ∈ l, L.IsHMSCompIDValid x = true := by
  induction l with
  | nil => simp [verifyXnames]
  | cons x xs ih =>
    cases hx : L.IsHMSCompIDValid x <;> simp [verifyXnames, hx, ih]

theorem verifyXnames_eq_some (L : CompIDLib) (l : List String) (e : HMSError)
    (he : verifyXnames L l = some e) : e = HMSError.ErrHMSTypeInvalid := by
  induction l with
  | nil => simp [verifyXnames] at he
  | cons x xs ih =>
    cases hx : L.IsHMSCompIDValid x
    · simp [verifyXnames, hx] at he
      exact he.symm
    · simp [verifyXnames, hx] at he
      exact ih he

/-- The first `Verify` of a lock is sound: on a lock not yet marked verified, a
nil error means a positive lifetime and valid xnames. -/
theorem Verify_first_sound (L : CompIDLib) (cl : CompLock) (hv : cl.verified = false)
    (hnil : (cl.Verify L).2 = none) :
    0 < cl.Lifetime ∧ ∀ x ∈ cl.Xnames, L.IsHMSCompIDValid x = true := by
  unfold CompLock.Verify at hnil
  simp only [hv, Bool.false_eq_true, if_false] at hnil
  by_cases hl : cl.Lifetime ≤ 0
  · simp [hl] at hnil
  · simp only [hl, if_false] at hnil
    exact ⟨by omega, (verifyXnames_eq_none L cl.Xnames).mp hnil⟩

/-- C18 (Verify soundness) fails on the code.  `NewCompLock("r", "o", 0, nil)`
returns a lock together with ErrCompLockBadLifetime; a later `Verify` of that
lock returns nil although its Lifetime is 0.  Likewise the lock returned with
ErrHMSTypeInvalid for lifetime 5 and the xname "bogus" passes a later `Verify`
although "bogus" is not a valid identifier. -/
theorem C18_verify_after_failed_verify :
    (NewCompLock xnameIDs "r" "o" 0 []).2 = some HMSError.ErrCompLockBadLifetime ∧
    ((NewCompLock xnameIDs "r" "o" 0 []).1.Verify xnameIDs).2 = none ∧
    ¬ 0 < (NewCompLock xnameIDs "r" "o" 0 []).1.Lifetime ∧
    (NewCompLock xnameIDs "r" "o" 5 ["bogus"]).2 = some HMSError.ErrHMSTypeInvalid ∧
    ((NewCompLock xnameIDs "r" "o" 5 ["bogus"]).1.Verify xnameIDs).2 = none ∧
    ¬ ∀ x ∈ (NewCompLock xnameIDs "r" "o" 5 ["bogus"]).1.Xnames,
        xnameIDs.IsHMSCompIDValid x = true := by
  refine ⟨?_, ?_, ?_, ?_, ?_, ?_⟩
  · decide
  · decide
  · decide
  · decide
  · decide
  · decide

/-- C19 (NewCompLock validation).  The error of `NewCompLock` is nil exactly
when the lifetime is positive and every identifier is valid after
normalization; it is ErrCompLockBadLifetime whenever the lifetime is not
positive, whatever the identifiers, and ErrHMSTypeInvalid when the lifetime is
positive and some normalized identifier is not valid; an empty identifier list
with a positive lifetime is accepted. -/
theorem C19_NewCompLock_validation (L : CompIDLib) (reason owner : String) (lifetime : Int)
    (xnames : List String) :
    ((NewCompLock L reason owner lifetime xnames).2 = none ↔
      0 < lifetime ∧ ∀ x ∈ xnames, L.IsHMSCompIDValid (L.NormalizeHMSCompID x) = true) ∧
    (lifetime ≤ 0 →
      (NewCompLock L reason owner lifetime xnames).2 = some HMSError.ErrCompLockBadLifetime) ∧
    (0 < lifetime →
      (∃ x ∈ xnames, L.IsHMSCompIDValid (L.NormalizeHMSCompID x) = false) →
      (NewCompLock L reason owner lifetime xnames).2 = some HMSError.ErrHMSTypeInvalid) ∧
    (0 < lifetime → (NewCompLock L reason owner lifetime []).2 = none) := by
  have hval : ∀ l : List String, verifyXnames L (l.map L.NormalizeHMSCompID) = none ↔
      ∀ x ∈ l, L.IsHMSCompIDValid (L.NormalizeHMSCompID x) = true := by
    intro l
    rw [verifyXnames_eq_none]
    simp
  have hnew : ∀ l : List String, (NewCompLock L reason owner lifetime l).2 =
      if lifetime ≤ 0 then some HMSError.ErrCompLockBadLifetime
      else verifyXnames L (l.map L.NormalizeHMSCompID) := by
    intro l
    simp only [NewCompLock, CompLock.Normalize, CompLock.Verify, List.nil_append,
      Bool.false_eq_true, if_false]
    by_cases hl : lifetime ≤ 0 <;> simp [hl]
  refine ⟨?_, ?_, ?_, ?_⟩
  · rw [hnew]
    by_cases hl : lifetime ≤ 0
    · simp only [hl, if_true]
      constructor
      · intro h; cases h
      · intro h; omega
    · simp only [hl, if_false, hval]
      constructor
      · intro h; exact ⟨by omega, h⟩
      · intro h; exact h.2
  · intro hl
    rw [hnew]
    simp [hl]
  · intro hl ⟨x, hx, hbad⟩
    rw [hnew]
    have hl1 : ¬ lifetime ≤ 0 := by omega
    simp only [hl1, if_false]
    cases hv : verifyXnames L (xnames.map L.NormalizeHMSCompID) with
    | none =>
      have := (hval xnames).mp hv x hx
      rw [hbad] at this
      cases this
    | some e => rw [verifyXnames_eq_some L _ e hv]
  · intro hl
    rw [hnew]
    have hl1 : ¬ lifetime ≤ 0 := by omega
    simp [hl1, verifyXnames]

/-- C19 at concrete arguments: lifetime 0 with a malformed identifier gives
ErrCompLockBadLifetime, lifetime 5 with the malformed identifier gives
ErrHMSTypeInvalid, and lifetime 5 with "X0C0S0B0N0", valid once normalized, or
with no identifier gives a nil error. -/
theorem C19_NewCompLock_validation_witness :
    (NewCompLock xnameIDs "r" "o" 0 ["bogus"]).2 = some HMSError.ErrCompLockBadLifetime ∧
    (NewCompLock xnameIDs "r" "o" 5 ["x0c0s0b0n0", "bogus"]).2 =
      some HMSError.ErrHMSTypeInvalid ∧
    (NewCompLock xnameIDs "r" "o" 5 ["X0C0S0B0N0"]).2 = none ∧
    (NewCompLock xnameIDs "r" "o" 5 []).2 = none :=
  ⟨(C19_NewCompLock_validation xnameIDs "r" "o" 0 ["bogus"]).2.1 (by decide),
   (C19_NewCompLock_validation xnameIDs "r" "o" 5 ["x0c0s0b0n0", "bogus"]).2.2.1 (by decide)
     (by decide),
   (C19_NewCompLock_validation xnameIDs "r" "o" 5 ["X0C0S0B0N0"]).1.mpr (by decide),
   (C19_NewCompLock_validation xnameIDs "r" "o" 5 []).2.2.2 (by decide)⟩

/-! ## The codec -/

/-- A successful `DecodeLocationInfo`: the Type is one of the fourteen kinds, the
slot of that kind holds what the JSON library parsed, the discriminator is the
constant of that kind, and every other payload slot is as before. -/
theorem DecodeLocationInfo_ok {R : RFTypes} (J : JSONLib R) (T : Taxonomy)
    (hw hw1 : HWInvByLoc R) (b : Bytes)
    (hdec : DecodeLocationInfo J T hw b = (hw1, none)) :
    codecKind (T.ToHMSType hw.Type_) = true ∧
    (∃ v, parseLoc J (T.ToHMSType hw.Type_) b = some (.ok v) ∧
      locSlot (T.ToHMSType hw.Type_) hw1 = some v) ∧
    hw1.HWInventoryByLocationType = locTag (T.ToHMSType hw.Type_) ∧
    hw1.Type_ = hw.Type_ ∧
    (∀ k1, k1 ≠ T.ToHMSType hw.Type_ → locSlot k1 hw1 = locSlot k1 hw) := by
  unfold DecodeLocationInfo at hdec
  cases hk : T.ToHMSType hw.Type_ <;> simp only [hk] at hdec
  all_goals first
    | exact absurd hdec (by simp)
    | (split at hdec
       · exfalso; simp at hdec
       · rename_i v hu
         obtain ⟨rfl, -⟩ := Prod.mk.inj hdec
         refine ⟨rfl, ⟨_, by simp [parseLoc, hu, Except.map], rfl⟩, rfl, rfl, ?_⟩
         intro k1 hne
         cases k1 <;> first | rfl | exact absurd rfl hne)

/-- A failing `DecodeLocationInfo` leaves the record as it was, and its error is
ErrHMSTypeInvalid for an invalid Type, ErrHMSTypeUnsupported for a kind outside
the fourteen, and otherwise the error of the JSON library. -/
theorem DecodeLocationInfo_err {R : RFTypes} (J : JSONLib R) (T : Taxonomy)
    (hw hw1 : HWInvByLoc R) (b : Bytes) (e : GoError J.Err)
    (hdec : DecodeLocationInfo J T hw b = (hw1, some e)) :
    hw1 = hw ∧
    ((T.ToHMSType hw.Type_ = HMSType.HMSTypeInvalid ∧
        e = GoError.hms HMSError.ErrHMSTypeInvalid) ∨
     (T.ToHMSType hw.Type_ ≠ HMSType.HMSTypeInvalid ∧
        codecKind (T.ToHMSType hw.Type_) = false ∧
        e = GoError.hms HMSError.ErrHMSTypeUnsupported) ∨
     (codecKind (T.ToHMSType hw.Type_) = true ∧
        ∃ je, parseLoc J (T.ToHMSType hw.Type_) b = some (.error je) ∧
          e = GoError.json je)) := by
  unfold DecodeLocationInfo at hdec
  cases hk : T.ToHMSType hw.Type_ <;> simp only [hk] at hdec
  all_goals first
    | (obtain ⟨rfl, he⟩ := Prod.mk.inj hdec
       have he := (Option.some.inj he).symm
       subst he
       first
         | exact ⟨rfl, Or.inl ⟨rfl, rfl⟩⟩
         | exact ⟨rfl, Or.inr (Or.inl ⟨by decide, rfl, rfl⟩)⟩)
    | (split at hdec
       · rename_i je hu
         obtain ⟨rfl, he⟩ := Prod.mk.inj hdec
         have he := (Option.some.inj he).symm
         subst he
         exact ⟨rfl, Or.inr (Or.inr ⟨rfl, je, by simp [parseLoc, hu, Except.map], rfl⟩)⟩
       · exfalso; simp at hdec)

/-- When the Type is one of the fourteen kinds and the JSON library parses the
bytes, `DecodeLocationInfo` succeeds. -/
theorem DecodeLocationInfo_of_parse {R : RFTypes} (J : JSONLib R) (T : Taxonomy)
    (hw : HWInvByLoc R) (b : Bytes) (v : LocationInfo R)
    (hp : parseLoc J (T.ToHMSType hw.Type_) b = some (.ok v)) :
    (DecodeLocationInfo J T hw b).2 = none := by
  cases hd : DecodeLocationInfo J T hw b with
  | mk hw1 err =>
    cases err with
    | none => rfl
    | some e =>
      exfalso
      obtain ⟨-, h1 | h1 | h1⟩ := DecodeLocationInfo_err J T hw hw1 b e hd
      · rw [h1.1] at hp; simp [parseLoc] at hp
      · have hc := h1.2.1
        revert hp hc
        cases T.ToHMSType hw.Type_ <;> simp [parseLoc, codecKind]
      · obtain ⟨-, je, hje, -⟩ := h1
        rw [hje] at hp
        cases hp

/-- What `EncodeLocationInfo` returns for one of the fourteen kinds: the record
as it was, and the bytes and error of `json.Marshal` on the slot of the kind. -/
theorem EncodeLocationInfo_populated {R : RFTypes} (J : JSONLib R) (T : Taxonomy)
    (hw : HWInvByLoc R) (v : LocationInfo R)
    (hv : locSlot (T.ToHMSType hw.Type_) hw = some v) :
    EncodeLocationInfo J T hw = (hw, marshalResult (serializeLoc J v)) := by
  unfold EncodeLocationInfo
  revert hv
  cases hk : T.ToHMSType hw.Type_ <;> simp only [locSlot] <;> intro hv
  all_goals first
    | (exfalso; simp at hv; done)
    | (obtain ⟨p, hp, rfl⟩ := Option.map_eq_some'.mp hv
       simp [hp, serializeLoc])

/-- What `EncodeLocationInfo` returns for a Type outside the fourteen kinds: no
bytes, and ErrHMSTypeInvalid or ErrHMSTypeUnsupported. -/
theorem EncodeLocationInfo_unsupported {R : RFTypes} (J : JSONLib R) (T : Taxonomy)
    (hw : HWInvByLoc R) (hc : codecKind (T.ToHMSType hw.Type_) = false) :
    EncodeLocationInfo J T hw =
      (hw, [], some (GoError.hms
        (if T.ToHMSType hw.Type_ = HMSType.HMSTypeInvalid then HMSError.ErrHMSTypeInvalid
         else HMSError.ErrHMSTypeUnsupported))) := by
  unfold EncodeLocationInfo
  revert hc
  cases hk : T.ToHMSType hw.Type_ <;> simp [codecKind]

/-- What one of the fourteen kinds parses with belongs to a struct type the
library round-trips: bytes serialized from a payload parse back to it, at any
kind whose slot can hold this payload. -/
theorem parseLoc_serializeLoc {R : RFTypes} (J : JSONLib R) (hJ : J.RoundTrips)
    (k : HMSType) (hw : HWInvByLoc R) (v : LocationInfo R) (b : Bytes)
    (hv : locSlot k hw = some v) (hb : serializeLoc J v = .ok b) :
    parseLoc J k b = some (.ok v) := by
  obtain ⟨h1, h2, h3, h4, h5, h6, h7, h8, -⟩ := hJ
  revert hv
  cases k <;> simp only [locSlot] <;> intro hv
  all_goals first
    | (exfalso; simp at hv; done)
    | (obtain ⟨p, -, rfl⟩ := Option.map_eq_some'.mp hv
       simp only [serializeLoc] at hb
       first
         | simp [parseLoc, h1 p b hb, Except.map]
         | simp [parseLoc, h2 p b hb, Except.map]
         | simp [parseLoc, h3 p b hb, Except.map]
         | simp [parseLoc, h4 p b hb, Except.map]
         | simp [parseLoc, h5 p b hb, Except.map]
         | simp [parseLoc, h6 p b hb, Except.map]
         | simp [parseLoc, h7 p b hb, Except.map]
         | simp [parseLoc, h8 p b hb, Except.map])

/-- A record with the slot of `k` populated and no other has exactly `k`
populated. -/
theorem locPopulated_eq_singleton {R : RFTypes} (hw : HWInvByLoc R) (k : HMSType)
    (hk : codecKind k = true) (hs : (locSlot k hw).isSome = true)
    (ho : ∀ k1, k1 ≠ k → locSlot k1 hw = none) : locPopulated hw = [k] := by
  have hfilter : locPopulated hw = codecKinds.filter (fun k1 => decide (k1 = k)) := by
    unfold locPopulated
    apply List.filter_congr
    intro k1 _
    by_cases e : k1 = k
    · subst e; simp [hs]
    · simp [e, ho k1 e]
  rw [hfilter]
  revert hk
  cases k <;> simp +decide [codecKind]

/-- A successful `DecodeFRUInfo`: the Type is one of the fourteen kinds, the
slot of that kind holds what the JSON library parsed, the discriminator is the
constant of that kind, and every other payload slot is as before. -/
theorem DecodeFRUInfo_ok {R : RFTypes} (J : JSONLib R) (T : Taxonomy)
    (hf hf1 : HWInvByFRU R) (b : Bytes)
    (hdec : DecodeFRUInfo J T hf b = (hf1, none)) :
    codecKind (T.ToHMSType hf.Type_) = true ∧
    (∃ v, parseFRU J (T.ToHMSType hf.Type_) b = some (.ok v) ∧
      fruSlot (T.ToHMSType hf.Type_) hf1 = some v) ∧
    hf1.HWInventoryByFRUType = fruTag (T.ToHMSType hf.Type_) ∧
    hf1.Type_ = hf.Type_ ∧
    (∀ k1, k1 ≠ T.ToHMSType hf.Type_ → fruSlot k1 hf1 = fruSlot k1 hf) := by
  unfold DecodeFRUInfo at hdec
  cases hk : T.ToHMSType hf.Type_ <;> simp only [hk] at hdec
  all_goals first
    | exact absurd hdec (by simp)
    | (split at hdec
       · exfalso; simp at hdec
       · rename_i v hu
         obtain ⟨rfl, -⟩ := Prod.mk.inj hdec
         refine ⟨rfl, ⟨_, by simp [parseFRU, hu, Except.map], rfl⟩, rfl, rfl, ?_⟩
         intro k1 hne
         cases k1 <;> first | rfl | exact absurd rfl hne)

/-- A failing `DecodeFRUInfo` leaves the record as it was, and its error is
ErrHMSTypeInvalid for an invalid Type, ErrHMSTypeUnsupported for a kind outside
the fourteen, and otherwise the error of the JSON library. -/
theorem DecodeFRUInfo_err {R : RFTypes} (J : JSONLib R) (T : Taxonomy)
    (hf hf1 : HWInvByFRU R) (b : Bytes) (e : GoError J.Err)
    (hdec : DecodeFRUInfo J T hf b = (hf1, some e)) :
    hf1 = hf ∧
    ((T.ToHMSType hf.Type_ = HMSType.HMSTypeInvalid ∧
        e = GoError.hms HMSError.ErrHMSTypeInvalid) ∨
     (T.ToHMSType hf.Type_ ≠ HMSType.HMSTypeInvalid ∧
        codecKind (T.ToHMSType hf.Type_) = false ∧
        e = GoError.hms HMSError.ErrHMSTypeUnsupported) ∨
     (codecKind (T.ToHMSType hf.Type_) = true ∧
        ∃ je, parseFRU J (T.ToHMSType hf.Type_) b = some (.error je) ∧
          e = GoError.json je)) := by
  unfold DecodeFRUInfo at hdec
  cases hk : T.ToHMSType hf.Type_ <;> simp only [hk] at hdec
  all_goals first
    | (obtain ⟨rfl, he⟩ := Prod.mk.inj hdec
       have he := (Option.some.inj he).symm
       subst he
       first
         | exact ⟨rfl, Or.inl ⟨rfl, rfl⟩⟩
         | exact ⟨rfl, Or.inr (Or.inl ⟨by decide, rfl, rfl⟩)⟩)
    | (split at hdec
       · rename_i je hu
         obtain ⟨rfl, he⟩ := Prod.mk.inj hdec
         have he := (Option.some.inj he).symm
         subst he
         exact ⟨rfl, Or.inr (Or.inr ⟨rfl, je, by simp [parseFRU, hu, Except.map], rfl⟩)⟩
       · exfalso; simp at hdec)

/-- When the Type is one of the fourteen kinds and the JSON library parses the
bytes, `DecodeFRUInfo` succeeds. -/
theorem DecodeFRUInfo_of_parse {R : RFTypes} (J : JSONLib R) (T : Taxonomy)
    (hf : HWInvByFRU R) (b : Bytes) (v : FRUInfo R)
    (hp : parseFRU J (T.ToHMSType hf.Type_) b = some (.ok v)) :
    (DecodeFRUInfo J T hf b).2 = none := by
  cases hd : DecodeFRUInfo J T hf b with
  | mk hf1 err =>
    cases err with
    | none => rfl
    | some e =>
      exfalso
      obtain ⟨-, h1 | h1 | h1⟩ := DecodeFRUInfo_err J T hf hf1 b e hd
      · rw [h1.1] at hp; simp [parseFRU] at hp
      · have hc := h1.2.1
        revert hp hc
        cases T.ToHMSType hf.Type_ <;> simp [parseFRU, codecKind]
      · obtain ⟨-, je, hje, -⟩ := h1
        rw [hje] at hp
        cases hp

/-- What `EncodeFRUInfo` returns for one of the fourteen kinds: the record
as it was, and the bytes and error of `json.Marshal` on the slot of the kind. -/
theorem EncodeFRUInfo_populated {R : RFTypes} (J : JSONLib R) (T : Taxonomy)
    (hf : HWInvByFRU R) (v : FRUInfo R)
    (hv : fruSlot (T.ToHMSType hf.Type_) hf = some v) :
    EncodeFRUInfo J T hf = (hf, marshalResult (serializeFRU J v)) := by
  unfold EncodeFRUInfo
  revert hv
  cases hk : T.ToHMSType hf.Type_ <;> simp only [fruSlot] <;> intro hv
  all_goals first
    | (exfalso; simp at hv; done)
    | (obtain ⟨p, hp, rfl⟩ := Option.map_eq_some'.mp hv
       simp [hp, serializeFRU])

/-- What `EncodeFRUInfo` returns for a Type outside the fourteen kinds: no
bytes, and ErrHMSTypeInvalid or ErrHMSTypeUnsupported. -/
theorem EncodeFRUInfo_unsupported {R : RFTypes} (J : JSONLib R) (T : Taxonomy)
    (hf : HWInvByFRU R) (hc : codecKind (T.ToHMSType hf.Type_) = false) :
    EncodeFRUInfo J T hf =
      (hf, [], some (GoError.hms
        (if T.ToHMSType hf.Type_ = HMSType.HMSTypeInvalid then HMSError.ErrHMSTypeInvalid
         else HMSError.ErrHMSTypeUnsupported))) := by
  unfold EncodeFRUInfo
  revert hc
  cases hk : T.ToHMSType hf.Type_ <;> simp [codecKind]

/-- What one of the fourteen kinds parses with belongs to a struct type the
library round-trips: bytes serialized from a payload parse back to it, at any
kind whose slot can hold this payload. -/
theorem parseFRU_serializeFRU {R : RFTypes} (J : JSONLib R) (hJ : J.RoundTrips)
    (k : HMSType) (hf : HWInvByFRU R) (v : FRUInfo R) (b : Bytes)
    (hv : fruSlot k hf = some v) (hb : serializeFRU J v = .ok b) :
    parseFRU J k b = some (.ok v) := by
  obtain ⟨-, -, -, -, -, -, -, -, h1, h2, h3, h4, h5, h6, h7, h8⟩ := hJ
  revert hv
  cases k <;> simp only [fruSlot] <;> intro hv
  all_goals first
    | (exfalso; simp at hv; done)
    | (obtain ⟨p, -, rfl⟩ := Option.map_eq_some'.mp hv
       simp only [serializeFRU] at hb
       first
         | simp [parseFRU, h1 p b hb, Except.map]
         | simp [parseFRU, h2 p b hb, Except.map]
         | simp [parseFRU, h3 p b hb, Except.map]
         | simp [parseFRU, h4 p b hb, Except.map]
         | simp [parseFRU, h5 p b hb, Except.map]
         | simp [parseFRU, h6 p b hb, Except.map]
         | simp [parseFRU, h7 p b hb, Except.map]
         | simp [parseFRU, h8 p b hb, Except.map])

/-- A record with the slot of `k` populated and no other has exactly `k`
populated. -/
theorem fruPopulated_eq_singleton {R : RFTypes} (hf : HWInvByFRU R) (k : HMSType)
    (hk : codecKind k = true) (hs : (fruSlot k hf).isSome = true)
    (ho : ∀ k1, k1 ≠ k → fruSlot k1 hf = none) : fruPopulated hf = [k] := by
  have hfilter : fruPopulated hf = codecKinds.filter (fun k1 => decide (k1 = k)) := by
    unfold fruPopulated
    apply List.filter_congr
    intro k1 _
    by_cases e : k1 = k
    · subst e; simp [hs]
    · simp [e, ho k1 e]
  rw [hfilter]
  revert hk
  cases k <;> simp +decide [codecKind]

theorem braceJSONOf_roundTrips : braceJSONOf.RoundTrips := by
  intro p b hb
  have hb1 : b = 123 :: (p ++ [125]) := by
    simp only [braceJSONOf] at hb
    exact (Except.ok.inj hb).symm
  subst hb1
  have hlast : (123 :: (p ++ [125]) : List UInt8).getLast? = some 125 := by
    rw [← List.cons_append, List.getLast?_concat]
  have hdrop : (p ++ [125] : List UInt8).dropLast = p := by simp
  have hlen : 2 ≤ (123 :: (p ++ [125]) : List UInt8).length := by simp
  have hne : ¬ (123 :: (p ++ [125]) : List UInt8) = [110, 117, 108, 108] := by
    intro e
    have := (List.cons.inj e).1
    revert this
    decide
  simp only [braceJSONOf, hne, if_false, List.head?_cons, hlast, hlen, and_self, if_true,
    List.tail_cons, hdrop]

theorem braceJSON_roundTrips : braceJSON.RoundTrips :=
  ⟨braceJSONOf_roundTrips, braceJSONOf_roundTrips, braceJSONOf_roundTrips,
   braceJSONOf_roundTrips, braceJSONOf_roundTrips, braceJSONOf_roundTrips,
   braceJSONOf_roundTrips, braceJSONOf_roundTrips, braceJSONOf_roundTrips,
   braceJSONOf_roundTrips, braceJSONOf_roundTrips, braceJSONOf_roundTrips,
   braceJSONOf_roundTrips, braceJSONOf_roundTrips, braceJSONOf_roundTrips,
   braceJSONOf_roundTrips⟩

/-- A record with no populated slot has every payload slot nil. -/
theorem locPopulated_eq_nil {R : RFTypes} (hw : HWInvByLoc R) (hnil : locPopulated hw = [])
    (k1 : HMSType) : locSlot k1 hw = none := by
  have hall : ∀ k ∈ codecKinds, (locSlot k hw).isSome = false := by
    intro k hk
    have := List.filter_eq_nil_iff.mp hnil k hk
    simpa using this
  by_cases hk : k1 ∈ codecKinds
  · have := hall k1 hk
    cases h : locSlot k1 hw with
    | none => rfl
    | some v => rw [h] at this; cases this
  · revert hk
    cases k1 <;> first
      | (intro _; rfl)
      | (intro hk; exact absurd (by decide) hk)

/-- A populated payload slot is listed among the populated kinds. -/
theorem mem_locPopulated {R : RFTypes} (hw : HWInvByLoc R) (k1 : HMSType)
    (hs : locSlot k1 hw ≠ none) : k1 ∈ locPopulated hw := by
  have hsome : (locSlot k1 hw).isSome = true := by
    cases h : locSlot k1 hw with
    | none => exact absurd h hs
    | some v => rfl
  unfold locPopulated
  refine List.mem_filter.mpr ⟨?_, by simpa using hsome⟩
  revert hs
  cases k1 <;> first
    | (intro _; decide)
    | (intro hs; exact absurd rfl hs)

/-- What `DecodeLocationInfo` returns for a Type outside the fourteen kinds: the
record as it was, and ErrHMSTypeInvalid or ErrHMSTypeUnsupported. -/
theorem DecodeLocationInfo_unsupported {R : RFTypes} (J : JSONLib R) (T : Taxonomy)
    (hw : HWInvByLoc R) (b : Bytes) (hc : codecKind (T.ToHMSType hw.Type_) = false) :
    DecodeLocationInfo J T hw b =
      (hw, some (GoError.hms
        (if T.ToHMSType hw.Type_ = HMSType.HMSTypeInvalid then HMSError.ErrHMSTypeInvalid
         else HMSError.ErrHMSTypeUnsupported))) := by
  unfold DecodeLocationInfo
  revert hc
  cases hk : T.ToHMSType hw.Type_ <;> simp [codecKind]

/-- A record with no populated slot has every payload slot nil. -/
theorem fruPopulated_eq_nil {R : RFTypes} (hf : HWInvByFRU R) (hnil : fruPopulated hf = [])
    (k1 : HMSType) : fruSlot k1 hf = none := by
  have hall : ∀ k ∈ codecKinds, (fruSlot k hf).isSome = false := by
    intro k hk
    have := List.filter_eq_nil_iff.mp hnil k hk
    simpa using this
  by_cases hk : k1 ∈ codecKinds
  · have := hall k1 hk
    cases h : fruSlot k1 hf with
    | none => rfl
    | some v => rw [h] at this; cases this
  · revert hk
    cases k1 <;> first
      | (intro _; rfl)
      | (intro hk; exact absurd (by decide) hk)

/-- A populated payload slot is listed among the populated kinds. -/
theorem mem_fruPopulated {R : RFTypes} (hf : HWInvByFRU R) (k1 : HMSType)
    (hs : fruSlot k1 hf ≠ none) : k1 ∈ fruPopulated hf := by
  have hsome : (fruSlot k1 hf).isSome = true := by
    cases h : fruSlot k1 hf with
    | none => exact absurd h hs
    | some v => rfl
  unfold fruPopulated
  refine List.mem_filter.mpr ⟨?_, by simpa using hsome⟩
  revert hs
  cases k1 <;> first
    | (intro _; decide)
    | (intro hs; exact absurd rfl hs)

/-- What `DecodeFRUInfo` returns for a Type outside the fourteen kinds: the
record as it was, and ErrHMSTypeInvalid or ErrHMSTypeUnsupported. -/
theorem DecodeFRUInfo_unsupported {R : RFTypes} (J : JSONLib R) (T : Taxonomy)
    (hf : HWInvByFRU R) (b : Bytes) (hc : codecKind (T.ToHMSType hf.Type_) = false) :
    DecodeFRUInfo J T hf b =
      (hf, some (GoError.hms
        (if T.ToHMSType hf.Type_ = HMSType.HMSTypeInvalid then HMSError.ErrHMSTypeInvalid
         else HMSError.ErrHMSTypeUnsupported))) := by
  unfold DecodeFRUInfo
  revert hc
  cases hk : T.ToHMSType hf.Type_ <;> simp [codecKind]

/-- C13 (round-trip law).  Assume the JSON library round-trips each payload
type.  For a record `r` whose Type is one of the fourteen kinds, whose slot of
that kind holds a payload `v` that serializes to `b`, and whose discriminator
is the constant of that kind: `EncodeLocationInfo(r)` returns `b` with a nil
error, and `DecodeLocationInfo` of `b` into a record of the same Type
succeeds, with the payload `v` in the slot of the kind, the same discriminator
as `r`, and no other slot populated when the record was fresh.  The same holds
for `EncodeFRUInfo` and `DecodeFRUInfo` on FRU records. -/
theorem C13_round_trip {R : RFTypes} (J : JSONLib R) (T : Taxonomy) (hJ : J.RoundTrips) :
    (∀ (r f : HWInvByLoc R) (v : LocationInfo R) (b : Bytes),
        locSlot (T.ToHMSType r.Type_) r = some v →
        r.HWInventoryByLocationType = locTag (T.ToHMSType r.Type_) →
        serializeLoc J v = .ok b →
        f.Type_ = r.Type_ →
        EncodeLocationInfo J T r = (r, b, none) ∧
        ∃ f1, DecodeLocationInfo J T f b = (f1, none) ∧
          locSlot (T.ToHMSType r.Type_) f1 = some v ∧
          f1.HWInventoryByLocationType = r.HWInventoryByLocationType ∧
          (locPopulated f = [] → locPopulated f1 = [T.ToHMSType r.Type_])) ∧
    (∀ (r f : HWInvByFRU R) (v : FRUInfo R) (b : Bytes),
        fruSlot (T.ToHMSType r.Type_) r = some v →
        r.HWInventoryByFRUType = fruTag (T.ToHMSType r.Type_) →
        serializeFRU J v = .ok b →
        f.Type_ = r.Type_ →
        EncodeFRUInfo J T r = (r, b, none) ∧
        ∃ f1, DecodeFRUInfo J T f b = (f1, none) ∧
          fruSlot (T.ToHMSType r.Type_) f1 = some v ∧
          f1.HWInventoryByFRUType = r.HWInventoryByFRUType ∧
          (fruPopulated f = [] → fruPopulated f1 = [T.ToHMSType r.Type_])) := by
  refine ⟨?_, ?_⟩
  · intro r f v b hv htag hb hty
    have henc : EncodeLocationInfo J T r = (r, b, none) := by
      rw [EncodeLocationInfo_populated J T r v hv, hb]
      rfl
    have hparse := parseLoc_serializeLoc J hJ _ r v b hv hb
    rw [← hty] at hparse
    have hdec : DecodeLocationInfo J T f b = ((DecodeLocationInfo J T f b).1, none) :=
      Prod.ext rfl (DecodeLocationInfo_of_parse J T f b v hparse)
    obtain ⟨hck, ⟨v1, hp1, hs1⟩, ht1, -, hothers⟩ := DecodeLocationInfo_ok J T f _ b hdec
    rw [hparse] at hp1
    have hv1 : v = v1 := Except.ok.inj (Option.some.inj hp1)
    subst hv1
    rw [hty] at hs1 ht1 hck hothers
    refine ⟨henc, _, hdec, hs1, ht1.trans htag.symm, ?_⟩
    intro hnil
    apply locPopulated_eq_singleton _ _ hck (by rw [hs1]; rfl)
    intro k1 hne
    rw [hothers k1 hne]
    exact locPopulated_eq_nil f hnil k1
  · intro r f v b hv htag hb hty
    have henc : EncodeFRUInfo J T r = (r, b, none) := by
      rw [EncodeFRUInfo_populated J T r v hv, hb]
      rfl
    have hparse := parseFRU_serializeFRU J hJ _ r v b hv hb
    rw [← hty] at hparse
    have hdec : DecodeFRUInfo J T f b = ((DecodeFRUInfo J T f b).1, none) :=
      Prod.ext rfl (DecodeFRUInfo_of_parse J T f b v hparse)
    obtain ⟨hck, ⟨v1, hp1, hs1⟩, ht1, -, hothers⟩ := DecodeFRUInfo_ok J T f _ b hdec
    rw [hparse] at hp1
    have hv1 : v = v1 := Except.ok.inj (Option.some.inj hp1)
    subst hv1
    rw [hty] at hs1 ht1 hck hothers
    refine ⟨henc, _, hdec, hs1, ht1.trans htag.symm, ?_⟩
    intro hnil
    apply fruPopulated_eq_singleton _ _ hck (by rw [hs1]; rfl)
    intro k1 hne
    rw [hothers k1 hne]
    exact fruPopulated_eq_nil f hnil k1

/-- C14, amended (discriminator invariant).  After a `DecodeLocationInfo`
that returns no error, the Type is one of the fourteen kinds, the payload slot
of that kind holds the parsed payload, the discriminator is the constant of
that kind, and every other payload slot holds what it held before; so exactly
that one slot is populated when the record had no payload, or only the payload
of its Type, before the call.  The same holds for `DecodeFRUInfo`. -/
theorem C14_discriminator_invariant {R : RFTypes} (J : JSONLib R) (T : Taxonomy) :
    (∀ (hw hw1 : HWInvByLoc R) (b : Bytes), DecodeLocationInfo J T hw b = (hw1, none) →
        codecKind (T.ToHMSType hw.Type_) = true ∧
        (∃ v, parseLoc J (T.ToHMSType hw.Type_) b = some (.ok v) ∧
          locSlot (T.ToHMSType hw.Type_) hw1 = some v) ∧
        hw1.HWInventoryByLocationType = locTag (T.ToHMSType hw.Type_) ∧
        (∀ k1, k1 ≠ T.ToHMSType hw.Type_ → locSlot k1 hw1 = locSlot k1 hw) ∧
        ((locPopulated hw = [] ∨ locPopulated hw = [T.ToHMSType hw.Type_]) →
          locPopulated hw1 = [T.ToHMSType hw.Type_])) ∧
    (∀ (hf hf1 : HWInvByFRU R) (b : Bytes), DecodeFRUInfo J T hf b = (hf1, none) →
        codecKind (T.ToHMSType hf.Type_) = true ∧
        (∃ v, parseFRU J (T.ToHMSType hf.Type_) b = some (.ok v) ∧
          fruSlot (T.ToHMSType hf.Type_) hf1 = some v) ∧
        hf1.HWInventoryByFRUType = fruTag (T.ToHMSType hf.Type_) ∧
        (∀ k1, k1 ≠ T.ToHMSType hf.Type_ → fruSlot k1 hf1 = fruSlot k1 hf) ∧
        ((fruPopulated hf = [] ∨ fruPopulated hf = [T.ToHMSType hf.Type_]) →
          fruPopulated hf1 = [T.ToHMSType hf.Type_])) := by
  refine ⟨?_, ?_⟩
  · intro hw hw1 b hdec
    obtain ⟨hck, ⟨v, hp, hs⟩, ht, -, hothers⟩ := DecodeLocationInfo_ok J T hw hw1 b hdec
    refine ⟨hck, ⟨v, hp, hs⟩, ht, hothers, ?_⟩
    intro hpop
    apply locPopulated_eq_singleton _ _ hck (by rw [hs]; rfl)
    intro k1 hne
    rw [hothers k1 hne]
    by_contra hsome
    have hmem := mem_locPopulated hw k1 hsome
    rcases hpop with e | e
    · rw [e] at hmem
      cases hmem
    · rw [e] at hmem
      exact hne (List.mem_singleton.mp hmem)
  · intro hf hf1 b hdec
    obtain ⟨hck, ⟨v, hp, hs⟩, ht, -, hothers⟩ := DecodeFRUInfo_ok J T hf hf1 b hdec
    refine ⟨hck, ⟨v, hp, hs⟩, ht, hothers, ?_⟩
    intro hpop
    apply fruPopulated_eq_singleton _ _ hck (by rw [hs]; rfl)
    intro k1 hne
    rw [hothers k1 hne]
    by_contra hsome
    have hmem := mem_fruPopulated hf k1 hsome
    rcases hpop with e | e
    · rw [e] at hmem
      cases hmem
    · rw [e] at hmem
      exact hne (List.mem_singleton.mp hmem)

/-- C15 (decode atomicity).  When `DecodeLocationInfo` returns an error, the
record is exactly as it was before the call, and for a Type among the fourteen
kinds the error is the error the JSON library gave for the payload.  The same
holds for `DecodeFRUInfo`. -/
theorem C15_decode_atomicity {R : RFTypes} (J : JSONLib R) (T : Taxonomy) :
    (∀ (hw : HWInvByLoc R) (b : Bytes) (e : GoError J.Err),
        (DecodeLocationInfo J T hw b).2 = some e →
        (DecodeLocationInfo J T hw b).1 = hw ∧
        (codecKind (T.ToHMSType hw.Type_) = true →
          ∃ je, parseLoc J (T.ToHMSType hw.Type_) b = some (.error je) ∧ e = GoError.json je) ∧
        (codecKind (T.ToHMSType hw.Type_) = false →
          e = GoError.hms HMSError.ErrHMSTypeInvalid ∨
          e = GoError.hms HMSError.ErrHMSTypeUnsupported)) ∧
    (∀ (hf : HWInvByFRU R) (b : Bytes) (e : GoError J.Err),
        (DecodeFRUInfo J T hf b).2 = some e →
        (DecodeFRUInfo J T hf b).1 = hf ∧
        (codecKind (T.ToHMSType hf.Type_) = true →
          ∃ je, parseFRU J (T.ToHMSType hf.Type_) b = some (.error je) ∧ e = GoError.json je) ∧
        (codecKind (T.ToHMSType hf.Type_) = false →
          e = GoError.hms HMSError.ErrHMSTypeInvalid ∨
          e = GoError.hms HMSError.ErrHMSTypeUnsupported)) := by
  refine ⟨?_, ?_⟩
  · intro hw b e he
    have hdec : DecodeLocationInfo J T hw b = ((DecodeLocationInfo J T hw b).1, some e) :=
      Prod.ext rfl he
    obtain ⟨hsame, hcases⟩ := DecodeLocationInfo_err J T hw _ b e hdec
    refine ⟨hsame, ?_, ?_⟩
    · intro hck
      rcases hcases with h1 | h1 | h1
      · rw [h1.1] at hck
        cases hck
      · rw [h1.2.1] at hck
        cases hck
      · exact h1.2
    · intro hck
      rcases hcases with h1 | h1 | h1
      · exact Or.inl h1.2
      · exact Or.inr h1.2.2
      · rw [h1.1] at hck
        cases hck
  · intro hf b e he
    have hdec : DecodeFRUInfo J T hf b = ((DecodeFRUInfo J T hf b).1, some e) :=
      Prod.ext rfl he
    obtain ⟨hsame, hcases⟩ := DecodeFRUInfo_err J T hf _ b e hdec
    refine ⟨hsame, ?_, ?_⟩
    · intro hck
      rcases hcases with h1 | h1 | h1
      · rw [h1.1] at hck
        cases hck
      · rw [h1.2.1] at hck
        cases hck
      · exact h1.2
    · intro hck
      rcases hcases with h1 | h1 | h1
      · exact Or.inl h1.2
      · exact Or.inr h1.2.2
      · rw [h1.1] at hck
        cases hck

/-- C16 (decode error kinds).  Whatever the payload, `DecodeLocationInfo`
returns ErrHMSTypeInvalid when the Type is not a recognised kind and
ErrHMSTypeUnsupported when it is a recognised kind outside the fourteen, in
both cases leaving the record alone; for a Type among the fourteen it returns
neither of these two errors.  The same holds for `DecodeFRUInfo`. -/
theorem C16_decode_error_kinds {R : RFTypes} (J : JSONLib R) (T : Taxonomy) :
    (∀ (hw : HWInvByLoc R) (b : Bytes),
        (T.ToHMSType hw.Type_ = HMSType.HMSTypeInvalid →
          DecodeLocationInfo J T hw b = (hw, some (GoError.hms HMSError.ErrHMSTypeInvalid))) ∧
        (T.ToHMSType hw.Type_ ≠ HMSType.HMSTypeInvalid →
          codecKind (T.ToHMSType hw.Type_) = false →
          DecodeLocationInfo J T hw b =
            (hw, some (GoError.hms HMSError.ErrHMSTypeUnsupported))) ∧
        (codecKind (T.ToHMSType hw.Type_) = true →
          (DecodeLocationInfo J T hw b).2 ≠ some (GoError.hms HMSError.ErrHMSTypeInvalid) ∧
          (DecodeLocationInfo J T hw b).2 ≠ some (GoError.hms HMSError.ErrHMSTypeUnsupported))) ∧
    (∀ (hf : HWInvByFRU R) (b : Bytes),
        (T.ToHMSType hf.Type_ = HMSType.HMSTypeInvalid →
          DecodeFRUInfo J T hf b = (hf, some (GoError.hms HMSError.ErrHMSTypeInvalid))) ∧
        (T.ToHMSType hf.Type_ ≠ HMSType.HMSTypeInvalid →
          codecKind (T.ToHMSType hf.Type_) = false →
          DecodeFRUInfo J T hf b =
            (hf, some (GoError.hms HMSError.ErrHMSTypeUnsupported))) ∧
        (codecKind (T.ToHMSType hf.Type_) = true →
          (DecodeFRUInfo J T hf b).2 ≠ some (GoError.hms HMSError.ErrHMSTypeInvalid) ∧
          (DecodeFRUInfo J T hf b).2 ≠ some (GoError.hms HMSError.ErrHMSTypeUnsupported))) := by
  refine ⟨?_, ?_⟩
  · intro hw b
    refine ⟨?_, ?_, ?_⟩
    · intro hk
      rw [DecodeLocationInfo_unsupported J T hw b (by rw [hk]; rfl)]
      simp [hk]
    · intro hk hck
      rw [DecodeLocationInfo_unsupported J T hw b hck]
      simp [hk]
    · intro hck
      have hno : ∀ e0 : HMSError,
          (DecodeLocationInfo J T hw b).2 ≠ some (GoError.hms e0) := by
        intro e0 he
        have hdec : DecodeLocationInfo J T hw b =
            ((DecodeLocationInfo J T hw b).1, some (GoError.hms e0)) := Prod.ext rfl he
        obtain ⟨-, h1 | h1 | h1⟩ := DecodeLocationInfo_err J T hw _ b _ hdec
        · rw [h1.1] at hck
          cases hck
        · rw [h1.2.1] at hck
          cases hck
        · obtain ⟨-, je, -, hje⟩ := h1
          cases hje
      exact ⟨hno _, hno _⟩
  · intro hf b
    refine ⟨?_, ?_, ?_⟩
    · intro hk
      rw [DecodeFRUInfo_unsupported J T hf b (by rw [hk]; rfl)]
      simp [hk]
    · intro hk hck
      rw [DecodeFRUInfo_unsupported J T hf b hck]
      simp [hk]
    · intro hck
      have hno : ∀ e0 : HMSError,
          (DecodeFRUInfo J T hf b).2 ≠ some (GoError.hms e0) := by
        intro e0 he
        have hdec : DecodeFRUInfo J T hf b =
            ((DecodeFRUInfo J T hf b).1, some (GoError.hms e0)) := Prod.ext rfl he
        obtain ⟨-, h1 | h1 | h1⟩ := DecodeFRUInfo_err J T hf _ b _ hdec
        · rw [h1.1] at hck
          cases hck
        · rw [h1.2.1] at hck
          cases hck
        · obtain ⟨-, je, -, hje⟩ := h1
          cases hje
      exact ⟨hno _, hno _⟩

/-- C17 (encode selects the populated slot).  For a record whose Type is one
of the fourteen kinds and whose slot of that kind holds a payload `v` that
serializes to `b`, `EncodeLocationInfo` returns `b` with a nil error and the
record as it was; for a record of invalid or unsupported Type it returns no
bytes, ErrHMSTypeInvalid resp. ErrHMSTypeUnsupported, and the record as it
was.  The same holds for `EncodeFRUInfo`. -/
theorem C17_encode_selects_slot {R : RFTypes} (J : JSONLib R) (T : Taxonomy) :
    (∀ (hw : HWInvByLoc R),
        (∀ (v : LocationInfo R) (b : Bytes), locSlot (T.ToHMSType hw.Type_) hw = some v →
          serializeLoc J v = .ok b → EncodeLocationInfo J T hw = (hw, b, none)) ∧
        (T.ToHMSType hw.Type_ = HMSType.HMSTypeInvalid →
          EncodeLocationInfo J T hw = (hw, [], some (GoError.hms HMSError.ErrHMSTypeInvalid))) ∧
        (T.ToHMSType hw.Type_ ≠ HMSType.HMSTypeInvalid →
          codecKind (T.ToHMSType hw.Type_) = false →
          EncodeLocationInfo J T hw =
            (hw, [], some (GoError.hms HMSError.ErrHMSTypeUnsupported)))) ∧
    (∀ (hf : HWInvByFRU R),
        (∀ (v : FRUInfo R) (b : Bytes), fruSlot (T.ToHMSType hf.Type_) hf = some v →
          serializeFRU J v = .ok b → EncodeFRUInfo J T hf = (hf, b, none)) ∧
        (T.ToHMSType hf.Type_ = HMSType.HMSTypeInvalid →
          EncodeFRUInfo J T hf = (hf, [], some (GoError.hms HMSError.ErrHMSTypeInvalid))) ∧
        (T.ToHMSType hf.Type_ ≠ HMSType.HMSTypeInvalid →
          codecKind (T.ToHMSType hf.Type_) = false →
          EncodeFRUInfo J T hf =
            (hf, [], some (GoError.hms HMSError.ErrHMSTypeUnsupported)))) := by
  refine ⟨?_, ?_⟩
  · intro hw
    refine ⟨?_, ?_, ?_⟩
    · intro v b hv hb
      rw [EncodeLocationInfo_populated J T hw v hv, hb]
      rfl
    · intro hk
      rw [EncodeLocationInfo_unsupported J T hw (by rw [hk]; rfl)]
      simp [hk]
    · intro hk hck
      rw [EncodeLocationInfo_unsupported J T hw hck]
      simp [hk]
  · intro hf
    refine ⟨?_, ?_, ?_⟩
    · intro v b hv hb
      rw [EncodeFRUInfo_populated J T hf v hv, hb]
      rfl
    · intro hk
      rw [EncodeFRUInfo_unsupported J T hf (by rw [hk]; rfl)]
      simp [hk]
    · intro hk hck
      rw [EncodeFRUInfo_unsupported J T hf hck]
      simp [hk]

/-- C13 at a Node location record with the payload bytes 1 2 3, and at a
NodeEnclosurePowerSupply FRU record with the payload byte 7: decoding what the
encoder wrote into a fresh record of the same Type gives the payload back in
the slot of the kind, with the discriminator of the original. -/
theorem C13_round_trip_witness :
    (∃ b f1,
      EncodeLocationInfo braceJSON xnames
        ({ Type_ := "Node", HMSNodeLocationInfo := some [1, 2, 3],
           HWInventoryByLocationType := "HWInvByLocNode" } : HWInvByLoc rawPayloads) =
        ({ Type_ := "Node", HMSNodeLocationInfo := some [1, 2, 3],
           HWInventoryByLocationType := "HWInvByLocNode" }, b, none) ∧
      DecodeLocationInfo braceJSON xnames ({ Type_ := "Node" } : HWInvByLoc rawPayloads) b =
        (f1, none) ∧
      locSlot HMSType.Node f1 = some (LocationInfo.system [1, 2, 3]) ∧
      f1.HWInventoryByLocationType = "HWInvByLocNode" ∧
      locPopulated f1 = [HMSType.Node]) ∧
    (∃ b f1,
      EncodeFRUInfo braceJSON xnames
        ({ Type_ := "NodeEnclosurePowerSupply",
           HMSNodeEnclosurePowerSupplyFRUInfo := some [7],
           HWInventoryByFRUType := "HWInvByFRU" } : HWInvByFRU rawPayloads) =
        ({ Type_ := "NodeEnclosurePowerSupply",
           HMSNodeEnclosurePowerSupplyFRUInfo := some [7],
           HWInventoryByFRUType := "HWInvByFRU" }, b, none) ∧
      DecodeFRUInfo braceJSON xnames
        ({ Type_ := "NodeEnclosurePowerSupply" } : HWInvByFRU rawPayloads) b = (f1, none) ∧
      fruSlot HMSType.NodeEnclosurePowerSupply f1 = some (FRUInfo.powerSupply [7]) ∧
      f1.HWInventoryByFRUType = "HWInvByFRU" ∧
      fruPopulated f1 = [HMSType.NodeEnclosurePowerSupply]) := by
  have hk1 : xnames.ToHMSType "Node" = HMSType.Node := by decide
  have hk2 : xnames.ToHMSType "NodeEnclosurePowerSupply" = HMSType.NodeEnclosurePowerSupply := by
    decide
  constructor
  · obtain ⟨henc, f1, hdec, hslot, htag, hpop⟩ :=
      (C13_round_trip braceJSON xnames braceJSON_roundTrips).1
        ({ Type_ := "Node", HMSNodeLocationInfo := some [1, 2, 3],
           HWInventoryByLocationType := "HWInvByLocNode" } : HWInvByLoc rawPayloads)
        ({ Type_ := "Node" } : HWInvByLoc rawPayloads)
        (LocationInfo.system [1, 2, 3]) [123, 1, 2, 3, 125]
        (by rw [hk1]; rfl) (by rw [hk1]; rfl) rfl rfl
    rw [hk1] at hslot hpop
    exact ⟨_, f1, henc, hdec, hslot, htag, hpop (by decide)⟩
  · obtain ⟨henc, f1, hdec, hslot, htag, hpop⟩ :=
      (C13_round_trip braceJSON xnames braceJSON_roundTrips).2
        ({ Type_ := "NodeEnclosurePowerSupply",
           HMSNodeEnclosurePowerSupplyFRUInfo := some [7],
           HWInventoryByFRUType := "HWInvByFRU" } : HWInvByFRU rawPayloads)
        ({ Type_ := "NodeEnclosurePowerSupply" } : HWInvByFRU rawPayloads)
        (FRUInfo.powerSupply [7]) [123, 7, 125]
        (by rw [hk2]; rfl) (by rw [hk2]; rfl) rfl rfl
    rw [hk2] at hslot hpop
    exact ⟨_, f1, henc, hdec, hslot, htag, hpop (by decide)⟩

/-- C14 as stated fails: a location record of Type "Node" that holds a payload
in its Processor slot (left there under an earlier Type) is decoded without
error, and afterwards two payload slots are populated, that of Node and that
of Processor. -/
theorem C14_counterexample :
    (DecodeLocationInfo braceJSON xnames
      ({ Type_ := "Node", HMSProcessorLocationInfo := some [9],
         HWInventoryByLocationType := "HWInvByLocProcessor" } : HWInvByLoc rawPayloads)
      [123, 1, 125]).2.isNone = true ∧
    locPopulated (DecodeLocationInfo braceJSON xnames
      ({ Type_ := "Node", HMSProcessorLocationInfo := some [9],
         HWInventoryByLocationType := "HWInvByLocProcessor" } : HWInvByLoc rawPayloads)
      [123, 1, 125]).1 = [HMSType.Node, HMSType.Processor] ∧
    (locPopulated (DecodeLocationInfo braceJSON xnames
      ({ Type_ := "Node", HMSProcessorLocationInfo := some [9],
         HWInventoryByLocationType := "HWInvByLocProcessor" } : HWInvByLoc rawPayloads)
      [123, 1, 125]).1).length ≠ 1 := by
  decide

/-- C14, amended, at a fresh Processor location record and a fresh Drive FRU
record: after the decode exactly the slot of the kind is populated and the
discriminator is the constant of the kind. -/
theorem C14_discriminator_invariant_witness :
    (∃ hw1, DecodeLocationInfo braceJSON xnames
        ({ Type_ := "Processor" } : HWInvByLoc rawPayloads) [123, 1, 125] = (hw1, none) ∧
      locPopulated hw1 = [HMSType.Processor] ∧
      hw1.HWInventoryByLocationType = "HWInvByLocProcessor") ∧
    (∃ hf1, DecodeFRUInfo braceJSON xnames
        ({ Type_ := "Drive" } : HWInvByFRU rawPayloads) [123, 1, 125] = (hf1, none) ∧
      fruPopulated hf1 = [HMSType.Drive] ∧
      hf1.HWInventoryByFRUType = "HWInvByFRUDrive") := by
  have hk1 : xnames.ToHMSType "Processor" = HMSType.Processor := by decide
  have hk2 : xnames.ToHMSType "Drive" = HMSType.Drive := by decide
  constructor
  · have hdec : DecodeLocationInfo braceJSON xnames
        ({ Type_ := "Processor" } : HWInvByLoc rawPayloads) [123, 1, 125] =
        ((DecodeLocationInfo braceJSON xnames
          ({ Type_ := "Processor" } : HWInvByLoc rawPayloads) [123, 1, 125]).1, none) :=
      Prod.ext rfl (Option.isNone_iff_eq_none.mp (by decide))
    obtain ⟨-, -, htag, -, hpop⟩ := (C14_discriminator_invariant braceJSON xnames).1 _ _ _ hdec
    rw [hk1] at htag hpop
    exact ⟨_, hdec, hpop (Or.inl (by decide)), htag⟩
  · have hdec : DecodeFRUInfo braceJSON xnames
        ({ Type_ := "Drive" } : HWInvByFRU rawPayloads) [123, 1, 125] =
        ((DecodeFRUInfo braceJSON xnames
          ({ Type_ := "Drive" } : HWInvByFRU rawPayloads) [123, 1, 125]).1, none) :=
      Prod.ext rfl (Option.isNone_iff_eq_none.mp (by decide))
    obtain ⟨-, -, htag, -, hpop⟩ := (C14_discriminator_invariant braceJSON xnames).2 _ _ _ hdec
    rw [hk2] at htag hpop
    exact ⟨_, hdec, hpop (Or.inl (by decide)), htag⟩

/-- C15 at a Node location record holding a payload and the malformed payload
byte 1: the decode returns the error of the JSON library and the record is as
before. -/
theorem C15_decode_atomicity_witness :
    (DecodeLocationInfo braceJSON xnames
      ({ Type_ := "Node", HMSNodeLocationInfo := some [5],
         HWInventoryByLocationType := "HWInvByLocNode" } : HWInvByLoc rawPayloads) [1]).2 =
      some (GoError.json "invalid character looking for beginning of value") ∧
    (DecodeLocationInfo braceJSON xnames
      ({ Type_ := "Node", HMSNodeLocationInfo := some [5],
         HWInventoryByLocationType := "HWInvByLocNode" } : HWInvByLoc rawPayloads) [1]).1 =
      { Type_ := "Node", HMSNodeLocationInfo := some [5],
        HWInventoryByLocationType := "HWInvByLocNode" } :=
  ⟨rfl, ((C15_decode_atomicity braceJSON xnames).1
    ({ Type_ := "Node", HMSNodeLocationInfo := some [5],
       HWInventoryByLocationType := "HWInvByLocNode" } : HWInvByLoc rawPayloads) [1]
    (GoError.json "invalid character looking for beginning of value") rfl).1⟩

/-- C16 at the Type strings "Bogus" (no kind) and "NodeBMC" (a kind outside the
fourteen), with a well-formed payload: ErrHMSTypeInvalid and
ErrHMSTypeUnsupported. -/
theorem C16_decode_error_kinds_witness :
    DecodeLocationInfo braceJSON xnames ({ Type_ := "Bogus" } : HWInvByLoc rawPayloads)
        [123, 1, 125] =
      ({ Type_ := "Bogus" }, some (GoError.hms HMSError.ErrHMSTypeInvalid)) ∧
    DecodeFRUInfo braceJSON xnames ({ Type_ := "NodeBMC" } : HWInvByFRU rawPayloads)
        [123, 1, 125] =
      ({ Type_ := "NodeBMC" }, some (GoError.hms HMSError.ErrHMSTypeUnsupported)) :=
  ⟨((C16_decode_error_kinds braceJSON xnames).1 _ _).1 (by decide),
   ((C16_decode_error_kinds braceJSON xnames).2 _ _).2.1 (by decide) (by decide)⟩

/-- C17 at a Node location record with the payload bytes 1 2 3, and at a FRU
record of the invalid Type "Bogus". -/
theorem C17_encode_selects_slot_witness :
    EncodeLocationInfo braceJSON xnames
        ({ Type_ := "Node", HMSNodeLocationInfo := some [1, 2, 3],
           HWInventoryByLocationType := "HWInvByLocNode" } : HWInvByLoc rawPayloads) =
      ({ Type_ := "Node", HMSNodeLocationInfo := some [1, 2, 3],
         HWInventoryByLocationType := "HWInvByLocNode" }, [123, 1, 2, 3, 125], none) ∧
    EncodeFRUInfo braceJSON xnames ({ Type_ := "Bogus" } : HWInvByFRU rawPayloads) =
      ({ Type_ := "Bogus" }, [], some (GoError.hms HMSError.ErrHMSTypeInvalid)) := by
  have hk1 : xnames.ToHMSType "Node" = HMSType.Node := by decide
  exact ⟨((C17_encode_selects_slot braceJSON xnames).1 _).1 (LocationInfo.system [1, 2, 3])
      [123, 1, 2, 3, 125] (by rw [hk1]; rfl) rfl,
    ((C17_encode_selects_slot braceJSON xnames).2 _).2.1 (by decide)⟩

/-! ## Identifiers, supported kinds and the frame of the flat format -/

/-- The deferred error, when one is set, is one of the two kind errors. -/
theorem deferredErr_cases {R : RFTypes} (T : Taxonomy) (h : Heap R) (l : List Ptr)
    (e : HMSError) (he : deferredErr T h none l = some e) :
    e = HMSError.ErrHMSTypeInvalid ∨ e = HMSError.ErrHMSTypeUnsupported := by
  unfold deferredErr at he
  cases hl : (List.filterMap (fun p => kindErr (kindOf T h p)) l).getLast? with
  | none => rw [hl] at he; cases he
  | some e1 =>
    rw [hl] at he
    have he1 : e1 = e := Option.some.inj he
    subst he1
    obtain ⟨p, -, hp⟩ := List.mem_filterMap.mp (List.mem_of_getLast?_eq_some hl)
    generalize kindOf T h p = k at hp
    cases k <;> simp +decide [kindErr] at hp <;>
      first
        | exact Or.inl hp.symm
        | exact Or.inr hp.symm

/-- A FullyFlat composition, and a NestNodesOnly composition when the walk of
every Drive-kind record ends within the fuel, returns the deferred error with
a non-nil aggregate. -/
theorem NewSystemHWInventory_err {R : RFTypes} (T : Taxonomy) (fuel : Nat) (h : Heap R)
    (hwlocs : List Ptr) (xName format : String)
    (hret : format = HWInvFormatFullyFlat ∨
      (format = HWInvFormatNestNodesOnly ∧
        ∀ d ∈ hwlocs, kindOf T h d = HMSType.Drive →
          ∃ k, k < fuel ∧ T.GetHMSType (T.GetHMSCompParent^[k] (h d).ID) = HMSType.Node)) :
    ∃ r, NewSystemHWInventory T fuel h hwlocs xName format = some r ∧
      r.err = deferredErr T h none hwlocs ∧ r.hwinv ≠ none := by
  rcases hret with e | ⟨e, hwalk⟩
  · subst e
    have hr := NewSystemHWInventory_flat T fuel h hwlocs xName
    obtain ⟨he, hn⟩ := err_eq_deferredErr T fuel h hwlocs xName _ _ (Or.inl rfl) hr
    exact ⟨_, hr, he, hn⟩
  · subst e
    have hr := (NewSystemHWInventory_nest_returns T fuel h hwlocs xName _ (Or.inl rfl) hwalk).2
    obtain ⟨he, hn⟩ := err_eq_deferredErr T fuel h hwlocs xName _ _ (Or.inr rfl) hr
    exact ⟨_, hr, he, hn⟩

/-- C21 as stated fails: the record with the empty ID, which is not a valid
identifier, and the declared Type "Node" is composed without any error, as
FullyFlat and as NestNodesOnly, and is listed among the Nodes. -/
theorem C21_counterexample :
    xnames.GetHMSType (heapOf [mkLoc "" "Node"] 0).ID = HMSType.HMSTypeInvalid ∧
    (∃ r inv, NewSystemHWInventory xnames 0 (heapOf [mkLoc "" "Node"]) [0] "s0"
        HWInvFormatFullyFlat = some r ∧
      r.err = none ∧ r.hwinv = some inv ∧ inv.Nodes = some [0]) ∧
    (∃ r inv, NewSystemHWInventory xnames 0 (heapOf [mkLoc "" "Node"]) [0] "s0"
        HWInvFormatNestNodesOnly = some r ∧
      r.err = none ∧ r.hwinv = some inv ∧ inv.Nodes = some [0]) := by
  refine ⟨by decide, ⟨_, _, NewSystemHWInventory_flat xnames 0 _ [0] "s0", ?_, rfl, ?_⟩,
    ⟨_, _, (NewSystemHWInventory_nest_returns xnames 0 (heapOf [mkLoc "" "Node"]) [0] "s0" _
      (Or.inl rfl) (by decide)).2, ?_, rfl, ?_⟩⟩ <;> decide

/-- C21, amended (invalid declared Types are reported).  A FullyFlat
composition, and a NestNodesOnly composition when the walk of every Drive-kind
record ends within the fuel, returns; its error is nil exactly when every
record declares a bucketed kind, whatever the IDs; with a record whose
declared Type is not a valid kind the error is one of the two kind errors, and
it is ErrHMSTypeInvalid when no later record declares a non-bucketed kind. -/
theorem C21_invalid_type_reported {R : RFTypes} (T : Taxonomy) (fuel : Nat) (h : Heap R)
    (hwlocs : List Ptr) (xName format : String)
    (hret : format = HWInvFormatFullyFlat ∨
      (format = HWInvFormatNestNodesOnly ∧
        ∀ d ∈ hwlocs, kindOf T h d = HMSType.Drive →
          ∃ k, k < fuel ∧ T.GetHMSType (T.GetHMSCompParent^[k] (h d).ID) = HMSType.Node)) :
    ∃ r, NewSystemHWInventory T fuel h hwlocs xName format = some r ∧
      (r.err = none ↔ ∀ p ∈ hwlocs, bucketed (kindOf T h p) = true) ∧
      ((∃ p ∈ hwlocs, kindOf T h p = HMSType.HMSTypeInvalid) →
        r.err = some HMSError.ErrHMSTypeInvalid ∨
        r.err = some HMSError.ErrHMSTypeUnsupported) ∧
      (∀ pre x post, hwlocs = pre ++ x :: post → kindOf T h x = HMSType.HMSTypeInvalid →
        (∀ p ∈ post, bucketed (kindOf T h p) = true) →
        r.err = some HMSError.ErrHMSTypeInvalid) := by
  obtain ⟨r, hr, herr, -⟩ := NewSystemHWInventory_err T fuel h hwlocs xName format hret
  refine ⟨r, hr, ?_, ?_, ?_⟩
  · rw [herr]
    exact deferredErr_eq_none_iff T h hwlocs
  · rintro ⟨p, hp, hk⟩
    cases he : r.err with
    | none =>
      have hb := (deferredErr_eq_none_iff T h hwlocs).mp (herr.symm.trans he) p hp
      rw [hk] at hb
      cases hb
    | some e =>
      rcases deferredErr_cases T h hwlocs e (herr.symm.trans he) with e1 | e1
      · exact Or.inl (by rw [e1])
      · exact Or.inr (by rw [e1])
  · intro pre x post hsplit hk hpost
    rw [herr, hsplit, deferredErr_last T h pre post x (by rw [hk]; rfl) hpost]
    simp [hk]

/-- C21, amended, at the list of Node "x0c0s0b0n0" and a record with the valid
ID "x0c0s0b0n0p0" and the declared Type "Bogus": ErrHMSTypeInvalid. -/
theorem C21_invalid_type_reported_witness :
    ∃ r, NewSystemHWInventory xnames 1
        (heapOf [mkLoc "x0c0s0b0n0" "Node", mkLoc "x0c0s0b0n0p0" "Bogus"]) [0, 1] "s0"
        HWInvFormatNestNodesOnly = some r ∧
      r.err = some HMSError.ErrHMSTypeInvalid := by
  obtain ⟨r, hr, -, -, hlast⟩ :=
    C21_invalid_type_reported xnames 1
      (heapOf [mkLoc "x0c0s0b0n0" "Node", mkLoc "x0c0s0b0n0p0" "Bogus"]) [0, 1] "s0"
      HWInvFormatNestNodesOnly (Or.inr ⟨rfl, by decide⟩)
  exact ⟨r, hr, hlast [0] 1 [] rfl (by decide) (by decide)⟩

/-- Every top-level slot of the aggregate of the first loop is a list of
records of the input, appended to nil. -/
theorem bucketInto_slots_sub {R : RFTypes} (T : Taxonomy) (h : Heap R)
    (hwlocs : List Ptr) (xName format : String) :
    ∀ s ∈ allSlots (bucketInto T h { XName := xName, Format := format }
        hwlocs).tohmsTypeArrays,
      ∃ l, s = appendAll none l ∧ ∀ x ∈ l, x ∈ hwlocs := by
  intro s hs
  simp only [allSlots, bucketInto, List.mem_cons, List.mem_singleton, List.not_mem_nil,
    or_false] at hs
  rcases hs with e | e | e | e | e | e | e | e | e | e | e | e | e | e | e | e | e | e | e | e |
    e | e | e | e | e | e | e | e | e | e | e | e | e | e | e | e | e | e | e | e
  all_goals subst e
  all_goals first
    | exact ⟨_, rfl, fun x hx => ((mem_ofKind T h _ hwlocs x).mp hx).1⟩
    | exact ⟨[], rfl, fun x hx => absurd hx (List.not_mem_nil x)⟩

/-- Every top-level slot of the aggregate of a roll-up is a list of records of
the input, appended to nil. -/
theorem nestInventory_slots_sub {R : RFTypes} (T : Taxonomy) (fuel : Nat) (h : Heap R)
    (hwlocs : List Ptr) (xName format : String) :
    ∀ s ∈ allSlots (nestInventory T fuel h hwlocs xName format).tohmsTypeArrays,
      ∃ l, s = appendAll none l ∧ ∀ x ∈ l, x ∈ hwlocs := by
  intro s hs
  simp only [allSlots, nestInventory, bucketInto, List.mem_cons, List.mem_singleton,
    List.not_mem_nil, or_false] at hs
  rcases hs with e | e | e | e | e | e | e | e | e | e | e | e | e | e | e | e | e | e | e | e |
    e | e | e | e | e | e | e | e | e | e | e | e | e | e | e | e | e | e | e | e
  all_goals subst e
  all_goals first
    | exact ⟨_, rfl, fun x hx => ((mem_ofKind T h _ hwlocs x).mp hx).1⟩
    | exact ⟨_, rfl, fun x hx =>
        ((mem_ofKind T h _ hwlocs x).mp (mem_orphansOf _ _ h _ x hx)).1⟩
    | exact ⟨[], rfl, fun x hx => absurd hx (List.not_mem_nil x)⟩

/-- A slot after appending is the slot as it was, or a non-empty array. -/
theorem appendAll_cases (s : Option (List Ptr)) (l : List Ptr) :
    appendAll s l = s ∨ ∃ l1, appendAll s l = some l1 ∧ l1 ≠ [] := by
  cases l with
  | nil => exact Or.inl rfl
  | cons x xs => exact Or.inr ⟨_, rfl, by simp⟩

/-- C22 as stated fails: the Type "NodeEnclosurePowerSupply" is supported by the
location codec (a decode returns no error), yet a FullyFlat composition of a
single record of that Type returns ErrHMSTypeUnsupported and an aggregate that
holds the record in no slot; the kind is a codec kind that is not bucketed. -/
theorem C22_counterexample :
    (DecodeLocationInfo braceJSON xnames
      ({ ID := "x0c0s0e0t0", Type_ := "NodeEnclosurePowerSupply" } : HWInvByLoc rawPayloads)
      [123, 1, 125]).2.isNone = true ∧
    codecKind (xnames.ToHMSType "NodeEnclosurePowerSupply") = true ∧
    bucketed (xnames.ToHMSType "NodeEnclosurePowerSupply") = false ∧
    (∃ r inv, NewSystemHWInventory xnames 0
        (fun _ => ({ ID := "x0c0s0e0t0", Type_ := "NodeEnclosurePowerSupply" } :
          HWInvByLoc rawPayloads)) [0] "s0" HWInvFormatFullyFlat = some r ∧
      r.err = some HMSError.ErrHMSTypeUnsupported ∧ r.hwinv = some inv ∧
      ∀ s ∈ allSlots inv.tohmsTypeArrays, s = none) := by
  refine ⟨by decide, by decide, by decide,
    ⟨_, _, NewSystemHWInventory_flat xnames 0 _ [0] "s0", ?_, rfl, ?_⟩⟩ <;> decide

/-- C22, amended (bucketed kinds are supported by the codec).  Each of the
twelve bucketed kinds is one of the fourteen codec kinds, and the codec kinds
that are not bucketed are CMMRectifier and NodeEnclosurePowerSupply; for a
record declaring a bucketed kind `DecodeLocationInfo` answers neither
ErrHMSTypeInvalid nor ErrHMSTypeUnsupported, and a FullyFlat composition of
that single record returns a nil error and an aggregate whose only content is
that record, in one top-level slot. -/
theorem C22_bucketed_kinds_supported :
    (∀ k, bucketed k = true → codecKind k = true) ∧
    (∀ k, codecKind k = true →
      (bucketed k = true ↔
        k ≠ HMSType.CMMRectifier ∧ k ≠ HMSType.NodeEnclosurePowerSupply)) ∧
    (∀ (R : RFTypes) (J : JSONLib R) (T : Taxonomy) (hw : HWInvByLoc R) (b : Bytes),
      bucketed (T.ToHMSType hw.Type_) = true →
      (DecodeLocationInfo J T hw b).2 ≠ some (GoError.hms HMSError.ErrHMSTypeInvalid) ∧
      (DecodeLocationInfo J T hw b).2 ≠ some (GoError.hms HMSError.ErrHMSTypeUnsupported)) ∧
    (∀ (R : RFTypes) (T : Taxonomy) (fuel : Nat) (h : Heap R) (p : Ptr) (xName : String),
      bucketed (kindOf T h p) = true →
      ∃ r inv, NewSystemHWInventory T fuel h [p] xName HWInvFormatFullyFlat = some r ∧
        r.err = none ∧ r.hwinv = some inv ∧
        some [p] ∈ allSlots inv.tohmsTypeArrays ∧ slotCount inv.tohmsTypeArrays = 1) := by
  have hbc : ∀ k, bucketed k = true → codecKind k = true := by
    intro k; cases k <;> decide
  refine ⟨hbc, ?_, ?_, ?_⟩
  · intro k; cases k <;> decide
  · intro R J T hw b hb
    have hno : ∀ e0 : HMSError,
        (DecodeLocationInfo J T hw b).2 ≠ some (GoError.hms e0) := by
      intro e0 he
      have hdec : DecodeLocationInfo J T hw b =
          ((DecodeLocationInfo J T hw b).1, some (GoError.hms e0)) := Prod.ext rfl he
      obtain ⟨-, h1 | h1 | h1⟩ := DecodeLocationInfo_err J T hw _ b _ hdec
      · rw [h1.1] at hb
        cases hb
      · rw [hbc _ hb] at h1
        cases h1.2.1
      · obtain ⟨-, je, -, hje⟩ := h1
        cases hje
    exact ⟨hno _, hno _⟩
  · intro R T fuel h p xName hb
    refine ⟨_, _, NewSystemHWInventory_flat T fuel h [p] xName, ?_, rfl, ?_, ?_⟩
    · apply (deferredErr_eq_none_iff T h [p]).mpr
      intro q hq
      rw [List.mem_singleton.mp hq]
      exact hb
    · revert hb
      cases hk : kindOf T h p <;> intro hb <;>
        first
          | (exfalso; revert hb; decide)
          | simp [allSlots, bucketInto, ofKind, hk, appendAll]
    · show slotCount (bucketInto T h _ [p]).tohmsTypeArrays = 1
      rw [slotCount_bucketInto]
      simp [hb]

/-- C22, amended, at a single record of Type "Processor": a nil error and the
record in the Processors slot. -/
theorem C22_bucketed_kinds_supported_witness :
    ∃ r inv, NewSystemHWInventory xnames 0 (heapOf [mkLoc "x0c0s0b0n0p0" "Processor"]) [0]
        "s0" HWInvFormatFullyFlat = some r ∧
      r.err = none ∧ r.hwinv = some inv ∧
      some [0] ∈ allSlots inv.tohmsTypeArrays ∧ slotCount inv.tohmsTypeArrays = 1 :=
  C22_bucketed_kinds_supported.2.2.2 noPayload xnames 0
    (heapOf [mkLoc "x0c0s0b0n0p0" "Processor"]) 0 "s0" (by decide)

/-- C23 (FullyFlat makes no changes to the records).  A FullyFlat composition
always returns, the records after the call are the records before it, field
for field, and every entry of a top-level slot is a pointer of the input list,
referring to its unchanged record. -/
theorem C23_flat_frame {R : RFTypes} (T : Taxonomy) (fuel : Nat) (h : Heap R)
    (hwlocs : List Ptr) (xName : String) :
    ∃ r inv, NewSystemHWInventory T fuel h hwlocs xName HWInvFormatFullyFlat = some r ∧
      r.hwinv = some inv ∧ r.heap = h ∧
      ∀ s ∈ allSlots inv.tohmsTypeArrays, ∀ x ∈ s.getD [],
        x ∈ hwlocs ∧ r.heap x = h x ∧
        (r.heap x).tohmsTypeArrays = (h x).tohmsTypeArrays := by
  refine ⟨_, _, NewSystemHWInventory_flat T fuel h hwlocs xName, rfl, rfl, ?_⟩
  intro s hs x hx
  obtain ⟨l, hl, hsub⟩ := bucketInto_slots_sub T h hwlocs xName _ s hs
  rw [hl, appendAll_none_getD] at hx
  exact ⟨hsub x hx, rfl, rfl⟩

/-- C24 (empty slots are absent).  For each of the three formats the call
returns (for the roll-up formats: when the walk of every Drive-kind record
ends within the fuel) an aggregate every top-level slot of which is nil or a
non-empty array, and each nested Processors, Memory, Drives and
CabinetPDUOutlets slot of a record is afterwards what it was before the call,
or a non-empty array; so a slot that was nil before is nil or non-empty. -/
theorem C24_empty_slots_absent {R : RFTypes} (T : Taxonomy) (fuel : Nat) (h : Heap R)
    (hwlocs : List Ptr) (xName format : String)
    (hret : format = HWInvFormatFullyFlat ∨
      ((format = HWInvFormatNestNodesOnly ∨ format = HWInvFormatHierarchical) ∧
        ∀ d ∈ hwlocs, kindOf T h d = HMSType.Drive →
          ∃ k, k < fuel ∧ T.GetHMSType (T.GetHMSCompParent^[k] (h d).ID) = HMSType.Node)) :
    ∃ r inv, NewSystemHWInventory T fuel h hwlocs xName format = some r ∧
      r.hwinv = some inv ∧
      (∀ s ∈ allSlots inv.tohmsTypeArrays, s = none ∨ ∃ l, s = some l ∧ l ≠ []) ∧
      (∀ (q : Ptr) (slot : NestSlot),
        slot.get (r.heap q) = slot.get (h q) ∨
        ∃ l, slot.get (r.heap q) = some l ∧ l ≠ []) ∧
      (∀ (q : Ptr) (slot : NestSlot), slot.get (h q) = none →
        slot.get (r.heap q) = none ∨ ∃ l, slot.get (r.heap q) = some l ∧ l ≠ []) := by
  have hform : ∀ s : Option (List Ptr), (∃ l, s = appendAll none l ∧ ∀ x ∈ l, x ∈ hwlocs) →
      s = none ∨ ∃ l, s = some l ∧ l ≠ [] := by
    rintro s ⟨l, rfl, -⟩
    exact appendAll_cases none l
  have hlast : ∀ (g : Heap R), (∀ (q : Ptr) (slot : NestSlot),
        slot.get (g q) = slot.get (h q) ∨ ∃ l, slot.get (g q) = some l ∧ l ≠ []) →
      ∀ (q : Ptr) (slot : NestSlot), slot.get (h q) = none →
        slot.get (g q) = none ∨ ∃ l, slot.get (g q) = some l ∧ l ≠ [] := by
    intro g hg q slot hnone
    rcases hg q slot with e | e
    · exact Or.inl (e.trans hnone)
    · exact Or.inr e
  rcases hret with e | ⟨hf, hwalk⟩
  · subst e
    refine ⟨_, _, NewSystemHWInventory_flat T fuel h hwlocs xName, rfl, ?_, ?_, ?_⟩
    · exact fun s hs => hform s (bucketInto_slots_sub T h hwlocs xName _ s hs)
    · exact fun q slot => Or.inl rfl
    · exact hlast h (fun q slot => Or.inl rfl)
  · have hnested : ∀ (q : Ptr) (slot : NestSlot),
        slot.get (nestHeap T fuel h hwlocs q) = slot.get (h q) ∨
        ∃ l, slot.get (nestHeap T fuel h hwlocs q) = some l ∧ l ≠ [] := by
      intro q slot
      cases slot
      · exact appendAll_cases (h q).Processors _
      · exact appendAll_cases (h q).Memory _
      · exact appendAll_cases (h q).Drives _
      · exact appendAll_cases (h q).CabinetPDUOutlets _
    refine ⟨_, _, (NewSystemHWInventory_nest_returns T fuel h hwlocs xName format hf
      hwalk).2, rfl, ?_, hnested, hlast _ hnested⟩
    exact fun s hs => hform s (nestInventory_slots_sub T fuel h hwlocs xName format s hs)

/-- C24 at Node "x0c0s0b0n0" with Processor "x0c0s0b0n0p0": every top-level slot
is nil or non-empty (the Processors slot is nil), and the nested Processors
slot the roll-up creates under the node is non-empty. -/
theorem C24_empty_slots_absent_witness :
    ∃ r inv, NewSystemHWInventory xnames 1
        (heapOf [mkLoc "x0c0s0b0n0" "Node", mkLoc "x0c0s0b0n0p0" "Processor"]) [0, 1] "s0"
        HWInvFormatNestNodesOnly = some r ∧
      r.hwinv = some inv ∧
      (∀ s ∈ allSlots inv.tohmsTypeArrays, s = none ∨ ∃ l, s = some l ∧ l ≠ []) ∧
      (NestSlot.Processors.get (r.heap 0) = none ∨
        ∃ l, NestSlot.Processors.get (r.heap 0) = some l ∧ l ≠ []) := by
  obtain ⟨r, inv, hr, hinv, htop, -, hnil⟩ :=
    C24_empty_slots_absent xnames 1
      (heapOf [mkLoc "x0c0s0b0n0" "Node", mkLoc "x0c0s0b0n0p0" "Processor"]) [0, 1] "s0"
      HWInvFormatNestNodesOnly (Or.inr ⟨Or.inl rfl, by decide⟩)
  exact ⟨r, inv, hr, hinv, htop, hnil 0 NestSlot.Processors (by decide)⟩

/-! ## HTTP client settings -/

/-- C25 (HTTP client timeout setting).  The timeout is 30 initially; after
`SetHTTPClientTimeout(t)` the value `GetHTTPClientTimeout` returns is `t` when
`t >= 0`, 0 included, and the value stored before when `t < 0`; the proxy URL
and the InsecureSkipVerify flag are as before the call. -/
theorem C25_http_client_timeout :
    GetHTTPClientTimeout initialHTTPClientSettings = 30 ∧
    ∀ (s : HTTPClientSettings) (t : Int),
      (0 ≤ t → GetHTTPClientTimeout (SetHTTPClientTimeout s t) = t) ∧
      (t < 0 → GetHTTPClientTimeout (SetHTTPClientTimeout s t) = GetHTTPClientTimeout s) ∧
      GetHTTPClientProxyURL (SetHTTPClientTimeout s t) = GetHTTPClientProxyURL s ∧
      GetHTTPClientInsecureSkipVerify (SetHTTPClientTimeout s t) =
        GetHTTPClientInsecureSkipVerify s := by
  refine ⟨rfl, fun s t => ?_⟩
  by_cases ht : t ≥ 0
  · refine ⟨fun _ => ?_, fun hneg => ?_, ?_, ?_⟩
    · simp [SetHTTPClientTimeout, GetHTTPClientTimeout, ht]
    · omega
    · simp [SetHTTPClientTimeout, GetHTTPClientProxyURL, ht]
    · simp [SetHTTPClientTimeout, GetHTTPClientInsecureSkipVerify, ht]
  · refine ⟨fun hpos => ?_, fun _ => ?_, ?_, ?_⟩
    · omega
    · simp [SetHTTPClientTimeout, ht]
    · simp [SetHTTPClientTimeout, ht]
    · simp [SetHTTPClientTimeout, ht]

/-- C25 from the initial settings: 0 and 60 are stored, and -5 leaves the 30. -/
theorem C25_http_client_timeout_witness :
    GetHTTPClientTimeout (SetHTTPClientTimeout initialHTTPClientSettings 0) = 0 ∧
    GetHTTPClientTimeout (SetHTTPClientTimeout initialHTTPClientSettings 60) = 60 ∧
    GetHTTPClientTimeout (SetHTTPClientTimeout initialHTTPClientSettings (-5)) = 30 :=
  ⟨(C25_http_client_timeout.2 initialHTTPClientSettings 0).1 (by decide),
   (C25_http_client_timeout.2 initialHTTPClientSettings 60).1 (by decide),
   (C25_http_client_timeout.2 initialHTTPClientSettings (-5)).2.1 (by decide)⟩

/-! ## The roll-up: order, frame, duplicates, conservation -/

/-- The children handed to `q` out of the drained array of the kind `kc`, as a
filter of the input list. -/
theorem childrenOf_eq_filter {R : RFTypes} (T : Taxonomy) (h : Heap R) (hwlocs : List Ptr)
    (parentOf : String → Option String) (m : String → Option Ptr) (kc : HMSType) (q : Ptr) :
    childrenOf parentOf m h q (ofKind T h kc hwlocs) =
      hwlocs.filter (fun c => decide (kindOf T h c = kc) &&
        decide ((parentOf (h c).ID).bind m = some q)) := by
  unfold childrenOf ofKind
  rw [List.filter_filter]
  apply List.filter_congr
  intro c _
  simp [parentPtr, Bool.and_comm]

/-- Only records of the parent kind that are in the input are handed children. -/
theorem childrenOf_nil_of_not_parent {R : RFTypes} (T : Taxonomy) (h : Heap R)
    (hwlocs : List Ptr) (parentOf : String → Option String) (k : HMSType) (q : Ptr)
    (cs : List Ptr) (hq : ¬ (q ∈ hwlocs ∧ kindOf T h q = k)) :
    childrenOf parentOf (buildMap h (appendAll none (ofKind T h k hwlocs))) h q cs = [] := by
  unfold childrenOf
  rw [List.filter_eq_nil_iff]
  intro c _ hc
  have hpp : parentPtr parentOf (buildMap h (appendAll none (ofKind T h k hwlocs))) h c =
      some q := by simpa using hc
  unfold parentPtr at hpp
  cases hid : parentOf (h c).ID with
  | none => rw [hid] at hpp; cases hpp
  | some id =>
    rw [hid] at hpp
    obtain ⟨h1, h2, -⟩ := kindMap_some T h hwlocs k id q hpp
    exact hq ⟨h1, h2⟩

theorem appendAll_getD (s : Option (List Ptr)) (l : List Ptr) :
    (appendAll s l).getD [] = s.getD [] ++ l := by
  cases l with
  | nil => simp [appendAll]
  | cons x xs => rfl

/-- The lookup map of kind `k` answers, for the ID of a record of that kind
after which no record of that kind has the same ID, that record. -/
theorem kindMap_last {R : RFTypes} (T : Taxonomy) (h : Heap R) (k : HMSType)
    (pre post : List Ptr) (n : Ptr) (hk : kindOf T h n = k)
    (hpost : ∀ m ∈ post, kindOf T h m = k → (h m).ID ≠ (h n).ID) :
    buildMap h (appendAll none (ofKind T h k (pre ++ n :: post))) (h n).ID = some n := by
  rw [buildMap_eq]
  have hsplit : ofKind T h k (pre ++ n :: post) =
      ofKind T h k pre ++ n :: ofKind T h k post := by
    simp [ofKind, List.filter_append, List.filter_cons, hk]
  rw [hsplit, List.reverse_append, List.reverse_cons, List.find?_append, List.find?_append]
  have hnone : List.find? (fun m => decide ((h m).ID = (h n).ID)) (ofKind T h k post).reverse =
      none := by
    rw [List.find?_eq_none]
    intro m hm
    have hm1 := (mem_ofKind T h k post m).mp (List.mem_reverse.mp hm)
    simpa using hpost m hm1.1 hm1.2
  rw [hnone]
  simp

/-- C28 (child order and pre-existing children).  A NestNodesOnly composition
returns when the walk of every Drive-kind record ends within the fuel, and
then each nested Processors, Memory, Drives and CabinetPDUOutlets slot of a
record is what the record held in that slot before the call, unchanged and at
the front, followed by the children handed to the record, which are a filter
of the input list and so in input order; with no child the slot is as it was. -/
theorem C28_child_order {R : RFTypes} (T : Taxonomy) (fuel : Nat) (h : Heap R)
    (hwlocs : List Ptr) (xName : String)
    (hwalk : ∀ d ∈ hwlocs, kindOf T h d = HMSType.Drive →
      ∃ k, k < fuel ∧ T.GetHMSType (T.GetHMSCompParent^[k] (h d).ID) = HMSType.Node) :
    ∃ r, NewSystemHWInventory T fuel h hwlocs xName HWInvFormatNestNodesOnly = some r ∧
      (∀ q,
        (r.heap q).Processors = appendAll (h q).Processors
          (hwlocs.filter (fun c => decide (kindOf T h c = HMSType.Processor) &&
            decide (nodeMap T h hwlocs (T.GetHMSCompParent (h c).ID) = some q))) ∧
        (r.heap q).Memory = appendAll (h q).Memory
          (hwlocs.filter (fun c => decide (kindOf T h c = HMSType.Memory) &&
            decide (nodeMap T h hwlocs (T.GetHMSCompParent (h c).ID) = some q))) ∧
        (r.heap q).Drives = appendAll (h q).Drives
          (hwlocs.filter (fun c => decide (kindOf T h c = HMSType.Drive) &&
            decide ((nodeAncestor T fuel (h c).ID).bind (nodeMap T h hwlocs) = some q))) ∧
        (r.heap q).CabinetPDUOutlets = appendAll (h q).CabinetPDUOutlets
          (hwlocs.filter (fun c => decide (kindOf T h c = HMSType.CabinetPDUOutlet) &&
            decide (pduMap T h hwlocs (T.GetHMSCompParent (h c).ID) = some q)))) ∧
      (∀ (s : Option (List Ptr)) (l : List Ptr),
        (appendAll s l).getD [] = s.getD [] ++ l ∧ appendAll s [] = s) := by
  refine ⟨_, (NewSystemHWInventory_nest_returns T fuel h hwlocs xName _ (Or.inl rfl)
    hwalk).2, ?_, fun s l => ⟨appendAll_getD s l, rfl⟩⟩
  intro q
  refine ⟨?_, ?_, ?_, ?_⟩
  · show appendAll (h q).Processors (childrenOf (immediateParent T) (nodeMap T h hwlocs) h q
      (ofKind T h HMSType.Processor hwlocs)) = _
    rw [childrenOf_eq_filter]
    rfl
  · show appendAll (h q).Memory (childrenOf (immediateParent T) (nodeMap T h hwlocs) h q
      (ofKind T h HMSType.Memory hwlocs)) = _
    rw [childrenOf_eq_filter]
    rfl
  · show appendAll (h q).Drives (childrenOf (nodeAncestor T fuel) (nodeMap T h hwlocs) h q
      (ofKind T h HMSType.Drive hwlocs)) = _
    rw [childrenOf_eq_filter]
  · show appendAll (h q).CabinetPDUOutlets (childrenOf (immediateParent T)
      (pduMap T h hwlocs) h q (ofKind T h HMSType.CabinetPDUOutlet hwlocs)) = _
    rw [childrenOf_eq_filter]
    rfl

/-- C28 at a Node that already holds the child pointer 7 in its Processors slot,
with the processors "x0c0s0b0n0p1" and "x0c0s0b0n0p0" in this input order: the
slot holds 7 first, then the two in input order. -/
theorem C28_child_order_witness :
    ∃ r, NewSystemHWInventory xnames 1
        (fun p => if p = 0 then { mkLoc "x0c0s0b0n0" "Node" with Processors := some [7] }
          else if p = 1 then mkLoc "x0c0s0b0n0p1" "Processor"
          else if p = 2 then mkLoc "x0c0s0b0n0p0" "Processor"
          else {}) [1, 0, 2] "s0" HWInvFormatNestNodesOnly = some r ∧
      (r.heap 0).Processors = some [7, 1, 2] := by
  obtain ⟨r, hr, hslots, -⟩ :=
    C28_child_order xnames 1
      (fun p => if p = 0 then { mkLoc "x0c0s0b0n0" "Node" with Processors := some [7] }
        else if p = 1 then mkLoc "x0c0s0b0n0p1" "Processor"
        else if p = 2 then mkLoc "x0c0s0b0n0p0" "Processor"
        else {}) [1, 0, 2] "s0" (by decide)
  refine ⟨r, hr, ?_⟩
  rw [(hslots 0).1]
  decide

/-- C29 (frame of the roll-up).  A NestNodesOnly composition returns when the
walk of every Drive-kind record ends within the fuel, and then its top-level
Nodes, Cabinets, Chassis, ComputeModules, RouterModules, NodeEnclosures,
HSNBoards and CabinetPDUs slots are those of the FullyFlat composition of the
same input (the records of that kind in input order); every record is as
before the call except for its nested Processors, Memory, Drives and
CabinetPDUOutlets slots; the first three change only on Node-kind records of
the input and the last only on CabinetPDU-kind records of the input. -/
theorem C29_rollup_frame {R : RFTypes} (T : Taxonomy) (fuel : Nat) (h : Heap R)
    (hwlocs : List Ptr) (xName : String)
    (hwalk : ∀ d ∈ hwlocs, kindOf T h d = HMSType.Drive →
      ∃ k, k < fuel ∧ T.GetHMSType (T.GetHMSCompParent^[k] (h d).ID) = HMSType.Node) :
    ∃ r inv r0 inv0,
      NewSystemHWInventory T fuel h hwlocs xName HWInvFormatNestNodesOnly = some r ∧
      r.hwinv = some inv ∧
      NewSystemHWInventory T fuel h hwlocs xName HWInvFormatFullyFlat = some r0 ∧
      r0.hwinv = some inv0 ∧
      (inv.Nodes = inv0.Nodes ∧ inv.Cabinets = inv0.Cabinets ∧ inv.Chassis = inv0.Chassis ∧
        inv.ComputeModules = inv0.ComputeModules ∧ inv.RouterModules = inv0.RouterModules ∧
        inv.NodeEnclosures = inv0.NodeEnclosures ∧ inv.HSNBoards = inv0.HSNBoards ∧
        inv.CabinetPDUs = inv0.CabinetPDUs) ∧
      (inv.Nodes = slotOf (ofKind T h HMSType.Node hwlocs) ∧
        inv.Cabinets = slotOf (ofKind T h HMSType.Cabinet hwlocs) ∧
        inv.Chassis = slotOf (ofKind T h HMSType.Chassis hwlocs) ∧
        inv.ComputeModules = slotOf (ofKind T h HMSType.ComputeModule hwlocs) ∧
        inv.RouterModules = slotOf (ofKind T h HMSType.RouterModule hwlocs) ∧
        inv.NodeEnclosures = slotOf (ofKind T h HMSType.NodeEnclosure hwlocs) ∧
        inv.HSNBoards = slotOf (ofKind T h HMSType.HSNBoard hwlocs) ∧
        inv.CabinetPDUs = slotOf (ofKind T h HMSType.CabinetPDU hwlocs)) ∧
      ∀ q,
        r.heap q = { h q with
          Processors := (r.heap q).Processors
          Memory := (r.heap q).Memory
          Drives := (r.heap q).Drives
          CabinetPDUOutlets := (r.heap q).CabinetPDUOutlets } ∧
        ((r.heap q).ID = (h q).ID ∧ (r.heap q).Type_ = (h q).Type_ ∧
          (r.heap q).Ordinal = (h q).Ordinal ∧ (r.heap q).Status = (h q).Status ∧
          (r.heap q).HWInventoryByLocationType = (h q).HWInventoryByLocationType ∧
          (r.heap q).PopulatedFRU = (h q).PopulatedFRU ∧
          ∀ k, locSlot k (r.heap q) = locSlot k (h q)) ∧
        (¬ (q ∈ hwlocs ∧ kindOf T h q = HMSType.Node) →
          (r.heap q).Processors = (h q).Processors ∧ (r.heap q).Memory = (h q).Memory ∧
          (r.heap q).Drives = (h q).Drives) ∧
        (¬ (q ∈ hwlocs ∧ kindOf T h q = HMSType.CabinetPDU) →
          (r.heap q).CabinetPDUOutlets = (h q).CabinetPDUOutlets) := by
  refine ⟨_, _, _, _, (NewSystemHWInventory_nest_returns T fuel h hwlocs xName _ (Or.inl rfl)
    hwalk).2, rfl, NewSystemHWInventory_flat T fuel h hwlocs xName, rfl,
    ⟨rfl, rfl, rfl, rfl, rfl, rfl, rfl, rfl⟩,
    ⟨appendAll_none_eq_slotOf _, appendAll_none_eq_slotOf _, appendAll_none_eq_slotOf _,
      appendAll_none_eq_slotOf _, appendAll_none_eq_slotOf _, appendAll_none_eq_slotOf _,
      appendAll_none_eq_slotOf _, appendAll_none_eq_slotOf _⟩, ?_⟩
  intro q
  refine ⟨rfl, ⟨rfl, rfl, rfl, rfl, rfl, rfl, fun k => by cases k <;> rfl⟩, ?_, ?_⟩
  · intro hq
    refine ⟨?_, ?_, ?_⟩
    · show appendAll (h q).Processors (childrenOf (immediateParent T)
        (buildMap h (appendAll none (ofKind T h HMSType.Node hwlocs))) h q _) = _
      rw [childrenOf_nil_of_not_parent T h hwlocs _ _ q _ hq]
      rfl
    · show appendAll (h q).Memory (childrenOf (immediateParent T)
        (buildMap h (appendAll none (ofKind T h HMSType.Node hwlocs))) h q _) = _
      rw [childrenOf_nil_of_not_parent T h hwlocs _ _ q _ hq]
      rfl
    · show appendAll (h q).Drives (childrenOf (nodeAncestor T fuel)
        (buildMap h (appendAll none (ofKind T h HMSType.Node hwlocs))) h q _) = _
      rw [childrenOf_nil_of_not_parent T h hwlocs _ _ q _ hq]
      rfl
  · intro hq
    show appendAll (h q).CabinetPDUOutlets (childrenOf (immediateParent T)
      (buildMap h (appendAll none (ofKind T h HMSType.CabinetPDU hwlocs))) h q _) = _
    rw [childrenOf_nil_of_not_parent T h hwlocs _ _ q _ hq]
    rfl

/-- C29 at a Node, a Processor below it and a Cabinet: the Nodes and Cabinets
slots are those of the flat composition and the Processor and Cabinet records
are untouched. -/
theorem C29_rollup_frame_witness :
    ∃ r inv, NewSystemHWInventory xnames 1
        (heapOf [mkLoc "x0c0s0b0n0" "Node", mkLoc "x0c0s0b0n0p0" "Processor",
          mkLoc "x0" "Cabinet"]) [0, 1, 2] "s0" HWInvFormatNestNodesOnly = some r ∧
      r.hwinv = some inv ∧ inv.Nodes = some [0] ∧ inv.Cabinets = some [2] ∧
      (r.heap 1).Processors = none ∧ (r.heap 2).Processors = none ∧
      (r.heap 0).CabinetPDUOutlets = none := by
  obtain ⟨r, inv, r0, inv0, hr, hinv, -, -, -, hslots, hframe⟩ :=
    C29_rollup_frame xnames 1
      (heapOf [mkLoc "x0c0s0b0n0" "Node", mkLoc "x0c0s0b0n0p0" "Processor",
        mkLoc "x0" "Cabinet"]) [0, 1, 2] "s0" (by decide)
  refine ⟨r, inv, hr, hinv, ?_, ?_, ?_, ?_, ?_⟩
  · rw [hslots.1]; decide
  · rw [hslots.2.1]; decide
  · rw [((hframe 1).2.2.1 (by decide)).1]; decide
  · rw [((hframe 2).2.2.1 (by decide)).1]; decide
  · rw [(hframe 0).2.2.2 (by decide)]; decide

/-- A child whose computed parent ID is the ID of the last record of the parent
kind with that ID is handed to that record. -/
theorem mem_children_of_last {R : RFTypes} (T : Taxonomy) (h : Heap R) (k kc : HMSType)
    (parentOf : String → Option String) (pre post : List Ptr) (n c : Ptr)
    (s : Option (List Ptr)) (hk : kindOf T h n = k)
    (hpost : ∀ m ∈ post, kindOf T h m = k → (h m).ID ≠ (h n).ID)
    (hc : c ∈ pre ++ n :: post) (hkc : kindOf T h c = kc)
    (hp : parentOf (h c).ID = some (h n).ID) :
    c ∈ (appendAll s (childrenOf parentOf
      (buildMap h (appendAll none (ofKind T h k (pre ++ n :: post)))) h n
      (ofKind T h kc (pre ++ n :: post)))).getD [] := by
  rw [appendAll_getD, childrenOf_eq_filter]
  apply List.mem_append_right
  rw [List.mem_filter]
  refine ⟨hc, ?_⟩
  rw [hp]
  simp [hkc, kindMap_last T h k pre post n hk hpost]

/-- A record that shares its ID with the last record of the parent kind with
that ID, and is not that record, is handed no child. -/
theorem children_nil_of_shadowed {R : RFTypes} (T : Taxonomy) (h : Heap R) (k : HMSType)
    (parentOf : String → Option String) (pre post : List Ptr) (n n1 : Ptr)
    (cs : List Ptr) (hk : kindOf T h n = k)
    (hpost : ∀ m ∈ post, kindOf T h m = k → (h m).ID ≠ (h n).ID)
    (hne : n1 ≠ n) (hid : (h n1).ID = (h n).ID) :
    childrenOf parentOf (buildMap h (appendAll none (ofKind T h k (pre ++ n :: post)))) h n1
      cs = [] := by
  unfold childrenOf
  rw [List.filter_eq_nil_iff]
  intro c _ hc
  have hpp : parentPtr parentOf (buildMap h (appendAll none
      (ofKind T h k (pre ++ n :: post)))) h c = some n1 := by simpa using hc
  unfold parentPtr at hpp
  cases hpar : parentOf (h c).ID with
  | none => rw [hpar] at hpp; cases hpp
  | some id =>
    rw [hpar] at hpp
    have hpp1 : buildMap h (appendAll none (ofKind T h k (pre ++ n :: post))) id = some n1 :=
      hpp
    obtain ⟨-, -, h3⟩ := kindMap_some T h _ k id n1 hpp1
    have hlast := kindMap_last T h k pre post n hk hpost
    rw [← hid, h3, hpp1] at hlast
    exact hne (Option.some.inj hlast)

/-- C27 (duplicate parent IDs).  A NestNodesOnly composition returns when the
walk of every Drive-kind record ends within the fuel, and then all Node-kind
and CabinetPDU-kind records of the input stay in the top-level Nodes and
CabinetPDUs slots; for a Node-kind record `n` of the input after which no
Node-kind record has the same ID, every Processor-kind and Memory-kind record
whose parent ID, and every Drive-kind record whose Node ancestor ID, is the ID
of `n` is in the corresponding nested slot of `n`, and every other record with
the ID of `n` keeps its nested Processors, Memory and Drives slots as they
were; likewise for CabinetPDU-kind records and the outlets. -/
theorem C27_last_wins {R : RFTypes} (T : Taxonomy) (fuel : Nat) (h : Heap R)
    (hwlocs : List Ptr) (xName : String)
    (hwalk : ∀ d ∈ hwlocs, kindOf T h d = HMSType.Drive →
      ∃ k, k < fuel ∧ T.GetHMSType (T.GetHMSCompParent^[k] (h d).ID) = HMSType.Node) :
    ∃ r inv, NewSystemHWInventory T fuel h hwlocs xName HWInvFormatNestNodesOnly = some r ∧
      r.hwinv = some inv ∧
      inv.Nodes = slotOf (ofKind T h HMSType.Node hwlocs) ∧
      inv.CabinetPDUs = slotOf (ofKind T h HMSType.CabinetPDU hwlocs) ∧
      (∀ pre n post, hwlocs = pre ++ n :: post → kindOf T h n = HMSType.Node →
        (∀ m ∈ post, kindOf T h m = HMSType.Node → (h m).ID ≠ (h n).ID) →
        (∀ c ∈ hwlocs,
          (kindOf T h c = HMSType.Processor → T.GetHMSCompParent (h c).ID = (h n).ID →
            c ∈ ((r.heap n).Processors).getD []) ∧
          (kindOf T h c = HMSType.Memory → T.GetHMSCompParent (h c).ID = (h n).ID →
            c ∈ ((r.heap n).Memory).getD []) ∧
          (kindOf T h c = HMSType.Drive → nodeAncestor T fuel (h c).ID = some (h n).ID →
            c ∈ ((r.heap n).Drives).getD [])) ∧
        (∀ n1, n1 ≠ n → (h n1).ID = (h n).ID →
          (r.heap n1).Processors = (h n1).Processors ∧
          (r.heap n1).Memory = (h n1).Memory ∧
          (r.heap n1).Drives = (h n1).Drives)) ∧
      (∀ pre n post, hwlocs = pre ++ n :: post → kindOf T h n = HMSType.CabinetPDU →
        (∀ m ∈ post, kindOf T h m = HMSType.CabinetPDU → (h m).ID ≠ (h n).ID) →
        (∀ c ∈ hwlocs, kindOf T h c = HMSType.CabinetPDUOutlet →
          T.GetHMSCompParent (h c).ID = (h n).ID →
          c ∈ ((r.heap n).CabinetPDUOutlets).getD []) ∧
        (∀ n1, n1 ≠ n → (h n1).ID = (h n).ID →
          (r.heap n1).CabinetPDUOutlets = (h n1).CabinetPDUOutlets)) := by
  refine ⟨_, _, (NewSystemHWInventory_nest_returns T fuel h hwlocs xName _ (Or.inl rfl)
    hwalk).2, rfl, appendAll_none_eq_slotOf _, appendAll_none_eq_slotOf _, ?_, ?_⟩
  · intro pre n post hl hk hpost
    subst hl
    refine ⟨fun c hc => ⟨?_, ?_, ?_⟩, fun n1 hne hid => ⟨?_, ?_, ?_⟩⟩
    · intro hkc hp
      exact mem_children_of_last T h _ _ (immediateParent T) pre post n c _ hk hpost hc hkc
        (congrArg some hp)
    · intro hkc hp
      exact mem_children_of_last T h _ _ (immediateParent T) pre post n c _ hk hpost hc hkc
        (congrArg some hp)
    · intro hkc hp
      exact mem_children_of_last T h _ _ (nodeAncestor T fuel) pre post n c _ hk hpost hc hkc
        hp
    · show appendAll (h n1).Processors (childrenOf (immediateParent T)
        (buildMap h (appendAll none (ofKind T h HMSType.Node (pre ++ n :: post)))) h n1 _) = _
      rw [children_nil_of_shadowed T h _ _ pre post n n1 _ hk hpost hne hid]
      rfl
    · show appendAll (h n1).Memory (childrenOf (immediateParent T)
        (buildMap h (appendAll none (ofKind T h HMSType.Node (pre ++ n :: post)))) h n1 _) = _
      rw [children_nil_of_shadowed T h _ _ pre post n n1 _ hk hpost hne hid]
      rfl
    · show appendAll (h n1).Drives (childrenOf (nodeAncestor T fuel)
        (buildMap h (appendAll none (ofKind T h HMSType.Node (pre ++ n :: post)))) h n1 _) = _
      rw [children_nil_of_shadowed T h _ _ pre post n n1 _ hk hpost hne hid]
      rfl
  · intro pre n post hl hk hpost
    subst hl
    refine ⟨fun c hc hkc hp => ?_, fun n1 hne hid => ?_⟩
    · exact mem_children_of_last T h _ _ (immediateParent T) pre post n c _ hk hpost hc hkc
        (congrArg some hp)
    · show appendAll (h n1).CabinetPDUOutlets (childrenOf (immediateParent T)
        (buildMap h (appendAll none (ofKind T h HMSType.CabinetPDU (pre ++ n :: post)))) h n1
        _) = _
      rw [children_nil_of_shadowed T h _ _ pre post n n1 _ hk hpost hne hid]
      rfl

/-- C27 at two Node records with the ID "x0c0s0b0n0" around the Processor
"x0c0s0b0n0p0": both stay in the top-level Nodes slot, the Processor is in the
nested slot of the second and the first receives nothing. -/
theorem C27_last_wins_witness :
    ∃ r inv, NewSystemHWInventory xnames 1
        (heapOf [mkLoc "x0c0s0b0n0" "Node", mkLoc "x0c0s0b0n0p0" "Processor",
          mkLoc "x0c0s0b0n0" "Node"]) [0, 1, 2] "s0" HWInvFormatNestNodesOnly = some r ∧
      r.hwinv = some inv ∧ inv.Nodes = some [0, 2] ∧
      1 ∈ ((r.heap 2).Processors).getD [] ∧ (r.heap 0).Processors = none := by
  obtain ⟨r, inv, hr, hinv, hnodes, -, hnode, -⟩ :=
    C27_last_wins xnames 1
      (heapOf [mkLoc "x0c0s0b0n0" "Node", mkLoc "x0c0s0b0n0p0" "Processor",
        mkLoc "x0c0s0b0n0" "Node"]) [0, 1, 2] "s0" (by decide)
  obtain ⟨hin, hout⟩ := hnode [0, 1] 2 [] rfl (by decide) (by simp)
  refine ⟨r, inv, hr, hinv, ?_, ?_, ?_⟩
  · rw [hnodes]; decide
  · exact (hin 1 (by decide)).1 (by decide) (by decide)
  · rw [(hout 0 (by decide) (by decide)).1]; decide

theorem nestedOf_congr (f g : Ptr → List Ptr) (l : List Ptr)
    (hfg : ∀ n ∈ l, f n = g n) : nestedOf f l = nestedOf g l := by
  induction l with
  | nil => rfl
  | cons m ms ih =>
    simp only [nestedOf]
    rw [hfg m (List.mem_cons_self _ _), ih (fun n hn => hfg n (List.mem_cons_of_mem _ hn))]

theorem nestedOf_nil (l : List Ptr) : nestedOf (fun _ => []) l = [] := by
  induction l with
  | nil => rfl
  | cons m ms ih => simp only [nestedOf, ih, List.append_nil]

/-- Handing one more child to one record of a duplicate-free list adds that
child once to the nested children. -/
theorem nestedOf_insert (F : Ptr → List Ptr) (c n1 : Ptr) (nodes : List Ptr)
    (hnd : nodes.Nodup) (hn : n1 ∈ nodes) :
    List.Perm (nestedOf (fun n => if n = n1 then c :: F n else F n) nodes)
      (c :: nestedOf F nodes) := by
  induction nodes with
  | nil => cases hn
  | cons m ms ih =>
    obtain ⟨hm, hms⟩ := List.nodup_cons.mp hnd
    simp only [nestedOf]
    by_cases hmn : m = n1
    · subst hmn
      have hrest : nestedOf (fun n => if n = m then c :: F n else F n) ms = nestedOf F ms := by
        apply nestedOf_congr
        intro n hn1
        have : n ≠ m := fun e => hm (e ▸ hn1)
        simp [this]
      rw [hrest]
      simp
    · have hn1 : n1 ∈ ms := by
        rcases List.mem_cons.mp hn with e | e
        · exact absurd e.symm hmn
        · exact e
      rw [if_neg hmn]
      exact ((ih hms hn1).append_left (F m)).trans List.perm_middle

/-- The orphans of a roll-up loop and the children handed to the records of a
duplicate-free list that holds every parent found are together the drained
array, each entry once. -/
theorem rollup_perm (g : Ptr → Option Ptr) (nodes cs : List Ptr) (hnd : nodes.Nodup)
    (hmem : ∀ c ∈ cs, ∀ n, g c = some n → n ∈ nodes) :
    List.Perm
      (cs.filter (fun c => decide (g c = none)) ++
        nestedOf (fun n => cs.filter (fun c => decide (g c = some n))) nodes) cs := by
  induction cs with
  | nil =>
    simp only [List.filter_nil, List.nil_append]
    rw [nestedOf_nil]
  | cons c cs ih =>
    have ih1 := ih (fun c1 hc1 => hmem c1 (List.mem_cons_of_mem _ hc1))
    cases hg : g c with
    | none =>
      have hfun : (fun n => (c :: cs).filter (fun c => decide (g c = some n))) =
          (fun n => cs.filter (fun c => decide (g c = some n))) := by
        funext n
        rw [List.filter_cons_of_neg]
        simp [hg]
      rw [hfun, List.filter_cons_of_pos (by simp [hg])]
      exact List.Perm.cons c ih1
    | some n1 =>
      have hfun : (fun n => (c :: cs).filter (fun c => decide (g c = some n))) =
          (fun n => if n = n1 then c :: cs.filter (fun c => decide (g c = some n))
            else cs.filter (fun c => decide (g c = some n))) := by
        funext n
        by_cases hn : n = n1
        · rw [if_pos hn, List.filter_cons_of_pos (by simp [hg, hn])]
        · rw [if_neg hn, List.filter_cons_of_neg]
          simp only [hg, Option.some.injEq, decide_eq_true_eq]
          exact fun e => hn e.symm
      rw [hfun, List.filter_cons_of_neg (by simp [hg])]
      have hins := nestedOf_insert (fun n => cs.filter (fun c => decide (g c = some n))) c n1
        nodes hnd (hmem c (List.mem_cons_self _ _) n1 hg)
      exact ((hins.append_left _).trans List.perm_middle).trans (List.Perm.cons c ih1)

/-- The conservation of one roll-up loop of a call: the orphans put back at the
top level and the nested slots of the top-level records of the parent kind
hold the drained array, each entry once, when the records of the parent kind
have distinct IDs and empty nested slots before the call. -/
theorem rollup_conserves {R : RFTypes} (T : Taxonomy) (h : Heap R) (hwlocs : List Ptr)
    (k kc : HMSType) (parentOf : String → Option String) (slot : HWInvByLoc R → Option (List Ptr))
    (hdistinct : ((ofKind T h k hwlocs).map (fun n => (h n).ID)).Nodup)
    (hempty : ∀ n ∈ hwlocs, kindOf T h n = k → (slot (h n)).getD [] = []) :
    List.Perm
      ((appendAll none (orphansOf parentOf (buildMap h (appendAll none (ofKind T h k hwlocs))) h
          (ofKind T h kc hwlocs))).getD [] ++
        nestedOf (fun n => (appendAll (slot (h n)) (childrenOf parentOf
          (buildMap h (appendAll none (ofKind T h k hwlocs))) h n
          (ofKind T h kc hwlocs))).getD []) ((appendAll none (ofKind T h k hwlocs)).getD []))
      (ofKind T h kc hwlocs) := by
  rw [appendAll_none_getD, appendAll_none_getD]
  have hcongr : nestedOf (fun n => (appendAll (slot (h n)) (childrenOf parentOf
        (buildMap h (appendAll none (ofKind T h k hwlocs))) h n
        (ofKind T h kc hwlocs))).getD []) (ofKind T h k hwlocs) =
      nestedOf (fun n => (ofKind T h kc hwlocs).filter (fun c => decide
        (parentPtr parentOf (buildMap h (appendAll none (ofKind T h k hwlocs))) h c = some n)))
        (ofKind T h k hwlocs) := by
    apply nestedOf_congr
    intro n hn
    obtain ⟨h1, h2⟩ := (mem_ofKind T h k hwlocs n).mp hn
    rw [appendAll_getD, hempty n h1 h2]
    rfl
  rw [hcongr]
  refine rollup_perm _ _ _ (List.Nodup.of_map _ hdistinct) ?_
  intro c _ n hcn
  unfold parentPtr at hcn
  cases hpar : parentOf (h c).ID with
  | none => rw [hpar] at hcn; cases hcn
  | some id =>
    rw [hpar] at hcn
    exact (buildMap_some h _ id n hcn).1

/-- C26 (conservation under roll-up).  For an input whose Node-kind records
have pairwise distinct IDs and hold no nested Processors, Memory or Drives
entries, a NestNodesOnly composition returns when the walk of every Drive-kind
record ends within the fuel, and then the top-level Processors slot followed
by the nested Processors slots of the top-level Nodes is a permutation of the
Processor-kind records of the input, and likewise for Memory and Drives: each
such record occurs as often as in the input (once when the input lists it
once), and the total count is their count in the input. -/
theorem C26_conservation {R : RFTypes} (T : Taxonomy) (fuel : Nat) (h : Heap R)
    (hwlocs : List Ptr) (xName : String)
    (hwalk : ∀ d ∈ hwlocs, kindOf T h d = HMSType.Drive →
      ∃ k, k < fuel ∧ T.GetHMSType (T.GetHMSCompParent^[k] (h d).ID) = HMSType.Node)
    (hdistinct : ((ofKind T h HMSType.Node hwlocs).map (fun n => (h n).ID)).Nodup)
    (hnochild : ∀ n ∈ hwlocs, kindOf T h n = HMSType.Node →
      ((h n).Processors).getD [] = [] ∧ ((h n).Memory).getD [] = [] ∧
      ((h n).Drives).getD [] = []) :
    ∃ r inv, NewSystemHWInventory T fuel h hwlocs xName HWInvFormatNestNodesOnly = some r ∧
      r.hwinv = some inv ∧
      List.Perm
        ((inv.Processors).getD [] ++
          nestedOf (fun n => ((r.heap n).Processors).getD []) ((inv.Nodes).getD []))
        (ofKind T h HMSType.Processor hwlocs) ∧
      List.Perm
        ((inv.Memory).getD [] ++
          nestedOf (fun n => ((r.heap n).Memory).getD []) ((inv.Nodes).getD []))
        (ofKind T h HMSType.Memory hwlocs) ∧
      List.Perm
        ((inv.Drives).getD [] ++
          nestedOf (fun n => ((r.heap n).Drives).getD []) ((inv.Nodes).getD []))
        (ofKind T h HMSType.Drive hwlocs) ∧
      (hwlocs.Nodup →
        ((inv.Processors).getD [] ++
          nestedOf (fun n => ((r.heap n).Processors).getD []) ((inv.Nodes).getD [])).Nodup ∧
        ((inv.Memory).getD [] ++
          nestedOf (fun n => ((r.heap n).Memory).getD []) ((inv.Nodes).getD [])).Nodup ∧
        ((inv.Drives).getD [] ++
          nestedOf (fun n => ((r.heap n).Drives).getD []) ((inv.Nodes).getD [])).Nodup) ∧
      ((inv.Processors).getD [] ++
          nestedOf (fun n => ((r.heap n).Processors).getD []) ((inv.Nodes).getD [])).length +
        ((inv.Memory).getD [] ++
          nestedOf (fun n => ((r.heap n).Memory).getD []) ((inv.Nodes).getD [])).length +
        ((inv.Drives).getD [] ++
          nestedOf (fun n => ((r.heap n).Drives).getD []) ((inv.Nodes).getD [])).length =
        (hwlocs.filter (fun c => decide (kindOf T h c = HMSType.Processor ∨
          kindOf T h c = HMSType.Memory ∨ kindOf T h c = HMSType.Drive))).length := by
  have hP := rollup_conserves T h hwlocs HMSType.Node HMSType.Processor (immediateParent T)
    (fun hw => hw.Processors) hdistinct (fun n hn hk => (hnochild n hn hk).1)
  have hM := rollup_conserves T h hwlocs HMSType.Node HMSType.Memory (immediateParent T)
    (fun hw => hw.Memory) hdistinct (fun n hn hk => (hnochild n hn hk).2.1)
  have hD := rollup_conserves T h hwlocs HMSType.Node HMSType.Drive (nodeAncestor T fuel)
    (fun hw => hw.Drives) hdistinct (fun n hn hk => (hnochild n hn hk).2.2)
  refine ⟨_, _, (NewSystemHWInventory_nest_returns T fuel h hwlocs xName _ (Or.inl rfl)
    hwalk).2, rfl, hP, hM, hD, ?_, ?_⟩
  · intro hnd
    exact ⟨hP.nodup_iff.mpr (hnd.filter _), hM.nodup_iff.mpr (hnd.filter _),
      hD.nodup_iff.mpr (hnd.filter _)⟩
  · have e1 := hP.length_eq
    have e2 := hM.length_eq
    have e3 := hD.length_eq
    have hsum : ∀ l : List Ptr,
        (ofKind T h HMSType.Processor l).length + (ofKind T h HMSType.Memory l).length +
          (ofKind T h HMSType.Drive l).length =
        (l.filter (fun c => decide (kindOf T h c = HMSType.Processor ∨
          kindOf T h c = HMSType.Memory ∨ kindOf T h c = HMSType.Drive))).length := by
      intro l
      induction l with
      | nil => rfl
      | cons c cs ih =>
        unfold ofKind at ih ⊢
        simp only [List.filter_cons]
        generalize kindOf T h c = kc
        cases kc <;> simp +decide only [reduceCtorEq, if_true, if_false, List.length_cons,
          or_self, or_false, or_true, false_or, true_or, decide_True, decide_False] <;> omega
    exact (congrArg₂ (· + ·) (congrArg₂ (· + ·) e1 e2) e3).trans (hsum hwlocs)

/-- C26 at the Node "x0c0s0b0n0" with a Processor and a Memory record below it
and an orphan Processor "x0c0s0b0n1p0": the three are conserved. -/
theorem C26_conservation_witness :
    ∃ r inv, NewSystemHWInventory xnames 1
        (heapOf [mkLoc "x0c0s0b0n0p0" "Processor", mkLoc "x0c0s0b0n0" "Node",
          mkLoc "x0c0s0b0n0d0" "Memory", mkLoc "x0c0s0b0n1p0" "Processor"]) [0, 1, 2, 3] "s0"
        HWInvFormatNestNodesOnly = some r ∧
      r.hwinv = some inv ∧
      List.Perm
        ((inv.Processors).getD [] ++
          nestedOf (fun n => ((r.heap n).Processors).getD []) ((inv.Nodes).getD []))
        [0, 3] ∧
      List.Perm
        ((inv.Memory).getD [] ++
          nestedOf (fun n => ((r.heap n).Memory).getD []) ((inv.Nodes).getD []))
        [2] := by
  obtain ⟨r, inv, hr, hinv, hP, hM, -⟩ :=
    C26_conservation xnames 1
      (heapOf [mkLoc "x0c0s0b0n0p0" "Processor", mkLoc "x0c0s0b0n0" "Node",
        mkLoc "x0c0s0b0n0d0" "Memory", mkLoc "x0c0s0b0n1p0" "Processor"]) [0, 1, 2, 3] "s0"
      (by decide) (by decide) (by decide)
  exact ⟨r, inv, hr, hinv, hP, hM⟩

/-- C30 (location and FRU discriminators).  For thirteen of the fourteen codec
kinds the FRU constant is the location constant with the prefix "HWInvByLoc"
replaced by "HWInvByFRU", and the fourteen FRU constants are pairwise distinct;
but the constant of NodeEnclosurePowerSupply is the bare prefix "HWInvByFRU":
`DecodeFRUInfo` of a record of that Type sets the discriminator "HWInvByFRU",
where `DecodeLocationInfo` sets "HWInvByLocNodeEnclosurePowerSupply", so this
FRU tag is not the location tag with the prefix replaced and names no kind. -/
theorem C30_fru_tag_truncated :
    (codecKinds.erase HMSType.NodeEnclosurePowerSupply).map fruTag =
      (codecKinds.erase HMSType.NodeEnclosurePowerSupply).map
        (fun k => "HWInvByFRU" ++ (locTag k).drop 10) ∧
    (codecKinds.map (fun k => (locTag k).take 10)).all (fun s => s == "HWInvByLoc") = true ∧
    (codecKinds.map fruTag).Nodup ∧
    (DecodeLocationInfo braceJSON xnames
      ({ Type_ := "NodeEnclosurePowerSupply" } : HWInvByLoc rawPayloads)
      [123, 1, 125]).2.isNone = true ∧
    (DecodeLocationInfo braceJSON xnames
      ({ Type_ := "NodeEnclosurePowerSupply" } : HWInvByLoc rawPayloads)
      [123, 1, 125]).1.HWInventoryByLocationType = "HWInvByLocNodeEnclosurePowerSupply" ∧
    (DecodeFRUInfo braceJSON xnames
      ({ Type_ := "NodeEnclosurePowerSupply" } : HWInvByFRU rawPayloads)
      [123, 1, 125]).2.isNone = true ∧
    fruPopulated (DecodeFRUInfo braceJSON xnames
      ({ Type_ := "NodeEnclosurePowerSupply" } : HWInvByFRU rawPayloads)
      [123, 1, 125]).1 = [HMSType.NodeEnclosurePowerSupply] ∧
    (DecodeFRUInfo braceJSON xnames
      ({ Type_ := "NodeEnclosurePowerSupply" } : HWInvByFRU rawPayloads)
      [123, 1, 125]).1.HWInventoryByFRUType = "HWInvByFRU" ∧
    (DecodeFRUInfo braceJSON xnames
      ({ Type_ := "NodeEnclosurePowerSupply" } : HWInvByFRU rawPayloads)
      [123, 1, 125]).1.HWInventoryByFRUType ≠
      "HWInvByFRU" ++ ((DecodeLocationInfo braceJSON xnames
        ({ Type_ := "NodeEnclosurePowerSupply" } : HWInvByLoc rawPayloads)
        [123, 1, 125]).1.HWInventoryByLocationType).drop 10 := by
  refine ⟨by decide, by decide, by decide, by decide, by decide, by decide, by decide,
    by decide, by decide⟩

/-! ## The frame of a decode -/

/-- A successful `DecodeLocationInfo` leaves the fields outside the payload
slots and the discriminator as they were. -/
theorem DecodeLocationInfo_frame {R : RFTypes} (J : JSONLib R) (T : Taxonomy)
    (hw hw1 : HWInvByLoc R) (b : Bytes)
    (hdec : DecodeLocationInfo J T hw b = (hw1, none)) :
    hw1.ID = hw.ID ∧ hw1.Type_ = hw.Type_ ∧ hw1.Ordinal = hw.Ordinal ∧
    hw1.Status = hw.Status ∧ hw1.PopulatedFRU = hw.PopulatedFRU ∧
    hw1.tohmsTypeArrays = hw.tohmsTypeArrays := by
  unfold DecodeLocationInfo at hdec
  cases hk : T.ToHMSType hw.Type_ <;> simp only [hk] at hdec
  all_goals first
    | exact absurd hdec (by simp)
    | (split at hdec
       · exfalso; simp at hdec
       · obtain ⟨rfl, -⟩ := Prod.mk.inj hdec
         exact ⟨rfl, rfl, rfl, rfl, rfl, rfl⟩)

/-- A successful `DecodeFRUInfo` leaves the fields outside the payload slots and
the discriminator as they were. -/
theorem DecodeFRUInfo_frame {R : RFTypes} (J : JSONLib R) (T : Taxonomy)
    (hf hf1 : HWInvByFRU R) (b : Bytes)
    (hdec : DecodeFRUInfo J T hf b = (hf1, none)) :
    hf1.FRUID = hf.FRUID ∧ hf1.Type_ = hf.Type_ ∧ hf1.Subtype = hf.Subtype := by
  unfold DecodeFRUInfo at hdec
  cases hk : T.ToHMSType hf.Type_ <;> simp only [hk] at hdec
  all_goals first
    | exact absurd hdec (by simp)
    | (split at hdec
       · exfalso; simp at hdec
       · obtain ⟨rfl, -⟩ := Prod.mk.inj hdec
         exact ⟨rfl, rfl, rfl⟩)

/-- C31 (decode frame).  After a successful `DecodeLocationInfo` the ID, Type,
Ordinal, Status, PopulatedFRU and the nested child container of the record
are as before, and so is every payload slot other than that of the record's
kind, a payload left there by an earlier decode included; what the call sets
is the slot of the kind, which holds the parsed payload, and the
discriminator, which is the constant of the kind.  Likewise after a successful
`DecodeFRUInfo` for FRUID, Type, Subtype and the other payload slots. -/
theorem C31_decode_frame {R : RFTypes} (J : JSONLib R) (T : Taxonomy) :
    (∀ (hw hw1 : HWInvByLoc R) (b : Bytes), DecodeLocationInfo J T hw b = (hw1, none) →
        (hw1.ID = hw.ID ∧ hw1.Type_ = hw.Type_ ∧ hw1.Ordinal = hw.Ordinal ∧
          hw1.Status = hw.Status ∧ hw1.PopulatedFRU = hw.PopulatedFRU ∧
          hw1.tohmsTypeArrays = hw.tohmsTypeArrays) ∧
        (∀ k1, k1 ≠ T.ToHMSType hw.Type_ → locSlot k1 hw1 = locSlot k1 hw) ∧
        (∃ v, parseLoc J (T.ToHMSType hw.Type_) b = some (.ok v) ∧
          locSlot (T.ToHMSType hw.Type_) hw1 = some v) ∧
        hw1.HWInventoryByLocationType = locTag (T.ToHMSType hw.Type_)) ∧
    (∀ (hf hf1 : HWInvByFRU R) (b : Bytes), DecodeFRUInfo J T hf b = (hf1, none) →
        (hf1.FRUID = hf.FRUID ∧ hf1.Type_ = hf.Type_ ∧ hf1.Subtype = hf.Subtype) ∧
        (∀ k1, k1 ≠ T.ToHMSType hf.Type_ → fruSlot k1 hf1 = fruSlot k1 hf) ∧
        (∃ v, parseFRU J (T.ToHMSType hf.Type_) b = some (.ok v) ∧
          fruSlot (T.ToHMSType hf.Type_) hf1 = some v) ∧
        hf1.HWInventoryByFRUType = fruTag (T.ToHMSType hf.Type_)) := by
  constructor
  · intro hw hw1 b hdec
    obtain ⟨-, hv, htag, -, hother⟩ := DecodeLocationInfo_ok J T hw hw1 b hdec
    exact ⟨DecodeLocationInfo_frame J T hw hw1 b hdec, hother, hv, htag⟩
  · intro hf hf1 b hdec
    obtain ⟨-, hv, htag, -, hother⟩ := DecodeFRUInfo_ok J T hf hf1 b hdec
    exact ⟨DecodeFRUInfo_frame J T hf hf1 b hdec, hother, hv, htag⟩

/-- C31 at a location record of Type "Node" that holds a Processor payload and
a nested Processors entry, and at a FRU record of Type "Drive" that holds a
Memory payload: after the decode the other fields and the payload of the
other kind are as before. -/
theorem C31_decode_frame_witness :
    (∃ hw1, DecodeLocationInfo braceJSON xnames
        ({ ID := "x0c0s0b0n0", Type_ := "Node", Ordinal := 3, Status := "Populated",
           HMSProcessorLocationInfo := some [9], Processors := some [4] } :
          HWInvByLoc rawPayloads) [123, 1, 125] = (hw1, none) ∧
      hw1.ID = "x0c0s0b0n0" ∧ hw1.Ordinal = 3 ∧ hw1.Status = "Populated" ∧
      hw1.Processors = some [4] ∧
      locSlot HMSType.Processor hw1 = some (LocationInfo.processor [9]) ∧
      hw1.HWInventoryByLocationType = "HWInvByLocNode") ∧
    (∃ hf1, DecodeFRUInfo braceJSON xnames
        ({ FRUID := "Drive.1234", Type_ := "Drive", Subtype := "SSD",
           HMSMemoryFRUInfo := some [9] } : HWInvByFRU rawPayloads) [123, 1, 125] =
        (hf1, none) ∧
      hf1.FRUID = "Drive.1234" ∧ hf1.Subtype = "SSD" ∧
      fruSlot HMSType.Memory hf1 = some (FRUInfo.memory [9]) ∧
      hf1.HWInventoryByFRUType = "HWInvByFRUDrive") := by
  have hk1 : xnames.ToHMSType "Node" = HMSType.Node := by decide
  have hk2 : xnames.ToHMSType "Drive" = HMSType.Drive := by decide
  constructor
  · have hdec : DecodeLocationInfo braceJSON xnames
        ({ ID := "x0c0s0b0n0", Type_ := "Node", Ordinal := 3, Status := "Populated",
           HMSProcessorLocationInfo := some [9], Processors := some [4] } :
          HWInvByLoc rawPayloads) [123, 1, 125] =
        ((DecodeLocationInfo braceJSON xnames
          ({ ID := "x0c0s0b0n0", Type_ := "Node", Ordinal := 3, Status := "Populated",
             HMSProcessorLocationInfo := some [9], Processors := some [4] } :
            HWInvByLoc rawPayloads) [123, 1, 125]).1, none) :=
      Prod.ext rfl (Option.isNone_iff_eq_none.mp (by decide))
    obtain ⟨⟨h1, -, h3, h4, -, h6⟩, hother, -, htag⟩ :=
      (C31_decode_frame braceJSON xnames).1 _ _ _ hdec
    rw [hk1] at htag hother
    exact ⟨_, hdec, h1, h3, h4, congrArg hmsTypeArrays.Processors h6,
      hother HMSType.Processor (by decide), htag⟩
  · have hdec : DecodeFRUInfo braceJSON xnames
        ({ FRUID := "Drive.1234", Type_ := "Drive", Subtype := "SSD",
           HMSMemoryFRUInfo := some [9] } : HWInvByFRU rawPayloads) [123, 1, 125] =
        ((DecodeFRUInfo braceJSON xnames
          ({ FRUID := "Drive.1234", Type_ := "Drive", Subtype := "SSD",
             HMSMemoryFRUInfo := some [9] } : HWInvByFRU rawPayloads) [123, 1, 125]).1,
          none) :=
      Prod.ext rfl (Option.isNone_iff_eq_none.mp (by decide))
    obtain ⟨⟨h1, -, h3⟩, hother, -, htag⟩ :=
      (C31_decode_frame braceJSON xnames).2 _ _ _ hdec
    rw [hk2] at htag hother
    exact ⟨_, hdec, h1, h3, hother HMSType.Memory (by decide), htag⟩

/-! ## Component lock patches -/

/-- C33 (CompLockPatch.Verify).  `Verify` returns ErrCompLockBadLifetime exactly
when the Lifetime field is present with a value that is not positive, and nil
exactly when the field is absent or positive; the Reason and Owner fields play
no part; `Normalize` returns the patch as it was. -/
theorem C33_CompLockPatch_Verify (clp : CompLockPatch) :
    (clp.Verify = some HMSError.ErrCompLockBadLifetime ↔
      ∃ t, clp.Lifetime = some t ∧ t ≤ 0) ∧
    (clp.Verify = none ↔ (clp.Lifetime = none ∨ ∃ t, clp.Lifetime = some t ∧ 0 < t)) ∧
    (clp.Verify = none ∨ clp.Verify = some HMSError.ErrCompLockBadLifetime) ∧
    (∀ reason owner : Option String,
      ({ clp with Reason := reason, Owner := owner } : CompLockPatch).Verify = clp.Verify) ∧
    clp.Normalize = clp ∧ clp.Normalize.Verify = clp.Verify := by
  obtain ⟨reason, owner, lifetime⟩ := clp
  cases lifetime with
  | none => simp [CompLockPatch.Verify, CompLockPatch.Normalize]
  | some t =>
    by_cases ht : t ≤ 0
    · simp [CompLockPatch.Verify, CompLockPatch.Normalize, ht]
    · simp [CompLockPatch.Verify, CompLockPatch.Normalize, ht]
      omega

/-! ## Component locks over the caller's memory -/

/-- The cells after the loop of `Normalize`: the cells of the slice hold the
normalized strings, every other cell is as before. -/
theorem Mem.normalizeCells_apply (L : CompIDLib) (s : Mem.Slice) (c : Nat → String)
    (a : Nat) :
    Mem.normalizeCells L s c a =
      if s.ptr ≤ a ∧ a < s.ptr + s.len then L.NormalizeHMSCompID (c a) else c a := by
  have key : ∀ n a, ((List.range n).foldl
      (fun c i => Function.update c (s.ptr + i) (L.NormalizeHMSCompID (c (s.ptr + i)))) c) a =
      if s.ptr ≤ a ∧ a < s.ptr + n then L.NormalizeHMSCompID (c a) else c a := by
    intro n
    induction n with
    | zero =>
      intro a
      have h0 : ¬ (s.ptr ≤ a ∧ a < s.ptr + 0) := by omega
      rw [if_neg h0]
      rfl
    | succ n ih =>
      intro a
      rw [List.range_succ, List.foldl_append]
      simp only [List.foldl_cons, List.foldl_nil, Function.update_apply]
      rw [ih a, ih (s.ptr + n)]
      by_cases ha : a = s.ptr + n
      · subst ha
        have h1 : ¬ (s.ptr ≤ s.ptr + n ∧ s.ptr + n < s.ptr + n) := by omega
        have h2 : s.ptr ≤ s.ptr + n ∧ s.ptr + n < s.ptr + (n + 1) := by omega
        simp [h1, h2]
      · by_cases hin : s.ptr ≤ a ∧ a < s.ptr + n
        · have h2 : s.ptr ≤ a ∧ a < s.ptr + (n + 1) := by omega
          simp [ha, hin, h2]
        · have h2 : ¬ (s.ptr ≤ a ∧ a < s.ptr + (n + 1)) := by omega
          simp [ha, hin, h2]
  exact key s.len a

/-- The call `NewCompLock` over the memory, in closed form. -/
theorem Mem.NewCompLock_eq (L : CompIDLib) (m : Mem.Store) (reason owner : String)
    (lifetime : Int) (xs : Mem.Slice) :
    Mem.NewCompLock L m reason owner lifetime xs =
      ({ Reason := reason, Owner := owner, Lifetime := lifetime,
         Xnames := (Mem.appendNil m xs).1, normalized := true, verified := true },
       if lifetime ≤ 0 then some HMSError.ErrCompLockBadLifetime
       else verifyXnames L ((Mem.appendNil m xs).1.read
         { cells := Mem.normalizeCells L (Mem.appendNil m xs).1 (Mem.appendNil m xs).2.cells
           next := (Mem.appendNil m xs).2.next }),
       { cells := Mem.normalizeCells L (Mem.appendNil m xs).1 (Mem.appendNil m xs).2.cells
         next := (Mem.appendNil m xs).2.next }) := by
  by_cases hl : lifetime ≤ 0 <;>
    simp [Mem.NewCompLock, Mem.CompLock.Normalize, Mem.CompLock.Verify, hl]

/-- The slice of the new lock holds the caller's strings, normalized. -/
theorem Mem.appendNil_read_normalized (L : CompIDLib) (m : Mem.Store) (xs : Mem.Slice) :
    (Mem.appendNil m xs).1.read
      { cells := Mem.normalizeCells L (Mem.appendNil m xs).1 (Mem.appendNil m xs).2.cells
        next := (Mem.appendNil m xs).2.next } =
      (xs.read m).map L.NormalizeHMSCompID := by
  unfold Mem.appendNil
  by_cases hlen : xs.len = 0
  · simp [hlen, Mem.Slice.read]
  · simp only [hlen, if_false, Mem.Slice.read, List.map_map]
    apply List.map_congr_left
    intro i hi
    have hi1 : i < xs.len := List.mem_range.mp hi
    rw [Mem.normalizeCells_apply]
    have h1 : m.next ≤ m.next + i ∧ m.next + i < m.next + xs.len := by omega
    simp [h1]

/-- The cells allocated before the call are not written by `NewCompLock`. -/
theorem Mem.NewCompLock_cells_below (L : CompIDLib) (m : Mem.Store) (xs : Mem.Slice)
    (a : Nat) (ha : a < m.next) :
    Mem.normalizeCells L (Mem.appendNil m xs).1 (Mem.appendNil m xs).2.cells a = m.cells a := by
  rw [Mem.normalizeCells_apply]
  unfold Mem.appendNil
  by_cases hlen : xs.len = 0
  · simp [hlen]
  · have h1 : ¬ (m.next ≤ a ∧ a < m.next + xs.len) := by omega
    simp [hlen, h1]

/-- The memory-level `NewCompLock` returns what `NewCompLock` on the list of the
caller's strings returns. -/
theorem NewCompLock_of_memory (L : CompIDLib) (m : Mem.Store) (reason owner : String)
    (lifetime : Int) (xs : Mem.Slice) :
    NewCompLock L reason owner lifetime (xs.read m) =
      ((Mem.NewCompLock L m reason owner lifetime xs).1.toCompLock
          (Mem.NewCompLock L m reason owner lifetime xs).2.2,
        (Mem.NewCompLock L m reason owner lifetime xs).2.1) := by
  rw [Mem.NewCompLock_eq]
  simp only [Mem.CompLock.toCompLock, Mem.appendNil_read_normalized]
  by_cases hl : lifetime ≤ 0 <;>
    simp [NewCompLock, CompLock.Normalize, CompLock.Verify, hl]

/-- C32 (NewCompLock builds its own normalized copy).  For a caller's slice
that lies in allocated memory, `NewCompLock` returns a lock whose Reason, Owner
and Lifetime are the arguments and whose Xnames slice has the length of the
caller's slice and holds, element by element, the normalized strings of the
caller; no cell allocated before the call is written, so the caller's slice
reads as before; this holds whatever the returned error is, and the lock and
the error are those of `NewCompLock` on the list of the caller's strings. -/
theorem C32_NewCompLock_copy (L : CompIDLib) (m : Mem.Store) (reason owner : String)
    (lifetime : Int) (xs : Mem.Slice) (halloc : xs.ptr + xs.len ≤ m.next) :
    ∃ cl err m1, Mem.NewCompLock L m reason owner lifetime xs = (cl, err, m1) ∧
      cl.Reason = reason ∧ cl.Owner = owner ∧ cl.Lifetime = lifetime ∧
      cl.Xnames.len = xs.len ∧
      (∀ i, i < xs.len →
        m1.cells (cl.Xnames.ptr + i) = L.NormalizeHMSCompID (m.cells (xs.ptr + i))) ∧
      cl.Xnames.read m1 = (xs.read m).map L.NormalizeHMSCompID ∧
      (∀ a, a < m.next → m1.cells a = m.cells a) ∧
      xs.read m1 = xs.read m ∧
      NewCompLock L reason owner lifetime (xs.read m) = (cl.toCompLock m1, err) := by
  have hpure := NewCompLock_of_memory L m reason owner lifetime xs
  rw [Mem.NewCompLock_eq] at hpure
  refine ⟨_, _, _, Mem.NewCompLock_eq L m reason owner lifetime xs, rfl, rfl, rfl, ?_, ?_,
    Mem.appendNil_read_normalized L m xs, ?_, ?_, hpure⟩
  · show (Mem.appendNil m xs).1.len = xs.len
    unfold Mem.appendNil
    by_cases hlen : xs.len = 0
    · simp [hlen]
    · simp [hlen]
  · intro i hi
    show Mem.normalizeCells L (Mem.appendNil m xs).1 (Mem.appendNil m xs).2.cells
      ((Mem.appendNil m xs).1.ptr + i) = _
    rw [Mem.normalizeCells_apply]
    unfold Mem.appendNil
    have hlen : xs.len ≠ 0 := by omega
    have h1 : m.next ≤ m.next + i ∧ m.next + i < m.next + xs.len := by omega
    simp [hlen, h1]
  · intro a ha
    exact Mem.NewCompLock_cells_below L m xs a ha
  · unfold Mem.Slice.read
    apply List.map_congr_left
    intro i hi
    have hi1 : i < xs.len := List.mem_range.mp hi
    exact Mem.NewCompLock_cells_below L m xs (xs.ptr + i) (by omega)

/-- C32 at the caller's strings "X0C0S0B0N0" and "bogus" with lifetime 0: the
call returns ErrCompLockBadLifetime together with a lock that holds the
normalized strings in its own cells, and the caller's strings read as before. -/
theorem C32_NewCompLock_copy_witness :
    ∃ cl err m1, Mem.NewCompLock xnameIDs callerStore "r" "o" 0 ⟨1, 2⟩ = (cl, err, m1) ∧
      err = some HMSError.ErrCompLockBadLifetime ∧
      cl.Reason = "r" ∧ cl.Owner = "o" ∧ cl.Lifetime = 0 ∧
      cl.Xnames.read m1 = ["x0c0s0b0n0", "bogus"] ∧
      Mem.Slice.read ⟨1, 2⟩ m1 = ["X0C0S0B0N0", "bogus"] := by
  obtain ⟨cl, err, m1, hr, h1, h2, h3, -, -, hread, -, hxs, hpure⟩ :=
    C32_NewCompLock_copy xnameIDs callerStore "r" "o" 0 ⟨1, 2⟩ (by decide)
  refine ⟨cl, err, m1, hr, ?_, h1, h2, h3, ?_, ?_⟩
  · have herr : (NewCompLock xnameIDs "r" "o" 0 (Mem.Slice.read ⟨1, 2⟩ callerStore)).2 = err :=
      congrArg Prod.snd hpure
    rw [← herr]
    decide
  · rw [hread]
    decide
  · rw [hxs]
    decide

end HmsSmd
